import Mathlib

/-!
Shallow embedding of `HashOrderBook.hpp` (template class `HashOrderBook`).

The C++ container is templated over a `Key` satisfying `KeyConcept` and an
arbitrary `Value`; the repository instantiates both with integer price types
(`price_type = size_t` in `Tests.hpp`).  We embed keys and values as `Int`,
with C++ integer division/remainder rendered as `Int.tdiv` / `Int.tmod`
(truncation toward zero).  With `tick_size = 1` — the configuration used by
the repository's tests and by the spec's unit cases — this signed model agrees
exactly with the code's arithmetic.

Machine-word wrap-around (`size_t`) is not modelled: all keys in scope stay
far from `2^64`, where the instantiated code and this model coincide.
Fallible paths (`throw` in the C++) are modelled by an `Option String` error
component carried alongside the state that the operation leaves behind.
-/

/-- The compile-time template parameters of `HashOrderBook`:
`tick_size`, `fast_book_size` (N) and `collision_buckets` (C). -/
structure Config where
  tick : Int
  N : Nat
  C : Nat
deriving DecidableEq, Repr

/-- `enum class Side { BID, ASK }`. -/
inductive Side where
  | BID
  | ASK
deriving DecidableEq, Repr

/-- `_positiveMod(long x, long mod)`: C++ `%` (truncated remainder) followed by
an adjustment into `[0, mod)`, returned as `size_t`.  (The C++ throws on
`mod == 0`; theorems below always supply a positive modulus.) -/
def positiveMod (x m : Int) : Nat :=
  let result := x.tmod m
  (if result < 0 then result + m else result).toNat

/-- `_calc_collision_bucket(long index, long size)`: for `index ≥ 0` plain
division; for negative indices `std::abs(index + 1) / size + 1`. -/
def calcCollisionBucket (index size : Int) : Nat :=
  if 0 ≤ index then (index.tdiv size).toNat
  else (index + 1).natAbs / size.toNat + 1

/-- The signed ring index `long index = mid + offset_in_ticks` computed by
`_hash_key`, where `mid = fast_book_size / 2` and
`offset_in_ticks = (key - hashing_mid_price) / tick_size`. -/
def rawIndex (cfg : Config) (anchor key : Int) : Int :=
  ((cfg.N / 2 : Nat) : Int) + (key - anchor).tdiv cfg.tick

/-- `_hash_key(side, key, hash, collision_bucket, hashing_mid_price)`.
Returns `(hash, collision_bucket, returned bool)`.  The side-aware wrap test
(`BID` with `index > N`, `ASK` with `index < 0`) forces
`collision_bucket = collision_buckets + 1` and returns `false`; otherwise the
collision bucket comes from `_calc_collision_bucket` and the returned bool is
`collision_bucket < collision_buckets`. -/
def hashKey (cfg : Config) (anchor : Int) (side : Side) (key : Int) :
    Nat × Nat × Bool :=
  let index := rawIndex cfg anchor key
  let hash := positiveMod index (cfg.N : Int)
  if (side = Side.BID ∧ index > (cfg.N : Int)) ∨
     (side = Side.ASK ∧ index < 0) then
    (hash, cfg.C + 1, false)
  else
    let cb := calcCollisionBucket index (cfg.N : Int)
    (hash, cb, decide (cb < cfg.C))

/-- `bid_ask_node`: one optional `(Key, Value)` cell per side. -/
structure BANode where
  bid_value : Option (Int × Int)
  ask_value : Option (Int × Int)
deriving DecidableEq, Repr

instance : Inhabited BANode := ⟨⟨none, none⟩⟩

/-- The cell of `n` selected by `side` (the C++ accesses `bid_value` /
`ask_value` through matching `if(side == ...)` branches). -/
def BANode.cell (n : BANode) (side : Side) : Option (Int × Int) :=
  match side with
  | Side.BID => n.bid_value
  | Side.ASK => n.ask_value

/-- Replace the cell of `n` selected by `side`. -/
def BANode.setCell (n : BANode) (side : Side) (p : Option (Int × Int)) :
    BANode :=
  match side with
  | Side.BID => { n with bid_value := p }
  | Side.ASK => { n with ask_value := p }

/-- `bid_ask_collision_node`: a `bid_ask_node` tagged with its
`collision_index`. -/
structure CollisionNode extends BANode where
  collision_index : Nat
deriving DecidableEq, Repr

/-- The constructor `bid_ask_collision_node(key, value, side, collision_index)`:
only the cell of the given side is populated. -/
def CollisionNode.mk' (key value : Int) (side : Side) (ci : Nat) :
    CollisionNode :=
  { bid_value := if side = Side.BID then some (key, value) else none
    ask_value := if side = Side.ASK then some (key, value) else none
    collision_index := ci }

/-- `collision_bucket<buckets>`: the inline first slot, the owned secondary
slot array (`nodes`, length `C`) and the owned overflow list. -/
structure Bucket where
  first_node : BANode
  nodes : List BANode
  overflow_bucket : List CollisionNode
deriving DecidableEq, Repr

instance : Inhabited Bucket := ⟨⟨default, [], []⟩⟩

/-- The scalar members of `HashOrderBook` threaded through `_insert` even when
it targets a detached bucket array (as `rehash` does). -/
structure Scal where
  size : Nat
  best_bid : Option Int
  best_offer : Option Int
  current_mid_index : Nat
deriving DecidableEq, Repr

/-- The whole book: `_buckets`, `_hashing_mid_price` and the scalar state. -/
structure Book where
  buckets : List Bucket
  hashing_mid_price : Int
  sc : Scal
deriving DecidableEq, Repr

/-- A freshly constructed `HashOrderBook(hashing_mid_price)`: `N` buckets, each
with an empty first slot, `C` empty secondary slots and an empty overflow
list; `_current_mid_index = fast_book_size / 2`, `_size = 0`, BBO unset. -/
def emptyBuckets (cfg : Config) : List Bucket :=
  List.replicate cfg.N
    { first_node := ⟨none, none⟩
      nodes := List.replicate cfg.C ⟨none, none⟩
      overflow_bucket := [] }

def emptyBook (cfg : Config) (anchor : Int) : Book :=
  { buckets := emptyBuckets cfg
    hashing_mid_price := anchor
    sc := { size := 0, best_bid := none, best_offer := none
            current_mid_index := cfg.N / 2 } }

/-- `_find_node(side, key, overflow_bucket)`: first node whose cell of the
queried side is occupied with exactly this key (the C++ has one branch per
side; both read the side's own cell). -/
def findNode (side : Side) (key : Int) :
    List CollisionNode → Option CollisionNode
  | [] => none
  | n :: rest =>
    match n.toBANode.cell side with
    | some p => if p.1 = key then some n else findNode side key rest
    | none => findNode side key rest

/-- `_erase_node(side, key, overflow_bucket)`: walk the list; on the first node
whose queried-side cell holds `key`, reset that cell (the caller decrements
`_size` once iff the result is `true`); a node whose two cells are now both
empty is unlinked.  (The C++ also unlinks an untouched doubly-empty node and
then advances an invalidated iterator; such nodes never occur — every node is
created with one occupied cell and removed when both become empty — and we
render that dead path as unlink-and-continue.) -/
def eraseNode (side : Side) (key : Int) :
    List CollisionNode → Bool × List CollisionNode
  | [] => (false, [])
  | n :: rest =>
    match n.toBANode.cell side with
    | some p =>
      if p.1 = key then
        let n' : CollisionNode :=
          { toBANode := n.toBANode.setCell side none
            collision_index := n.collision_index }
        if n'.bid_value = none ∧ n'.ask_value = none then (true, rest)
        else (true, n' :: rest)
      else
        let r := eraseNode side key rest
        if n.bid_value = none ∧ n.ask_value = none then r
        else (r.1, n :: r.2)
    | none =>
      let r := eraseNode side key rest
      if n.bid_value = none ∧ n.ask_value = none then r
      else (r.1, n :: r.2)

/-- `key > _best_bid` for `std::optional`: an empty optional compares less than
every value, so this is `true` when `_best_bid` is unset. -/
def optKeyGt (key : Int) : Option Int → Bool
  | none => true
  | some b => decide (b < key)

/-- `key < _best_offer` for `std::optional`: an empty optional compares less
than every value, so this is `false` when `_best_offer` is unset. -/
def optKeyLt (key : Int) : Option Int → Bool
  | none => false
  | some b => decide (key < b)

/-- `_update_bbo_and_mid(side, key)`.  `bookAnchor` is the anchor the member
function `hash_key` reads (`_hashing_mid_price` — during `rehash` this is
still the old anchor).  Returns the error raised by the "massive mid move"
check, paired with the scalar state at that point. -/
def updateBBO (cfg : Config) (bookAnchor : Int) (side : Side) (key : Int)
    (sc : Scal) : Option String × Scal :=
  let bidChange : Bool := side = Side.BID && optKeyGt key sc.best_bid
  let offerChange : Bool := side = Side.ASK && optKeyLt key sc.best_offer
  let sc1 :=
    if bidChange then { sc with best_bid := some key }
    else if offerChange then { sc with best_offer := some key }
    else sc
  if sc1.best_bid.isSome && sc1.best_offer.isSome &&
     (bidChange || offerChange) then
    let newMid := (sc1.best_bid.getD 0 + sc1.best_offer.getD 0).tdiv 2
    let r := hashKey cfg bookAnchor side newMid
    if r.2.1 > 0 then
      (some "Massive mid point move! Untested functionality!", sc1)
    else (none, { sc1 with current_mid_index := r.1 })
  else if bidChange && sc1.best_bid.isSome then
    let r := hashKey cfg bookAnchor side (sc1.best_bid.getD 0)
    (none, { sc1 with current_mid_index := r.1 })
  else if offerChange && sc1.best_offer.isSome then
    let r := hashKey cfg bookAnchor side (sc1.best_offer.getD 0)
    (none, { sc1 with current_mid_index := r.1 })
  else (none, sc1)

/-- `_insert(side, key, value, buckets, hashing_mid_price)`.  `placeAnchor` is
the explicit `hashing_mid_price` argument used for addressing; `bookAnchor`
is the member anchor that `_update_bbo_and_mid` reads.  Result:
`(thrown error, returned bool, buckets, scalars)`; on a throw the components
record the state the C++ leaves behind (the cell is already written, `_size`
is not yet incremented).  The common write-out tail of the C++ is inlined
into the `collision_bucket == 0` and secondary-slot branches (in both, the
occupancy test has already established the target cell is empty). -/
def insertRaw (cfg : Config) (side : Side) (key value : Int)
    (buckets : List Bucket) (placeAnchor bookAnchor : Int) (sc : Scal) :
    Option String × Bool × List Bucket × Scal :=
  let r := hashKey cfg placeAnchor side key
  let hash := r.1
  let cb := r.2.1
  let bucket := buckets.getD hash default
  if cb = 0 then
    -- we're looking in "first_node"
    if (bucket.first_node.cell side).isSome then (none, false, buckets, sc)
    else
      let node' := bucket.first_node.setCell side (some (key, value))
      let buckets' := buckets.set hash { bucket with first_node := node' }
      match updateBBO cfg bookAnchor side key sc with
      | (some e, sc1) => (some e, false, buckets', sc1)
      | (none, sc1) => (none, true, buckets', { sc1 with size := sc1.size + 1 })
  else if cb - 1 < cfg.C then
    -- we're looking in nodes, index collision_bucket - 1
    let idx := cb - 1
    let node := bucket.nodes.getD idx default
    if (node.cell side).isSome then (none, false, buckets, sc)
    else
      let node' := node.setCell side (some (key, value))
      let buckets' :=
        buckets.set hash { bucket with nodes := bucket.nodes.set idx node' }
      match updateBBO cfg bookAnchor side key sc with
      | (some e, sc1) => (some e, false, buckets', sc1)
      | (none, sc1) => (none, true, buckets', { sc1 with size := sc1.size + 1 })
  else
    -- overflow buckets
    match findNode side key bucket.overflow_bucket with
    | none =>
      let buckets' := buckets.set hash
        { bucket with
          overflow_bucket := CollisionNode.mk' key value side cb ::
            bucket.overflow_bucket }
      (none, true, buckets', { sc with size := sc.size + 1 })
    | some n =>
      if (n.toBANode.cell side).isSome then (none, false, buckets, sc)
      else
        -- dead in practice: `_find_node` only returns occupied matches; the
        -- C++ here would write through `optional::value()` on an empty
        -- optional, which throws std::bad_optional_access
        (some "bad_optional_access", false, buckets, sc)

/-- Public `insert(side, key, value)`: `_insert` on the book's own buckets and
anchor. -/
def insertB (cfg : Config) (book : Book) (side : Side) (key value : Int) :
    Option String × Bool × Book :=
  match insertRaw cfg side key value book.buckets book.hashing_mid_price
      book.hashing_mid_price book.sc with
  | (e, ok, bks, sc) =>
    (e, ok, { book with buckets := bks, sc := sc })

/-- The shared tail of `find`: inspect the located node's cell for the queried
side; occupied with a different key is the fatal "key mismatch"; occupied with
the queried key copies out the value. -/
def probeNode (side : Side) (key : Int) (n : BANode) :
    Option String × Option Int :=
  match n.cell side with
  | some p => if key ≠ p.1 then (some "key mismatch", none) else (none, some p.2)
  | none => (none, none)

/-- `find(side, key, value)` against explicit buckets and anchor.  Result
`(thrown error, copied-out value if returned true)`. -/
def findRaw (cfg : Config) (anchor : Int) (buckets : List Bucket)
    (side : Side) (key : Int) : Option String × Option Int :=
  let r := hashKey cfg anchor side key
  let hash := r.1
  let cb := r.2.1
  let bucket := buckets.getD hash default
  if cb = 0 then
    if (bucket.first_node.cell side).isSome then
      probeNode side key bucket.first_node
    else (none, none)
  else if cb - 1 < cfg.C then
    probeNode side key (bucket.nodes.getD (cb - 1) default)
  else
    match findNode side key bucket.overflow_bucket with
    | some n => probeNode side key n.toBANode
    | none => (none, none)

/-- Public `find(side, key, value)`. -/
def findB (cfg : Config) (book : Book) (side : Side) (key : Int) :
    Option String × Option Int :=
  findRaw cfg book.hashing_mid_price book.buckets side key

/-- `erase(side, key)`: `(thrown error, returned bool, book after)`. -/
def eraseB (cfg : Config) (book : Book) (side : Side) (key : Int) :
    Option String × Bool × Book :=
  let r := hashKey cfg book.hashing_mid_price side key
  let hash := r.1
  let cb := r.2.1
  let bucket := book.buckets.getD hash default
  if cb = 0 then
    match bucket.first_node.cell side with
    | none => (none, false, book)
    | some p =>
      if key ≠ p.1 then (some "key mismatch", false, book)
      else
        let node' := bucket.first_node.setCell side none
        (none, true,
          { book with
            buckets := book.buckets.set hash { bucket with first_node := node' }
            sc := { book.sc with size := book.sc.size - 1 } })
  else if cb - 1 < cfg.C then
    let idx := cb - 1
    let node := bucket.nodes.getD idx default
    match node.cell side with
    | none => (none, false, book)
    | some p =>
      if key ≠ p.1 then (some "key mismatch", false, book)
      else
        let node' := node.setCell side none
        (none, true,
          { book with
            buckets := book.buckets.set hash
              { bucket with nodes := bucket.nodes.set idx node' }
            sc := { book.sc with size := book.sc.size - 1 } })
  else
    let r' := eraseNode side key bucket.overflow_bucket
    (none, r'.1,
      { book with
        buckets := book.buckets.set hash { bucket with overflow_bucket := r'.2 }
        sc := { book.sc with
                size := if r'.1 then book.sc.size - 1 else book.sc.size } })

/-- `clear()`: reset every cell of every tier, clear the overflow lists, zero
`_size`, reset the BBO (`_current_mid_index` is left as is). -/
def clearB (book : Book) : Book :=
  { buckets := book.buckets.map fun b =>
      { first_node := ⟨none, none⟩
        nodes := b.nodes.map fun _ => ⟨none, none⟩
        overflow_bucket := [] }
    hashing_mid_price := book.hashing_mid_price
    sc := { size := 0, best_bid := none, best_offer := none
            current_mid_index := book.sc.current_mid_index } }

/-- The occupied cells of one slot, in the order `rehash` visits them
(bid first, then ask). -/
def nodeTriples (n : BANode) : List (Side × Int × Int) :=
  (match n.bid_value with
   | some p => [(Side.BID, p.1, p.2)]
   | none => []) ++
  (match n.ask_value with
   | some p => [(Side.ASK, p.1, p.2)]
   | none => [])

/-- The occupied cells of one primary bucket in `rehash` order: first slot,
then the secondary slots, then the overflow list. -/
def bucketTriples (b : Bucket) : List (Side × Int × Int) :=
  nodeTriples b.first_node ++
  b.nodes.flatMap nodeTriples ++
  b.overflow_bucket.flatMap (fun n => nodeTriples n.toBANode)

/-- All occupied cells of the book, bucket by bucket, in `rehash` order. -/
def bookTriples (book : Book) : List (Side × Int × Int) :=
  book.buckets.flatMap bucketTriples

/-- The reinsertion loop of `rehash`: `_insert` each extracted cell into the
fresh buckets (addressed by the new anchor, while `_update_bbo_and_mid` still
reads the old member anchor); a reinsert returning `false` raises
"Failed to insert into new buckets". -/
def reinsertList (cfg : Config) (placeAnchor bookAnchor : Int) :
    List (Side × Int × Int) → List Bucket → Scal →
    Option String × List Bucket × Scal
  | [], bks, sc => (none, bks, sc)
  | (s, k, v) :: rest, bks, sc =>
    match insertRaw cfg s k v bks placeAnchor bookAnchor sc with
    | (some e, _, bks', sc') => (some e, bks', sc')
    | (none, false, bks', sc') =>
      (some "Failed to insert into new buckets", bks', sc')
    | (none, true, bks', sc') => reinsertList cfg placeAnchor bookAnchor rest bks' sc'

/-- `rehash(hashing_mid_price)`: build fresh empty buckets, reset `_size` to 0,
reinsert every occupied cell, then install the new buckets and the new anchor.
On a throw the old buckets are still in place (the freshly built array is
discarded) and `_size` holds the partial reinsert count. -/
def rehashB (cfg : Config) (book : Book) (newAnchor : Int) :
    Option String × Book :=
  let sc0 := { book.sc with size := 0 }
  match reinsertList cfg newAnchor book.hashing_mid_price (bookTriples book)
      (emptyBuckets cfg) sc0 with
  | (some e, _, sc') => (some e, { book with sc := sc' })
  | (none, bks', sc') =>
    (none, { buckets := bks', hashing_mid_price := newAnchor, sc := sc' })

/-- Number of occupied cells in one slot. -/
def nodeCells (n : BANode) : Nat :=
  (if n.bid_value.isSome then 1 else 0) + (if n.ask_value.isSome then 1 else 0)

/-- Number of occupied cells in one primary bucket (all three tiers). -/
def bucketCells (b : Bucket) : Nat :=
  nodeCells b.first_node +
  (b.nodes.map nodeCells).sum +
  (b.overflow_bucket.map fun n => nodeCells n.toBANode).sum

/-- Number of occupied `(side, Key)` cells across all tiers of the book. -/
def cellCount (book : Book) : Nat :=
  (book.buckets.map bucketCells).sum

/-- One public mutating call of the interface. -/
inductive Op where
  | ins (s : Side) (k v : Int)
  | del (s : Side) (k : Int)
  | clr
  | reh (a : Int)
deriving DecidableEq, Repr

/-- Run a sequence of calls from a starting book, counting successful inserts
and successful erases and recording whether any `rehash` raised; state is
threaded onward even past an error (the C++ object survives the throw). -/
def runStats (cfg : Config) : List Op → Book → Nat × Nat × Bool × Book
  | [], book => (0, 0, false, book)
  | op :: rest, book =>
    let step : Bool × Book :=
      match op with
      | Op.ins s k v =>
        match insertB cfg book s k v with
        | (_, ok, b') => (ok, b')
      | Op.del s k =>
        match eraseB cfg book s k with
        | (_, ok, b') => (ok, b')
      | Op.clr => (false, clearB book)
      | Op.reh a =>
        match rehashB cfg book a with
        | (e, b') => (e.isNone, b')
    let r := runStats cfg rest step.2
    match op with
    | Op.ins _ _ _ => (r.1 + (if step.1 then 1 else 0), r.2.1, r.2.2)
    | Op.del _ _ => (r.1, r.2.1 + (if step.1 then 1 else 0), r.2.2)
    | Op.clr => r
    | Op.reh _ => (r.1, r.2.1, (r.2.2.1 || !step.1, r.2.2.2))

/-- The final book after a sequence of calls. -/
def runOps (cfg : Config) (ops : List Op) (book : Book) : Book :=
  (runStats cfg ops book).2.2.2

/-- A sequence of `insert` calls, all of which must succeed (return `true`
without throwing). -/
def insertAll (cfg : Config) : List (Side × Int × Int) → Book → Option Book
  | [], book => some book
  | (s, k, v) :: rest, book =>
    match insertB cfg book s k v with
    | (none, true, b') => insertAll cfg rest b'
    | _ => none

/-! ## Arithmetic facts about the address computation -/

/-- The address map exactly as the spec's §4.1 words state it (spec-side
definition, for comparison with the code's `_hash_key`): primary index is
`raw_index mod N` normalized to `[0, N)`, and the collision index is piecewise
in the sign of `raw_index`: plain division for `raw_index ≥ 0`, and
`|raw_index + 1| / N + 1` for `raw_index < 0`. -/
def specAddress (cfg : Config) (anchor key : Int) : Nat × Nat :=
  let raw := rawIndex cfg anchor key
  ((raw % (cfg.N : Int)).toNat,
   if 0 ≤ raw then (raw / (cfg.N : Int)).toNat
   else (raw + 1).natAbs / cfg.N + 1)

/-- The configuration of the spec's §8 unit cases: `N=10, C=3, TickSize=1`. -/
def cfgUnit : Config := ⟨1, 10, 3⟩

/-- Book after `insert(BID, 110, 1)` on a fresh `N=10, C=3` book anchored
at 110. -/
def bookB110 : Book := (insertB cfgUnit (emptyBook cfgUnit 110) Side.BID 110 1).2.2

/-- Book holding `Bid 105` (first slot of bucket 0) and `Bid 125`
(wrap-rejected to the overflow list of bucket 0) under anchor 110. -/
def bookBid105Bid125 : Book :=
  (insertAll cfgUnit [(Side.BID, 105, 1), (Side.BID, 125, 2)]
    (emptyBook cfgUnit 110)).getD (emptyBook cfgUnit 110)

/-- Book after inserting a bid and an ask at price 145 — both routed to the
overflow list of bucket 0 (`Bid 145` by wrap rejection, `Ask 145` with
collision index `4 > C`). -/
def bookTwoOverflow : Book :=
  (insertAll cfgUnit [(Side.BID, 145, 1), (Side.ASK, 145, 2)]
    (emptyBook cfgUnit 110)).getD (emptyBook cfgUnit 110)

/-- No stored `(side, key)` cell of the book is wrap-rejected when re-addressed
with `newAnchor` — the side condition of the spec's rehash-preservation
property. -/
def noFatalWrap (cfg : Config) (book : Book) (newAnchor : Int) : Prop :=
  ∀ t ∈ bookTriples book,
    ¬ ((t.1 = Side.BID ∧ rawIndex cfg newAnchor t.2.1 > (cfg.N : Int)) ∨
       (t.1 = Side.ASK ∧ rawIndex cfg newAnchor t.2.1 < 0))

instance (cfg : Config) (book : Book) (newAnchor : Int) :
    Decidable (noFatalWrap cfg book newAnchor) := by
  unfold noFatalWrap
  exact List.decidableBAll _ _

/-- Abbreviation: the scalar state `_insert` leaves after its write-out tail —
`_update_bbo_and_mid`'s state, with `_size` incremented iff it did not throw. -/
def scAfterBBO (u : Option String × Scal) : Scal :=
  if u.1.isNone then { u.2 with size := u.2.size + 1 } else u.2

/-- The structural shape every reachable bucket array has: `N` primary
buckets, each with `C` secondary slots. -/
def goodShape (cfg : Config) (bks : List Bucket) : Prop :=
  bks.length = cfg.N ∧ ∀ b ∈ bks, b.nodes.length = cfg.C

instance (cfg : Config) (bks : List Bucket) : Decidable (goodShape cfg bks) := by
  unfold goodShape
  exact instDecidableAnd

/-- Whether an overflow node's queried-side cell holds exactly this key — the
match criterion shared by `_find_node` and `_erase_node`. -/
def nodeMatches (s : Side) (k : Int) (n : CollisionNode) : Bool :=
  match n.toBANode.cell s with
  | some p => p.1 == k
  | none => false

/-- An overflow list with at most one node per `(side, key)` — the shape every
reachable list has, since `_insert` prepends only after `_find_node` misses. -/
def dupFreeList (l : List CollisionNode) : Prop :=
  ∀ s k, l.countP (nodeMatches s k) ≤ 1

def dupFreeBuckets (bks : List Bucket) : Prop :=
  ∀ b ∈ bks, dupFreeList b.overflow_bucket

/-- The concrete insert sequence used by the C1 witness: one key per tier
(first slot, secondary slot, overflow). -/
def rtOps : List (Side × Int × Int) :=
  [(Side.BID, 110, 1), (Side.ASK, 135, 2), (Side.BID, 145, 3)]

def rtBook : Book :=
  (insertAll cfgUnit rtOps (emptyBook cfgUnit 110)).getD (emptyBook cfgUnit 110)

/-- The calls allowed between the first insert of `(s, k)` and its duplicate:
any insert, and any erase that does not target `(s, k)`. -/
def insOrOtherDel (s : Side) (k : Int) : Op → Prop
  | Op.ins _ _ _ => True
  | Op.del s2 k2 => ¬ (s2 = s ∧ k2 = k)
  | Op.clr => False
  | Op.reh _ => False

instance (s : Side) (k : Int) (op : Op) : Decidable (insOrOtherDel s k op) := by
  cases op <;> simp only [insOrOtherDel] <;> infer_instance

/-- Occupied cells of an overflow list. -/
def listCells (l : List CollisionNode) : Nat :=
  (l.map fun n => nodeCells n.toBANode).sum

/-- Occupied cells of a bucket array. -/
def cellsOf (bks : List Bucket) : Nat := (bks.map bucketCells).sum

/-- The cell that `(side, key)` routes to in `bks` (under placement anchor
`pA`) can accept a fresh insert: the first slot is empty, the secondary slot
is empty, or no overflow node of this side holds this key. -/
def targetFree (cfg : Config) (pA : Int) (s : Side) (k : Int)
    (bks : List Bucket) : Bool :=
  if (hashKey cfg pA s k).2.1 = 0 then
    !((bks.getD (hashKey cfg pA s k).1 default).first_node.cell s).isSome
  else if (hashKey cfg pA s k).2.1 - 1 < cfg.C then
    !(((bks.getD (hashKey cfg pA s k).1 default).nodes.getD
      ((hashKey cfg pA s k).2.1 - 1) default).cell s).isSome
  else
    (findNode s k
      (bks.getD (hashKey cfg pA s k).1 default).overflow_bucket).isNone

/-- Two `(side, key)` pairs contend for the same storage under anchor `pA`:
same side, same primary bucket, and either the same non-overflow slot or
both in the overflow tier with the same key. -/
def conflict (cfg : Config) (pA : Int) (s : Side) (k : Int)
    (s2 : Side) (k2 : Int) : Prop :=
  s = s2 ∧ (hashKey cfg pA s k).1 = (hashKey cfg pA s2 k2).1 ∧
  ((hashKey cfg pA s k).2.1 = (hashKey cfg pA s2 k2).2.1 ∧
     ((hashKey cfg pA s k).2.1 = 0 ∨
      (hashKey cfg pA s k).2.1 - 1 < cfg.C) ∨
   ¬ ((hashKey cfg pA s k).2.1 = 0 ∨
      (hashKey cfg pA s k).2.1 - 1 < cfg.C) ∧
   ¬ ((hashKey cfg pA s2 k2).2.1 = 0 ∨
      (hashKey cfg pA s2 k2).2.1 - 1 < cfg.C) ∧ k = k2)

instance (cfg : Config) (pA : Int) (s : Side) (k : Int) (s2 : Side)
    (k2 : Int) : Decidable (conflict cfg pA s k s2 k2) := by
  unfold conflict
  infer_instance

theorem tmod_range (x : Int) (N : Nat) (hN : 0 < N) :
    -(N : Int) < x.tmod N ∧ x.tmod N < N := by
  cases x with
  | ofNat m =>
    have h1 : (Int.ofNat m).tmod (N : Int) = ((m % N : Nat) : Int) := rfl
    have h2 := Nat.mod_lt m hN
    rw [h1]
    omega
  | negSucc m =>
    have h1 : (Int.negSucc m).tmod (N : Int) = -(((m + 1) % N : Nat) : Int) := rfl
    have h2 := Nat.mod_lt (m + 1) hN
    rw [h1]
    omega

/-- `_positiveMod` agrees with the euclidean remainder for a positive modulus:
the result is `x mod N` normalized into `[0, N)`. -/
theorem positiveMod_eq_emod (x : Int) (N : Nat) (hN : 0 < N) :
    positiveMod x (N : Int) = (x % (N : Int)).toNat := by
  have hr := tmod_range x N hN
  have hdvd : x % (N : Int) = x.tmod N % (N : Int) := by
    rw [Int.emod_eq_emod_iff_emod_sub_eq_zero]
    have h3 := Int.tmod_add_tdiv x (N : Int)
    have h4 : x - x.tmod (N : Int) = (N : Int) * x.tdiv (N : Int) := by omega
    rw [h4]
    exact Int.mul_emod_right _ _
  unfold positiveMod
  by_cases hneg : x.tmod (N : Int) < 0
  · have h5 : x.tmod (N : Int) % (N : Int) =
        (x.tmod (N : Int) + (N : Int) * 1) % (N : Int) := by
      rw [Int.add_mul_emod_self_left]
    have h6 : (x.tmod (N : Int) + (N : Int) * 1) % (N : Int) =
        x.tmod (N : Int) + (N : Int) := by
      rw [Int.emod_eq_of_lt (by omega) (by omega)]
      ring
    simp only [if_pos hneg]
    omega
  · have h6 : x.tmod (N : Int) % (N : Int) = x.tmod (N : Int) :=
      Int.emod_eq_of_lt (by omega) (by omega)
    simp only [if_neg hneg]
    omega

theorem positiveMod_lt (x : Int) (N : Nat) (hN : 0 < N) :
    positiveMod x (N : Int) < N := by
  rw [positiveMod_eq_emod x N hN]
  have h1 := Int.emod_lt_of_pos x (b := (N : Int)) (by omega)
  have h2 := Int.emod_nonneg x (b := (N : Int)) (by omega)
  omega

/-- `_hash_key` on a wrap-rejected input: the full result tuple. -/
theorem hashKey_wrap (cfg : Config) (anchor key : Int) (side : Side)
    (hwrap : (side = Side.BID ∧ rawIndex cfg anchor key > (cfg.N : Int)) ∨
             (side = Side.ASK ∧ rawIndex cfg anchor key < 0)) :
    hashKey cfg anchor side key =
      (positiveMod (rawIndex cfg anchor key) (cfg.N : Int), cfg.C + 1, false) := by
  unfold hashKey
  rw [if_pos hwrap]

/-- `_hash_key` away from the wrap rejection: the full result tuple. -/
theorem hashKey_nowrap (cfg : Config) (anchor key : Int) (side : Side)
    (hnowrap : ¬ ((side = Side.BID ∧ rawIndex cfg anchor key > (cfg.N : Int)) ∨
                  (side = Side.ASK ∧ rawIndex cfg anchor key < 0))) :
    hashKey cfg anchor side key =
      (positiveMod (rawIndex cfg anchor key) (cfg.N : Int),
       calcCollisionBucket (rawIndex cfg anchor key) (cfg.N : Int),
       decide (calcCollisionBucket (rawIndex cfg anchor key) (cfg.N : Int) <
         cfg.C)) := by
  unfold hashKey
  rw [if_neg hnowrap]

/-- Claim C3 (confirmed): for every key, if the side is Bid and
`raw_index > N`, or the side is Ask and `raw_index < 0`, `_hash_key` sets
`collision_bucket = collision_buckets + 1` regardless of the piecewise
collision-tier formula, while the hash is still `raw_index mod N` normalized
into `[0, N)`. -/
theorem hash_key_wrap_rejection (cfg : Config) (anchor key : Int) (side : Side)
    (hN : 0 < cfg.N)
    (hwrap : (side = Side.BID ∧ rawIndex cfg anchor key > (cfg.N : Int)) ∨
             (side = Side.ASK ∧ rawIndex cfg anchor key < 0)) :
    (hashKey cfg anchor side key).2.1 = cfg.C + 1 ∧
    ((hashKey cfg anchor side key).1 : Int) =
      rawIndex cfg anchor key % (cfg.N : Int) ∧
    (hashKey cfg anchor side key).1 < cfg.N := by
  rw [hashKey_wrap cfg anchor key side hwrap]
  refine ⟨rfl, ?_, ?_⟩
  · rw [positiveMod_eq_emod _ _ hN]
    have h1 := Int.emod_nonneg (rawIndex cfg anchor key) (b := (cfg.N : Int))
      (by omega)
    omega
  · exact positiveMod_lt _ _ hN

/-- Witness for C3 at `cfg = (1, 10, 3)`, anchor 110, `Bid 135`
(`raw_index = 30 > 10`). -/
theorem hash_key_wrap_rejection_witness :
    (0 < cfgUnit.N ∧
      (Side.BID = Side.BID ∧ rawIndex cfgUnit 110 135 > (cfgUnit.N : Int))) ∧
    (hashKey cfgUnit 110 Side.BID 135).2.1 = cfgUnit.C + 1 := by
  refine ⟨⟨by decide, rfl, by decide⟩, ?_⟩
  exact (hash_key_wrap_rejection cfgUnit 110 135 Side.BID (by decide)
    (Or.inl ⟨rfl, by decide⟩)).1

/-- Claim C2 counterexample: at `N=10, C=3, TickSize=1`, anchor 110 the code
maps `Bid 85` to address `(0, 2)` — a secondary-slot address whose collision
index is **below** `C = 3` — not to overflow as the claim's listed pairs
state (`raw_index = -20`, and `|-20 + 1| / 10 + 1 = 2`). -/
theorem address_unit_case_bid85_fails :
    hashKey cfgUnit 110 Side.BID 85 = (0, 2, true) ∧
    ¬ ((hashKey cfgUnit 110 Side.BID 85).2.1 ≥ 3) := by decide

/-- Claim C2 (corrected): away from the side-aware wrap rejection, `_hash_key`
computes exactly the spec's piecewise address: primary index
`raw_index mod N` normalized to `[0, N)` and the piecewise collision index;
and on the `N=10, C=3, TickSize=1, anchor=110` configuration it yields the
listed pairs — with `Bid 85` corrected to the secondary address `(0, 2)`
(collision index `2 < C`), not overflow. -/
theorem address_arithmetic :
    (∀ (cfg : Config) (anchor key : Int) (side : Side), 0 < cfg.N →
      ¬ ((side = Side.BID ∧ rawIndex cfg anchor key > (cfg.N : Int)) ∨
         (side = Side.ASK ∧ rawIndex cfg anchor key < 0)) →
      ((hashKey cfg anchor side key).1, (hashKey cfg anchor side key).2.1) =
        specAddress cfg anchor key ∧
      (hashKey cfg anchor side key).1 < cfg.N) ∧
    ((fun p => (p.1, p.2.1)) (hashKey cfgUnit 110 Side.ASK 110) = (5, 0) ∧
     (fun p => (p.1, p.2.1)) (hashKey cfgUnit 110 Side.ASK 114) = (9, 0) ∧
     (fun p => (p.1, p.2.1)) (hashKey cfgUnit 110 Side.ASK 115) = (0, 1) ∧
     (fun p => (p.1, p.2.1)) (hashKey cfgUnit 110 Side.ASK 124) = (9, 1) ∧
     (fun p => (p.1, p.2.1)) (hashKey cfgUnit 110 Side.ASK 125) = (0, 2) ∧
     (fun p => (p.1, p.2.1)) (hashKey cfgUnit 110 Side.ASK 134) = (9, 2) ∧
     (hashKey cfgUnit 110 Side.ASK 135).2.1 ≥ 3 ∧
     (fun p => (p.1, p.2.1)) (hashKey cfgUnit 110 Side.BID 105) = (0, 0) ∧
     (fun p => (p.1, p.2.1)) (hashKey cfgUnit 110 Side.BID 104) = (9, 1) ∧
     (fun p => (p.1, p.2.1)) (hashKey cfgUnit 110 Side.BID 95) = (0, 1) ∧
     (fun p => (p.1, p.2.1)) (hashKey cfgUnit 110 Side.BID 94) = (9, 2) ∧
     (fun p => (p.1, p.2.1)) (hashKey cfgUnit 110 Side.BID 85) = (0, 2)) := by
  constructor
  · intro cfg anchor key side hN hnowrap
    rw [hashKey_nowrap cfg anchor key side hnowrap]
    refine ⟨?_, positiveMod_lt _ _ hN⟩
    have hhash : positiveMod (rawIndex cfg anchor key) (cfg.N : Int) =
        (rawIndex cfg anchor key % (cfg.N : Int)).toNat :=
      positiveMod_eq_emod _ _ hN
    unfold specAddress calcCollisionBucket
    by_cases hpos : 0 ≤ rawIndex cfg anchor key
    · simp only [if_pos hpos, hhash]
      rw [Int.tdiv_eq_ediv hpos (by omega)]
    · simp only [if_neg hpos, hhash, Int.toNat_natCast]
  · decide

/-- Witness for the quantified part of C2 at `cfg = (1, 10, 3)`, anchor 110,
`Bid 104` (no wrap applies; address `(9, 1)`). -/
theorem address_arithmetic_witness :
    (0 < cfgUnit.N ∧
      ¬ ((Side.BID = Side.BID ∧ rawIndex cfgUnit 110 104 > (cfgUnit.N : Int)) ∨
         (Side.BID = Side.ASK ∧ rawIndex cfgUnit 110 104 < 0))) ∧
    ((hashKey cfgUnit 110 Side.BID 104).1,
      (hashKey cfgUnit 110 Side.BID 104).2.1) = specAddress cfgUnit 110 104 := by
  refine ⟨⟨by decide, by decide⟩, ?_⟩
  exact (address_arithmetic.1 cfgUnit 110 104 Side.BID (by decide)
    (by decide)).1

/-! ## Concrete books used by counterexamples and code-bug demonstrations -/

/-- Claim C8 (code bug): BBO tracking does not behave as specified.
`key < _best_offer` compares a value against an `std::optional`; when
`_best_offer` is unset this is `false`, so a successful ask insert on a fresh
book leaves `_best_offer` unset instead of initializing it to the minimum ask
key (111 here).  Independently, a successful bid insert routed to the
overflow list returns before `_update_bbo_and_mid`, so `_best_bid` also stays
unset although the maximum bid key inserted is 145. -/
theorem bbo_update_fails_on_code :
    (insertB cfgUnit (emptyBook cfgUnit 110) Side.ASK 111 7).2.1 = true ∧
    ((insertB cfgUnit (emptyBook cfgUnit 110) Side.ASK 111 7).2.2).sc.best_offer
      = none ∧
    (insertB cfgUnit (emptyBook cfgUnit 110) Side.BID 145 7).2.1 = true ∧
    ((insertB cfgUnit (emptyBook cfgUnit 110) Side.BID 145 7).2.2).sc.best_bid
      = none := by decide

/-- Claim C9 (code bug): no overflow-node reuse.  `_find_node` only returns a
node whose *queried-side* cell is occupied with the key, so the
"matching empty-cell node" repopulation branch of `_insert` is unreachable: a
bid and an ask inserted at the same overflow-routed price 145 both succeed but
occupy **two** list nodes instead of sharing one. -/
theorem overflow_nodes_not_shared :
    insertAll cfgUnit [(Side.BID, 145, 1), (Side.ASK, 145, 2)]
      (emptyBook cfgUnit 110) = some bookTwoOverflow ∧
    (hashKey cfgUnit 110 Side.BID 145).2.1 ≥ cfgUnit.C + 1 ∧
    (hashKey cfgUnit 110 Side.ASK 145).2.1 ≥ cfgUnit.C + 1 ∧
    (hashKey cfgUnit 110 Side.BID 145).1 = 0 ∧
    (hashKey cfgUnit 110 Side.ASK 145).1 = 0 ∧
    (bookTwoOverflow.buckets.getD 0 default).overflow_bucket.length = 2 ∧
    (findB cfgUnit bookTwoOverflow Side.BID 145).2 = some 1 ∧
    (findB cfgUnit bookTwoOverflow Side.ASK 145).2 = some 2 := by decide

/-- Claim C4 counterexample: a key whose collision index equals exactly `C` is
served by secondary slot `C - 1`, not by the overflow list.  `Ask 135` has
address `(0, 3)` with `C = 3`; inserting it lands in `nodes[2]` of bucket 0
and the overflow list stays empty. -/
theorem tier_routing_cb_eq_C_fails :
    (hashKey cfgUnit 110 Side.ASK 135).2.1 = cfgUnit.C ∧
    (insertB cfgUnit (emptyBook cfgUnit 110) Side.ASK 135 7).2.1 = true ∧
    (((insertB cfgUnit (emptyBook cfgUnit 110) Side.ASK 135 7).2.2).buckets.getD
      0 default).overflow_bucket = [] ∧
    ((((insertB cfgUnit (emptyBook cfgUnit 110) Side.ASK 135 7).2.2).buckets.getD
      0 default).nodes.getD 2 default).ask_value = some (135, 7) := by decide

/-- Claim C5 counterexample: a book for which no stored key is wrap-rejected
under the new anchor 120, yet `rehash(120)` throws: `Bid 105` re-addresses to
`(0, 1)` via raw index `-10` and `Bid 125` to `(0, 1)` via raw index `10`, so
the second reinsert hits an occupied cell and `rehash` raises
"Failed to insert into new buckets". -/
theorem rehash_throws_without_fatal_wrap :
    insertAll cfgUnit [(Side.BID, 105, 1), (Side.BID, 125, 2)]
      (emptyBook cfgUnit 110) = some bookBid105Bid125 ∧
    noFatalWrap cfgUnit bookBid105Bid125 120 ∧
    (rehashB cfgUnit bookBid105Bid125 120).1 =
      some "Failed to insert into new buckets" := by decide

/-- Claim C6 counterexample: observing the state paired with a `rehash` error,
`size()` does not equal the number of occupied cells: after the failed
`rehash(120)` on `bookBid105Bid125`, `_size` is 1 (the partial reinsert
count) while the retained old buckets still hold 2 occupied cells. -/
theorem size_invariant_fails_after_failed_rehash :
    (rehashB cfgUnit bookBid105Bid125 120).1.isSome = true ∧
    ((rehashB cfgUnit bookBid105Bid125 120).2).sc.size = 1 ∧
    cellCount (rehashB cfgUnit bookBid105Bid125 120).2 = 2 := by decide

/-! ## Failed inserts leave the book unchanged -/

/-- Every `return false` path of `_insert` happens before any mutation: the
bucket array and all scalar state are returned untouched. -/
theorem insertRaw_false_noop (cfg : Config) (side : Side) (key value : Int)
    (bks : List Bucket) (pA bA : Int) (sc : Scal) (bks2 : List Bucket)
    (sc2 : Scal)
    (h : insertRaw cfg side key value bks pA bA sc = (none, false, bks2, sc2)) :
    bks2 = bks ∧ sc2 = sc := by
  simp only [insertRaw] at h
  repeat' split at h
  all_goals simp only [Prod.mk.injEq] at h
  all_goals first
    | exact ⟨h.2.2.1.symm, h.2.2.2.symm⟩
    | exact Option.noConfusion h.1
    | exact Bool.noConfusion h.2.1

/-- Claim C10 (confirmed): whenever `insert` returns `false` (without
throwing), the entire book state — every cell of every tier, `size`,
`best_bid`, `best_offer`, and `current_mid_index` — is identical to the state
before the call. -/
theorem failed_insert_atomic (cfg : Config) (book : Book) (side : Side)
    (key value : Int) (b2 : Book)
    (h : insertB cfg book side key value = (none, false, b2)) : b2 = book := by
  unfold insertB at h
  rcases hr : insertRaw cfg side key value book.buckets book.hashing_mid_price
      book.hashing_mid_price book.sc with ⟨e, ok, bksr, scr⟩
  rw [hr] at h
  simp only [Prod.mk.injEq] at h
  obtain ⟨he, hok, hb⟩ := h
  subst he hok
  obtain ⟨hbk, hsc⟩ := insertRaw_false_noop cfg side key value book.buckets
    book.hashing_mid_price book.hashing_mid_price book.sc bksr scr hr
  rw [← hb, hbk, hsc]

/-- Witness for C10: the duplicate insert `insert(BID, 110, 9)` on `bookB110`
returns `false` and leaves the book equal to `bookB110`. -/
theorem failed_insert_atomic_witness :
    insertB cfgUnit bookB110 Side.BID 110 9 =
      (none, false, (insertB cfgUnit bookB110 Side.BID 110 9).2.2) ∧
    (insertB cfgUnit bookB110 Side.BID 110 9).2.2 = bookB110 := by
  refine ⟨by decide, ?_⟩
  exact failed_insert_atomic cfgUnit bookB110 Side.BID 110 9 _ (by decide)

/-! ## machinery -/

theorem getD_set_self {α : Type} (l : List α) (n : Nat) (a d : α)
    (h : n < l.length) : (l.set n a).getD n d = a := by
  simp [List.getD_eq_getElem?_getD, List.getElem?_set_self, h]

theorem getD_set_ne {α : Type} (l : List α) (n m : Nat) (a d : α)
    (h : n ≠ m) : (l.set n a).getD m d = l.getD m d := by
  simp [List.getD_eq_getElem?_getD, List.getElem?_set_ne h]

theorem cell_setCell_same (n : BANode) (s : Side) (p : Option (Int × Int)) :
    (n.setCell s p).cell s = p := by
  cases s <;> rfl

theorem cell_setCell_other (n : BANode) (s s2 : Side) (p : Option (Int × Int))
    (h : s2 ≠ s) : (n.setCell s2 p).cell s = n.cell s := by
  cases s <;> cases s2 <;> first | rfl | exact absurd rfl h

theorem cell_mk'_same (k v : Int) (s : Side) (ci : Nat) :
    (CollisionNode.mk' k v s ci).toBANode.cell s = some (k, v) := by
  cases s <;> rfl

theorem cell_mk'_other (k v : Int) (s s2 : Side) (ci : Nat) (h : s2 ≠ s) :
    (CollisionNode.mk' k v s2 ci).toBANode.cell s = none := by
  cases s <;> cases s2 <;> first | rfl | exact absurd rfl h

theorem updateBBO_no_offer (cfg : Config) (bA : Int) (s : Side) (k : Int)
    (sc : Scal) (h : sc.best_offer = none) :
    ∃ sc1, updateBBO cfg bA s k sc = (none, sc1) ∧ sc1.size = sc.size ∧
      sc1.best_offer = none ∧
      (sc1.best_bid = sc.best_bid ∨ sc1.best_bid = some k) := by
  unfold updateBBO
  have hoc : (s = Side.ASK && optKeyLt k sc.best_offer) = false := by
    rw [h]; cases s <;> simp [optKeyLt]
  rw [hoc]
  by_cases hbc : (s = Side.BID && optKeyGt k sc.best_bid) = true
  · rw [hbc]
    simp only [if_pos rfl, Bool.false_eq_true, if_false, h]
    simp
  · rw [Bool.not_eq_true] at hbc
    rw [hbc]
    simp only [Bool.false_eq_true, if_false, h]
    simp [h]

theorem insertRaw_cases (cfg : Config) (s2 : Side) (k2 v2 : Int)
    (bks : List Bucket) (pA bA : Int) (sc : Scal) :
    ((hashKey cfg pA s2 k2).2.1 = 0 ∧
      ((bks.getD (hashKey cfg pA s2 k2).1 default).first_node.cell s2).isSome
        = true ∧
      insertRaw cfg s2 k2 v2 bks pA bA sc = (none, false, bks, sc)) ∨
    ((hashKey cfg pA s2 k2).2.1 = 0 ∧
      ((bks.getD (hashKey cfg pA s2 k2).1 default).first_node.cell s2).isSome
        = false ∧
      insertRaw cfg s2 k2 v2 bks pA bA sc =
        ((updateBBO cfg bA s2 k2 sc).1, (updateBBO cfg bA s2 k2 sc).1.isNone,
         bks.set (hashKey cfg pA s2 k2).1
           { bks.getD (hashKey cfg pA s2 k2).1 default with
             first_node := (bks.getD (hashKey cfg pA s2 k2).1
               default).first_node.setCell s2 (some (k2, v2)) },
         scAfterBBO (updateBBO cfg bA s2 k2 sc))) ∨
    (¬ (hashKey cfg pA s2 k2).2.1 = 0 ∧
      (hashKey cfg pA s2 k2).2.1 - 1 < cfg.C ∧
      (((bks.getD (hashKey cfg pA s2 k2).1 default).nodes.getD
        ((hashKey cfg pA s2 k2).2.1 - 1) default).cell s2).isSome = true ∧
      insertRaw cfg s2 k2 v2 bks pA bA sc = (none, false, bks, sc)) ∨
    (¬ (hashKey cfg pA s2 k2).2.1 = 0 ∧
      (hashKey cfg pA s2 k2).2.1 - 1 < cfg.C ∧
      (((bks.getD (hashKey cfg pA s2 k2).1 default).nodes.getD
        ((hashKey cfg pA s2 k2).2.1 - 1) default).cell s2).isSome = false ∧
      insertRaw cfg s2 k2 v2 bks pA bA sc =
        ((updateBBO cfg bA s2 k2 sc).1, (updateBBO cfg bA s2 k2 sc).1.isNone,
         bks.set (hashKey cfg pA s2 k2).1
           { bks.getD (hashKey cfg pA s2 k2).1 default with
             nodes := (bks.getD (hashKey cfg pA s2 k2).1 default).nodes.set
               ((hashKey cfg pA s2 k2).2.1 - 1)
               (((bks.getD (hashKey cfg pA s2 k2).1 default).nodes.getD
                 ((hashKey cfg pA s2 k2).2.1 - 1) default).setCell s2
                 (some (k2, v2))) },
         scAfterBBO (updateBBO cfg bA s2 k2 sc))) ∨
    (¬ (hashKey cfg pA s2 k2).2.1 = 0 ∧
      ¬ (hashKey cfg pA s2 k2).2.1 - 1 < cfg.C ∧
      findNode s2 k2
        (bks.getD (hashKey cfg pA s2 k2).1 default).overflow_bucket = none ∧
      insertRaw cfg s2 k2 v2 bks pA bA sc =
        (none, true,
         bks.set (hashKey cfg pA s2 k2).1
           { bks.getD (hashKey cfg pA s2 k2).1 default with
             overflow_bucket := CollisionNode.mk' k2 v2 s2
               (hashKey cfg pA s2 k2).2.1 ::
               (bks.getD (hashKey cfg pA s2 k2).1 default).overflow_bucket },
         { sc with size := sc.size + 1 })) ∨
    (¬ (hashKey cfg pA s2 k2).2.1 = 0 ∧
      ¬ (hashKey cfg pA s2 k2).2.1 - 1 < cfg.C ∧
      (∃ n, findNode s2 k2
          (bks.getD (hashKey cfg pA s2 k2).1 default).overflow_bucket = some n ∧
        (n.toBANode.cell s2).isSome = true) ∧
      insertRaw cfg s2 k2 v2 bks pA bA sc = (none, false, bks, sc)) ∨
    (¬ (hashKey cfg pA s2 k2).2.1 = 0 ∧
      ¬ (hashKey cfg pA s2 k2).2.1 - 1 < cfg.C ∧
      (∃ n, findNode s2 k2
          (bks.getD (hashKey cfg pA s2 k2).1 default).overflow_bucket = some n ∧
        (n.toBANode.cell s2).isSome = false) ∧
      insertRaw cfg s2 k2 v2 bks pA bA sc =
        (some "bad_optional_access", false, bks, sc)) := by
  by_cases h0 : (hashKey cfg pA s2 k2).2.1 = 0
  · by_cases hocc : ((bks.getD (hashKey cfg pA s2 k2).1
        default).first_node.cell s2).isSome = true
    · exact Or.inl ⟨h0, hocc, by simp only [insertRaw, if_pos h0, if_pos hocc]⟩
    · refine Or.inr (Or.inl ⟨h0, by simpa using hocc, ?_⟩)
      rcases hu : updateBBO cfg bA s2 k2 sc with ⟨err, sc1⟩
      simp only [insertRaw, if_pos h0, if_neg hocc, hu]
      cases err <;> simp [scAfterBBO, hu]
  · by_cases hmid : (hashKey cfg pA s2 k2).2.1 - 1 < cfg.C
    · by_cases hocc : (((bks.getD (hashKey cfg pA s2 k2).1 default).nodes.getD
          ((hashKey cfg pA s2 k2).2.1 - 1) default).cell s2).isSome = true
      · refine Or.inr (Or.inr (Or.inl ⟨h0, hmid, hocc, ?_⟩))
        simp only [insertRaw, if_neg h0, if_pos hmid, if_pos hocc]
      · refine Or.inr (Or.inr (Or.inr (Or.inl ⟨h0, hmid, by simpa using hocc,
          ?_⟩)))
        rcases hu : updateBBO cfg bA s2 k2 sc with ⟨err, sc1⟩
        simp only [insertRaw, if_neg h0, if_pos hmid, if_neg hocc, hu]
        cases err <;> simp [scAfterBBO, hu]
    · rcases hf : findNode s2 k2
          (bks.getD (hashKey cfg pA s2 k2).1 default).overflow_bucket with _ | n
      · refine Or.inr (Or.inr (Or.inr (Or.inr (Or.inl ⟨h0, hmid, rfl, ?_⟩))))
        simp only [insertRaw, if_neg h0, if_neg hmid, hf]
      · by_cases hocc : (n.toBANode.cell s2).isSome = true
        · refine Or.inr (Or.inr (Or.inr (Or.inr (Or.inr (Or.inl
            ⟨h0, hmid, ⟨n, rfl, hocc⟩, ?_⟩)))))
          simp only [insertRaw, if_neg h0, if_neg hmid, hf, if_pos hocc]
        · refine Or.inr (Or.inr (Or.inr (Or.inr (Or.inr (Or.inr
            ⟨h0, hmid, ⟨n, rfl, by simpa using hocc⟩, ?_⟩)))))
          simp only [insertRaw, if_neg h0, if_neg hmid, hf, if_neg hocc]

theorem findRaw_dispatch0 (cfg : Config) (anchor : Int) (bks : List Bucket)
    (s : Side) (k : Int) (h0 : (hashKey cfg anchor s k).2.1 = 0) :
    findRaw cfg anchor bks s k =
      (if ((bks.getD (hashKey cfg anchor s k).1 default).first_node.cell
          s).isSome = true
       then probeNode s k (bks.getD (hashKey cfg anchor s k).1
         default).first_node
       else (none, none)) := by
  simp only [findRaw, if_pos h0]

theorem findRaw_dispatch_mid (cfg : Config) (anchor : Int) (bks : List Bucket)
    (s : Side) (k : Int) (h0 : ¬ (hashKey cfg anchor s k).2.1 = 0)
    (h1 : (hashKey cfg anchor s k).2.1 - 1 < cfg.C) :
    findRaw cfg anchor bks s k =
      probeNode s k ((bks.getD (hashKey cfg anchor s k).1 default).nodes.getD
        ((hashKey cfg anchor s k).2.1 - 1) default) := by
  simp only [findRaw, if_neg h0, if_pos h1]

theorem findRaw_dispatch_over (cfg : Config) (anchor : Int) (bks : List Bucket)
    (s : Side) (k : Int) (h0 : ¬ (hashKey cfg anchor s k).2.1 = 0)
    (h1 : ¬ (hashKey cfg anchor s k).2.1 - 1 < cfg.C) :
    findRaw cfg anchor bks s k =
      (match findNode s k
          (bks.getD (hashKey cfg anchor s k).1 default).overflow_bucket with
       | some n => probeNode s k n.toBANode
       | none => (none, none)) := by
  simp only [findRaw, if_neg h0, if_neg h1]

theorem probeNode_of_cell (s : Side) (k v : Int) (n : BANode)
    (h : n.cell s = some (k, v)) : probeNode s k n = (none, some v) := by
  simp [probeNode, h]

theorem probeNode_to_cell (s : Side) (k v : Int) (n : BANode)
    (h : probeNode s k n = (none, some v)) : n.cell s = some (k, v) := by
  rcases hc : n.cell s with _ | p
  · simp only [probeNode, hc] at h
    exact absurd h (by simp)
  · simp only [probeNode, hc] at h
    by_cases hk : k ≠ p.1
    · rw [if_pos hk] at h
      exact absurd h (by simp)
    · rw [if_neg hk] at h
      simp only [Prod.mk.injEq, Option.some.injEq] at h
      push_neg at hk
      rw [hk, ← h.2]

theorem probeNode_of_none (s : Side) (k : Int) (n : BANode)
    (h : n.cell s = none) : probeNode s k n = (none, none) := by
  simp [probeNode, h]

/-- `_find_node` only returns a node whose queried-side cell holds exactly the
queried key. -/
theorem findNode_some_cell (s : Side) (k : Int) (l : List CollisionNode)
    (n : CollisionNode) (h : findNode s k l = some n) :
    ∃ v, n.toBANode.cell s = some (k, v) := by
  induction l with
  | nil => exact absurd h (by simp [findNode])
  | cons m rest ih =>
    rcases hc : m.toBANode.cell s with _ | p
    · simp only [findNode, hc] at h
      exact ih h
    · simp only [findNode, hc] at h
      by_cases hk : p.1 = k
      · rw [if_pos hk] at h
        cases h
        exact ⟨p.2, by rw [← hk, hc]⟩
      · rw [if_neg hk] at h
        exact ih h

/-- Prepending a node that does not match the query leaves `_find_node`'s
result unchanged. -/
theorem findNode_cons_skip (s : Side) (k : Int) (m : CollisionNode)
    (l : List CollisionNode)
    (h : ∀ p, m.toBANode.cell s = some p → ¬ p.1 = k) :
    findNode s k (m :: l) = findNode s k l := by
  rcases hc : m.toBANode.cell s with _ | p
  · simp only [findNode, hc]
  · simp only [findNode, hc]
    rw [if_neg (h p hc)]

theorem found_first (cfg : Config) (anchor : Int) (bks : List Bucket)
    (s : Side) (k v : Int) (h0 : (hashKey cfg anchor s k).2.1 = 0)
    (h : findRaw cfg anchor bks s k = (none, some v)) :
    (bks.getD (hashKey cfg anchor s k).1 default).first_node.cell s
      = some (k, v) := by
  rw [findRaw_dispatch0 cfg anchor bks s k h0] at h
  by_cases hocc : ((bks.getD (hashKey cfg anchor s k).1
      default).first_node.cell s).isSome = true
  · rw [if_pos hocc] at h
    exact probeNode_to_cell s k v _ h
  · rw [if_neg hocc] at h
    exact absurd h (by simp)

theorem found_mid (cfg : Config) (anchor : Int) (bks : List Bucket)
    (s : Side) (k v : Int) (h0 : ¬ (hashKey cfg anchor s k).2.1 = 0)
    (h1 : (hashKey cfg anchor s k).2.1 - 1 < cfg.C)
    (h : findRaw cfg anchor bks s k = (none, some v)) :
    ((bks.getD (hashKey cfg anchor s k).1 default).nodes.getD
      ((hashKey cfg anchor s k).2.1 - 1) default).cell s = some (k, v) := by
  rw [findRaw_dispatch_mid cfg anchor bks s k h0 h1] at h
  exact probeNode_to_cell s k v _ h

theorem found_over (cfg : Config) (anchor : Int) (bks : List Bucket)
    (s : Side) (k v : Int) (h0 : ¬ (hashKey cfg anchor s k).2.1 = 0)
    (h1 : ¬ (hashKey cfg anchor s k).2.1 - 1 < cfg.C)
    (h : findRaw cfg anchor bks s k = (none, some v)) :
    ∃ n, findNode s k
        (bks.getD (hashKey cfg anchor s k).1 default).overflow_bucket = some n ∧
      n.toBANode.cell s = some (k, v) := by
  rw [findRaw_dispatch_over cfg anchor bks s k h0 h1] at h
  rcases hf : findNode s k
      (bks.getD (hashKey cfg anchor s k).1 default).overflow_bucket with _ | n
  · rw [hf] at h
    exact absurd h (by simp)
  · rw [hf] at h
    exact ⟨n, rfl, probeNode_to_cell s k v _ h⟩

theorem findRaw_congr (cfg : Config) (anchor : Int) (s : Side) (k : Int)
    (bks1 bks2 : List Bucket)
    (h : bks2.getD (hashKey cfg anchor s k).1 default =
         bks1.getD (hashKey cfg anchor s k).1 default) :
    findRaw cfg anchor bks2 s k = findRaw cfg anchor bks1 s k := by
  simp only [findRaw, h]

theorem findRaw_of_first (cfg : Config) (anchor : Int) (bks : List Bucket)
    (s : Side) (k v : Int) (h0 : (hashKey cfg anchor s k).2.1 = 0)
    (hc : (bks.getD (hashKey cfg anchor s k).1 default).first_node.cell s
      = some (k, v)) :
    findRaw cfg anchor bks s k = (none, some v) := by
  rw [findRaw_dispatch0 cfg anchor bks s k h0, hc]
  simp only [Option.isSome_some, if_pos]
  exact probeNode_of_cell s k v _ hc

theorem findRaw_of_mid (cfg : Config) (anchor : Int) (bks : List Bucket)
    (s : Side) (k v : Int) (h0 : ¬ (hashKey cfg anchor s k).2.1 = 0)
    (h1 : (hashKey cfg anchor s k).2.1 - 1 < cfg.C)
    (hc : ((bks.getD (hashKey cfg anchor s k).1 default).nodes.getD
      ((hashKey cfg anchor s k).2.1 - 1) default).cell s = some (k, v)) :
    findRaw cfg anchor bks s k = (none, some v) := by
  rw [findRaw_dispatch_mid cfg anchor bks s k h0 h1]
  exact probeNode_of_cell s k v _ hc

theorem findRaw_of_over (cfg : Config) (anchor : Int) (bks : List Bucket)
    (s : Side) (k v : Int) (n : CollisionNode)
    (h0 : ¬ (hashKey cfg anchor s k).2.1 = 0)
    (h1 : ¬ (hashKey cfg anchor s k).2.1 - 1 < cfg.C)
    (hf : findNode s k
      (bks.getD (hashKey cfg anchor s k).1 default).overflow_bucket = some n)
    (hc : n.toBANode.cell s = some (k, v)) :
    findRaw cfg anchor bks s k = (none, some v) := by
  rw [findRaw_dispatch_over cfg anchor bks s k h0 h1, hf]
  exact probeNode_of_cell s k v _ hc

theorem insertRaw_keeps_found (cfg : Config) (anchor bA : Int)
    (bks : List Bucket) (sc : Scal) (s : Side) (k v : Int)
    (s2 : Side) (k2 v2 : Int) (hne : ¬ (s2 = s ∧ k2 = k))
    (hfound : findRaw cfg anchor bks s k = (none, some v)) :
    findRaw cfg anchor (insertRaw cfg s2 k2 v2 bks anchor bA sc).2.2.1 s k
      = (none, some v) := by
  rcases insertRaw_cases cfg s2 k2 v2 bks anchor bA sc with
    ⟨_, _, heq⟩ | ⟨h20, h2occ, heq⟩ | ⟨_, _, _, heq⟩ | ⟨h20, h2mid, h2occ, heq⟩ |
    ⟨h20, h2mid, h2f, heq⟩ | ⟨_, _, _, heq⟩ | ⟨_, _, _, heq⟩
  · rw [show (insertRaw cfg s2 k2 v2 bks anchor bA sc).2.2.1 = bks from
      by rw [heq]]
    exact hfound
  · -- write into the first slot of bucket (hashKey cfg anchor s2 k2).1
    rw [show (insertRaw cfg s2 k2 v2 bks anchor bA sc).2.2.1 =
        bks.set (hashKey cfg anchor s2 k2).1
          { bks.getD (hashKey cfg anchor s2 k2).1 default with
            first_node := (bks.getD (hashKey cfg anchor s2 k2).1
              default).first_node.setCell s2 (some (k2, v2)) } from by rw [heq]]
    by_cases hlen : (hashKey cfg anchor s2 k2).1 < bks.length
    · by_cases hh : (hashKey cfg anchor s k).1 = (hashKey cfg anchor s2 k2).1
      · have hB : (bks.set (hashKey cfg anchor s2 k2).1
            { bks.getD (hashKey cfg anchor s2 k2).1 default with
              first_node := (bks.getD (hashKey cfg anchor s2 k2).1
                default).first_node.setCell s2 (some (k2, v2)) }).getD
            (hashKey cfg anchor s k).1 default =
            { bks.getD (hashKey cfg anchor s2 k2).1 default with
              first_node := (bks.getD (hashKey cfg anchor s2 k2).1
                default).first_node.setCell s2 (some (k2, v2)) } := by
          rw [hh]
          exact getD_set_self _ _ _ _ hlen
        by_cases h10 : (hashKey cfg anchor s k).2.1 = 0
        · have hc := found_first cfg anchor bks s k v h10 hfound
          rw [hh] at hc
          by_cases hss : s2 = s
          · subst hss
            rw [hc] at h2occ
            simp at h2occ
          · apply findRaw_of_first cfg anchor _ s k v h10
            rw [hB]
            show ((bks.getD (hashKey cfg anchor s2 k2).1
              default).first_node.setCell s2 (some (k2, v2))).cell s
              = some (k, v)
            rw [cell_setCell_other _ s s2 _ hss]
            exact hc
        · by_cases h1mid : (hashKey cfg anchor s k).2.1 - 1 < cfg.C
          · have hc := found_mid cfg anchor bks s k v h10 h1mid hfound
            rw [hh] at hc
            apply findRaw_of_mid cfg anchor _ s k v h10 h1mid
            rw [hB]
            exact hc
          · obtain ⟨n, hf, hc⟩ := found_over cfg anchor bks s k v h10 h1mid
              hfound
            rw [hh] at hf
            apply findRaw_of_over cfg anchor _ s k v n h10 h1mid _ hc
            rw [hB]
            exact hf
      · apply Eq.trans _ hfound
        apply findRaw_congr cfg anchor s k bks
        exact getD_set_ne _ _ _ _ _ (fun hx => hh hx.symm)
    · rw [List.set_eq_of_length_le (Nat.le_of_not_lt hlen)]
      exact hfound
  · rw [show (insertRaw cfg s2 k2 v2 bks anchor bA sc).2.2.1 = bks from
      by rw [heq]]
    exact hfound
  · -- write into secondary slot (hashKey cfg anchor s2 k2).2.1 - 1
    rw [show (insertRaw cfg s2 k2 v2 bks anchor bA sc).2.2.1 =
        bks.set (hashKey cfg anchor s2 k2).1
          { bks.getD (hashKey cfg anchor s2 k2).1 default with
            nodes := (bks.getD (hashKey cfg anchor s2 k2).1 default).nodes.set
              ((hashKey cfg anchor s2 k2).2.1 - 1)
              (((bks.getD (hashKey cfg anchor s2 k2).1 default).nodes.getD
                ((hashKey cfg anchor s2 k2).2.1 - 1) default).setCell s2
                (some (k2, v2))) } from by rw [heq]]
    by_cases hlen : (hashKey cfg anchor s2 k2).1 < bks.length
    · by_cases hh : (hashKey cfg anchor s k).1 = (hashKey cfg anchor s2 k2).1
      · have hB : (bks.set (hashKey cfg anchor s2 k2).1
            { bks.getD (hashKey cfg anchor s2 k2).1 default with
              nodes := (bks.getD (hashKey cfg anchor s2 k2).1
                default).nodes.set ((hashKey cfg anchor s2 k2).2.1 - 1)
                (((bks.getD (hashKey cfg anchor s2 k2).1 default).nodes.getD
                  ((hashKey cfg anchor s2 k2).2.1 - 1) default).setCell s2
                  (some (k2, v2))) }).getD (hashKey cfg anchor s k).1 default =
            { bks.getD (hashKey cfg anchor s2 k2).1 default with
              nodes := (bks.getD (hashKey cfg anchor s2 k2).1
                default).nodes.set ((hashKey cfg anchor s2 k2).2.1 - 1)
                (((bks.getD (hashKey cfg anchor s2 k2).1 default).nodes.getD
                  ((hashKey cfg anchor s2 k2).2.1 - 1) default).setCell s2
                  (some (k2, v2))) } := by
          rw [hh]
          exact getD_set_self _ _ _ _ hlen
        by_cases h10 : (hashKey cfg anchor s k).2.1 = 0
        · have hc := found_first cfg anchor bks s k v h10 hfound
          rw [hh] at hc
          apply findRaw_of_first cfg anchor _ s k v h10
          rw [hB]
          exact hc
        · by_cases h1mid : (hashKey cfg anchor s k).2.1 - 1 < cfg.C
          · have hc := found_mid cfg anchor bks s k v h10 h1mid hfound
            rw [hh] at hc
            apply findRaw_of_mid cfg anchor _ s k v h10 h1mid
            rw [hB]
            show (((bks.getD (hashKey cfg anchor s2 k2).1 default).nodes.set
              ((hashKey cfg anchor s2 k2).2.1 - 1)
              (((bks.getD (hashKey cfg anchor s2 k2).1 default).nodes.getD
                ((hashKey cfg anchor s2 k2).2.1 - 1) default).setCell s2
                (some (k2, v2)))).getD ((hashKey cfg anchor s k).2.1 - 1)
                default).cell s = some (k, v)
            by_cases hii : (hashKey cfg anchor s2 k2).2.1 - 1 =
                (hashKey cfg anchor s k).2.1 - 1
            · by_cases hnlen : (hashKey cfg anchor s2 k2).2.1 - 1 <
                  (bks.getD (hashKey cfg anchor s2 k2).1 default).nodes.length
              · rw [← hii, getD_set_self _ _ _ _ hnlen]
                by_cases hss : s2 = s
                · subst hss
                  rw [hii, hc] at h2occ
                  simp at h2occ
                · rw [cell_setCell_other _ s s2 _ hss, hii]
                  exact hc
              · rw [List.set_eq_of_length_le (Nat.le_of_not_lt hnlen)]
                exact hc
            · rw [getD_set_ne _ _ _ _ _ hii]
              exact hc
          · obtain ⟨n, hf, hc⟩ := found_over cfg anchor bks s k v h10 h1mid
              hfound
            rw [hh] at hf
            apply findRaw_of_over cfg anchor _ s k v n h10 h1mid _ hc
            rw [hB]
            exact hf
      · apply Eq.trans _ hfound
        apply findRaw_congr cfg anchor s k bks
        exact getD_set_ne _ _ _ _ _ (fun hx => hh hx.symm)
    · rw [List.set_eq_of_length_le (Nat.le_of_not_lt hlen)]
      exact hfound
  · -- prepend a fresh node to the overflow list
    rw [show (insertRaw cfg s2 k2 v2 bks anchor bA sc).2.2.1 =
        bks.set (hashKey cfg anchor s2 k2).1
          { bks.getD (hashKey cfg anchor s2 k2).1 default with
            overflow_bucket := CollisionNode.mk' k2 v2 s2
              (hashKey cfg anchor s2 k2).2.1 ::
              (bks.getD (hashKey cfg anchor s2 k2).1 default).overflow_bucket }
        from by rw [heq]]
    by_cases hlen : (hashKey cfg anchor s2 k2).1 < bks.length
    · by_cases hh : (hashKey cfg anchor s k).1 = (hashKey cfg anchor s2 k2).1
      · have hB : (bks.set (hashKey cfg anchor s2 k2).1
            { bks.getD (hashKey cfg anchor s2 k2).1 default with
              overflow_bucket := CollisionNode.mk' k2 v2 s2
                (hashKey cfg anchor s2 k2).2.1 ::
                (bks.getD (hashKey cfg anchor s2 k2).1
                  default).overflow_bucket }).getD
            (hashKey cfg anchor s k).1 default =
            { bks.getD (hashKey cfg anchor s2 k2).1 default with
              overflow_bucket := CollisionNode.mk' k2 v2 s2
                (hashKey cfg anchor s2 k2).2.1 ::
                (bks.getD (hashKey cfg anchor s2 k2).1
                  default).overflow_bucket } := by
          rw [hh]
          exact getD_set_self _ _ _ _ hlen
        by_cases h10 : (hashKey cfg anchor s k).2.1 = 0
        · have hc := found_first cfg anchor bks s k v h10 hfound
          rw [hh] at hc
          apply findRaw_of_first cfg anchor _ s k v h10
          rw [hB]
          exact hc
        · by_cases h1mid : (hashKey cfg anchor s k).2.1 - 1 < cfg.C
          · have hc := found_mid cfg anchor bks s k v h10 h1mid hfound
            rw [hh] at hc
            apply findRaw_of_mid cfg anchor _ s k v h10 h1mid
            rw [hB]
            exact hc
          · obtain ⟨n, hf, hc⟩ := found_over cfg anchor bks s k v h10 h1mid
              hfound
            rw [hh] at hf
            apply findRaw_of_over cfg anchor _ s k v n h10 h1mid _ hc
            rw [hB]
            show findNode s k (CollisionNode.mk' k2 v2 s2
              (hashKey cfg anchor s2 k2).2.1 ::
              (bks.getD (hashKey cfg anchor s2 k2).1 default).overflow_bucket)
              = some n
            rw [findNode_cons_skip]
            · exact hf
            · intro p hp
              by_cases hss : s2 = s
              · rw [hss, cell_mk'_same] at hp
                cases hp
                intro hkk
                exact hne ⟨hss, hkk⟩
              · rw [cell_mk'_other k2 v2 s s2 _ hss] at hp
                exact absurd hp (by simp)
      · apply Eq.trans _ hfound
        apply findRaw_congr cfg anchor s k bks
        exact getD_set_ne _ _ _ _ _ (fun hx => hh hx.symm)
    · rw [List.set_eq_of_length_le (Nat.le_of_not_lt hlen)]
      exact hfound
  · rw [show (insertRaw cfg s2 k2 v2 bks anchor bA sc).2.2.1 = bks from
      by rw [heq]]
    exact hfound
  · rw [show (insertRaw cfg s2 k2 v2 bks anchor bA sc).2.2.1 = bks from
      by rw [heq]]
    exact hfound

theorem findNode_cons_hit (s : Side) (k : Int) (m : CollisionNode)
    (l : List CollisionNode) (p : Int × Int)
    (hc : m.toBANode.cell s = some p) (hk : p.1 = k) :
    findNode s k (m :: l) = some m := by
  simp only [findNode, hc]
  rw [if_pos hk]

theorem hashKey_fst_lt (cfg : Config) (anchor key : Int) (side : Side)
    (hN : 0 < cfg.N) : (hashKey cfg anchor side key).1 < cfg.N := by
  by_cases hw : (side = Side.BID ∧ rawIndex cfg anchor key > (cfg.N : Int)) ∨
      (side = Side.ASK ∧ rawIndex cfg anchor key < 0)
  · rw [hashKey_wrap cfg anchor key side hw]
    exact positiveMod_lt _ _ hN
  · rw [hashKey_nowrap cfg anchor key side hw]
    exact positiveMod_lt _ _ hN

theorem getD_mem {α : Type} (l : List α) (n : Nat) (d : α)
    (h : n < l.length) : l.getD n d ∈ l := by
  induction l generalizing n with
  | nil => simp at h
  | cons a t ih =>
    cases n with
    | zero => simp [List.getD]
    | succ m =>
      simp only [List.getD_cons_succ]
      exact List.mem_cons_of_mem a (ih m (by simpa using h))

theorem goodShape_empty (cfg : Config) : goodShape cfg (emptyBuckets cfg) := by
  constructor
  · simp [emptyBuckets]
  · intro b hb
    unfold emptyBuckets at hb
    rw [List.eq_of_mem_replicate hb]
    simp

theorem goodShape_set (cfg : Config) (bks : List Bucket) (i : Nat) (b : Bucket)
    (hs : goodShape cfg bks) (hb : b.nodes.length = cfg.C) :
    goodShape cfg (bks.set i b) := by
  refine ⟨by rw [List.length_set]; exact hs.1, ?_⟩
  intro x hx
  rcases List.mem_or_eq_of_mem_set hx with hx' | hx'
  · exact hs.2 x hx'
  · rw [hx']
    exact hb

theorem insertRaw_goodShape (cfg : Config) (s2 : Side) (k2 v2 : Int)
    (bks : List Bucket) (pA bA : Int) (sc : Scal) (hs : goodShape cfg bks)
    (hN : 0 < cfg.N) :
    goodShape cfg (insertRaw cfg s2 k2 v2 bks pA bA sc).2.2.1 := by
  have hlen : (hashKey cfg pA s2 k2).1 < bks.length := by
    rw [hs.1]
    exact hashKey_fst_lt cfg pA k2 s2 hN
  have hmem : bks.getD (hashKey cfg pA s2 k2).1 default ∈ bks :=
    getD_mem _ _ _ hlen
  rcases insertRaw_cases cfg s2 k2 v2 bks pA bA sc with
    ⟨_, _, heq⟩ | ⟨_, _, heq⟩ | ⟨_, _, _, heq⟩ | ⟨_, _, _, heq⟩ |
    ⟨_, _, _, heq⟩ | ⟨_, _, _, heq⟩ | ⟨_, _, _, heq⟩ <;> rw [heq]
  · exact hs
  · refine goodShape_set cfg bks _ _ hs ?_
    show (bks.getD (hashKey cfg pA s2 k2).1 default).nodes.length = cfg.C
    exact hs.2 _ hmem
  · exact hs
  · refine goodShape_set cfg bks _ _ hs ?_
    show ((bks.getD (hashKey cfg pA s2 k2).1 default).nodes.set
      ((hashKey cfg pA s2 k2).2.1 - 1)
      (((bks.getD (hashKey cfg pA s2 k2).1 default).nodes.getD
        ((hashKey cfg pA s2 k2).2.1 - 1) default).setCell s2
        (some (k2, v2)))).length = cfg.C
    rw [List.length_set]
    exact hs.2 _ hmem
  · refine goodShape_set cfg bks _ _ hs ?_
    show (bks.getD (hashKey cfg pA s2 k2).1 default).nodes.length = cfg.C
    exact hs.2 _ hmem
  · exact hs
  · exact hs

theorem insertRaw_success_found (cfg : Config) (anchor bA : Int)
    (bks : List Bucket) (sc : Scal) (s2 : Side) (k2 v2 : Int)
    (bks2 : List Bucket) (sc2 : Scal) (hN : 0 < cfg.N)
    (hs : goodShape cfg bks)
    (h : insertRaw cfg s2 k2 v2 bks anchor bA sc = (none, true, bks2, sc2)) :
    findRaw cfg anchor bks2 s2 k2 = (none, some v2) := by
  have hlen : (hashKey cfg anchor s2 k2).1 < bks.length := by
    rw [hs.1]
    exact hashKey_fst_lt cfg anchor k2 s2 hN
  have hmem : bks.getD (hashKey cfg anchor s2 k2).1 default ∈ bks :=
    getD_mem _ _ _ hlen
  rcases insertRaw_cases cfg s2 k2 v2 bks anchor bA sc with
    ⟨_, _, heq⟩ | ⟨h20, h2occ, heq⟩ | ⟨_, _, _, heq⟩ | ⟨h20, h2mid, h2occ, heq⟩ |
    ⟨h20, h2mid, h2f, heq⟩ | ⟨_, _, ⟨n, hf, ho⟩, heq⟩ | ⟨_, _, ⟨n, hf, ho⟩, heq⟩
  · rw [heq] at h
    simp only [Prod.mk.injEq] at h
    exact absurd h.2.1 (by decide)
  · rw [heq] at h
    simp only [Prod.mk.injEq] at h
    obtain ⟨hbk, hsc⟩ := h.2.2
    rw [← hbk]
    apply findRaw_of_first cfg anchor _ s2 k2 v2 h20
    rw [getD_set_self _ _ _ _ hlen]
    show ((bks.getD (hashKey cfg anchor s2 k2).1
      default).first_node.setCell s2 (some (k2, v2))).cell s2 = some (k2, v2)
    exact cell_setCell_same _ s2 _
  · rw [heq] at h
    simp only [Prod.mk.injEq] at h
    exact absurd h.2.1 (by decide)
  · rw [heq] at h
    simp only [Prod.mk.injEq] at h
    obtain ⟨hbk, hsc⟩ := h.2.2
    rw [← hbk]
    apply findRaw_of_mid cfg anchor _ s2 k2 v2 h20 h2mid
    rw [getD_set_self _ _ _ _ hlen]
    show (((bks.getD (hashKey cfg anchor s2 k2).1 default).nodes.set
      ((hashKey cfg anchor s2 k2).2.1 - 1)
      (((bks.getD (hashKey cfg anchor s2 k2).1 default).nodes.getD
        ((hashKey cfg anchor s2 k2).2.1 - 1) default).setCell s2
        (some (k2, v2)))).getD ((hashKey cfg anchor s2 k2).2.1 - 1)
      default).cell s2 = some (k2, v2)
    have hnlen : (hashKey cfg anchor s2 k2).2.1 - 1 <
        (bks.getD (hashKey cfg anchor s2 k2).1 default).nodes.length := by
      rw [hs.2 _ hmem]
      exact h2mid
    rw [getD_set_self _ _ _ _ hnlen]
    exact cell_setCell_same _ s2 _
  · rw [heq] at h
    simp only [Prod.mk.injEq] at h
    obtain ⟨hbk, hsc⟩ := h.2.2
    rw [← hbk]
    apply findRaw_of_over cfg anchor _ s2 k2 v2
      (CollisionNode.mk' k2 v2 s2 (hashKey cfg anchor s2 k2).2.1) h20 h2mid
    · rw [getD_set_self _ _ _ _ hlen]
      show findNode s2 k2 (CollisionNode.mk' k2 v2 s2
        (hashKey cfg anchor s2 k2).2.1 ::
        (bks.getD (hashKey cfg anchor s2 k2).1 default).overflow_bucket)
        = some (CollisionNode.mk' k2 v2 s2 (hashKey cfg anchor s2 k2).2.1)
      exact findNode_cons_hit s2 k2 _ _ (k2, v2) (cell_mk'_same k2 v2 s2 _) rfl
    · exact cell_mk'_same k2 v2 s2 _
  · rw [heq] at h
    simp only [Prod.mk.injEq] at h
    exact absurd h.2.1 (by decide)
  · rw [heq] at h
    simp only [Prod.mk.injEq] at h
    exact absurd h.1 (by simp)

theorem insertB_eq (cfg : Config) (book : Book) (s : Side) (k v : Int) :
    insertB cfg book s k v =
      ((insertRaw cfg s k v book.buckets book.hashing_mid_price
          book.hashing_mid_price book.sc).1,
       (insertRaw cfg s k v book.buckets book.hashing_mid_price
          book.hashing_mid_price book.sc).2.1,
       { book with
         buckets := (insertRaw cfg s k v book.buckets book.hashing_mid_price
           book.hashing_mid_price book.sc).2.2.1
         sc := (insertRaw cfg s k v book.buckets book.hashing_mid_price
           book.hashing_mid_price book.sc).2.2.2 }) := rfl

theorem insertAll_nil_eq (cfg : Config) (B : Book) :
    insertAll cfg [] B = some B := rfl

theorem insertAll_cons (cfg : Config) (t : Side × Int × Int)
    (rest : List (Side × Int × Int)) (B book : Book)
    (h : insertAll cfg (t :: rest) B = some book) :
    insertB cfg B t.1 t.2.1 t.2.2 =
      (none, true, (insertB cfg B t.1 t.2.1 t.2.2).2.2) ∧
    insertAll cfg rest (insertB cfg B t.1 t.2.1 t.2.2).2.2 = some book := by
  rcases hi : insertB cfg B t.1 t.2.1 t.2.2 with ⟨e, ok, B1⟩
  rcases t with ⟨s, k, v⟩
  simp only [insertAll, hi] at h
  cases e with
  | some err => exact absurd h (by simp)
  | none =>
    cases ok with
    | false => exact absurd h (by simp)
    | true => exact ⟨rfl, h⟩

theorem insertAll_keeps_found (cfg : Config) (ops : List (Side × Int × Int))
    (B book : Book) (s : Side) (k v : Int)
    (h : insertAll cfg ops B = some book)
    (hnk : ∀ t ∈ ops, ¬ (t.1 = s ∧ t.2.1 = k))
    (hfound : findB cfg B s k = (none, some v)) :
    findB cfg book s k = (none, some v) := by
  induction ops generalizing B with
  | nil =>
    rw [insertAll_nil_eq] at h
    cases h
    exact hfound
  | cons t rest ih =>
    obtain ⟨hstep, hrest⟩ := insertAll_cons cfg t rest B book h
    refine ih _ hrest (fun t' ht' => hnk t' (List.mem_cons_of_mem t ht')) ?_
    rw [insertB_eq]
    show findRaw cfg B.hashing_mid_price
      (insertRaw cfg t.1 t.2.1 t.2.2 B.buckets B.hashing_mid_price
        B.hashing_mid_price B.sc).2.2.1 s k = (none, some v)
    exact insertRaw_keeps_found cfg B.hashing_mid_price B.hashing_mid_price
      B.buckets B.sc s k v t.1 t.2.1 t.2.2 (hnk t (List.mem_cons_self t rest))
      hfound

theorem insertAll_goodShape (cfg : Config) (ops : List (Side × Int × Int))
    (B book : Book) (hN : 0 < cfg.N) (h : insertAll cfg ops B = some book)
    (hs : goodShape cfg B.buckets) : goodShape cfg book.buckets := by
  induction ops generalizing B with
  | nil =>
    rw [insertAll_nil_eq] at h
    cases h
    exact hs
  | cons t rest ih =>
    obtain ⟨hstep, hrest⟩ := insertAll_cons cfg t rest B book h
    refine ih _ hrest ?_
    rw [insertB_eq]
    exact insertRaw_goodShape cfg t.1 t.2.1 t.2.2 B.buckets
      B.hashing_mid_price B.hashing_mid_price B.sc hs hN

theorem insertAll_anchor (cfg : Config) (ops : List (Side × Int × Int))
    (B book : Book) (h : insertAll cfg ops B = some book) :
    book.hashing_mid_price = B.hashing_mid_price := by
  induction ops generalizing B with
  | nil =>
    rw [insertAll_nil_eq] at h
    cases h
    rfl
  | cons t rest ih =>
    obtain ⟨hstep, hrest⟩ := insertAll_cons cfg t rest B book h
    rw [ih _ hrest, insertB_eq]

theorem insertAll_mem_found (cfg : Config) (ops : List (Side × Int × Int))
    (B book : Book) (hN : 0 < cfg.N)
    (h : insertAll cfg ops B = some book)
    (hs : goodShape cfg B.buckets)
    (hnodup : (ops.map fun t => (t.1, t.2.1)).Nodup) :
    ∀ t ∈ ops, findB cfg book t.1 t.2.1 = (none, some t.2.2) := by
  induction ops generalizing B with
  | nil => simp
  | cons t0 rest ih =>
    obtain ⟨hstep, hrest⟩ := insertAll_cons cfg t0 rest B book h
    intro t ht
    rcases List.mem_cons.mp ht with rfl | htr
    · -- the head insert: found right after, preserved by the rest
      have hfound1 : findB cfg (insertB cfg B t.1 t.2.1 t.2.2).2.2 t.1 t.2.1
          = (none, some t.2.2) := by
        rcases hraw : insertRaw cfg t.1 t.2.1 t.2.2 B.buckets
            B.hashing_mid_price B.hashing_mid_price B.sc with ⟨e, ok, bksr, scr⟩
        have hstep' := hstep
        rw [insertB_eq, hraw] at hstep'
        simp only [Prod.mk.injEq] at hstep'
        rw [insertB_eq]
        show findRaw cfg B.hashing_mid_price
          (insertRaw cfg t.1 t.2.1 t.2.2 B.buckets B.hashing_mid_price
            B.hashing_mid_price B.sc).2.2.1 t.1 t.2.1 = (none, some t.2.2)
        rw [hraw]
        exact insertRaw_success_found cfg B.hashing_mid_price
          B.hashing_mid_price B.buckets B.sc t.1 t.2.1 t.2.2 bksr scr hN hs
          (by rw [hraw, hstep'.1, hstep'.2.1])
      refine insertAll_keeps_found cfg rest _ book t.1 t.2.1 t.2.2 hrest
        ?_ hfound1
      intro t' ht' hc
      have hmem : (t.1, t.2.1) ∈ rest.map fun x => (x.1, x.2.1) := by
        rw [← hc.1, ← hc.2]
        exact List.mem_map_of_mem _ ht'
      exact (List.nodup_cons.mp hnodup).1 hmem
    · refine ih _ hrest ?_ (List.nodup_cons.mp hnodup).2 t htr
      rw [insertB_eq]
      exact insertRaw_goodShape cfg t0.1 t0.2.1 t0.2.2 B.buckets
        B.hashing_mid_price B.hashing_mid_price B.sc hs hN

theorem findNode_none_iff_countP (s : Side) (k : Int)
    (l : List CollisionNode) :
    findNode s k l = none ↔ l.countP (nodeMatches s k) = 0 := by
  induction l with
  | nil => simp [findNode]
  | cons n rest ih =>
    rw [List.countP_cons]
    rcases hc : n.toBANode.cell s with _ | p
    · simp only [findNode, hc]
      rw [ih]
      have hm : nodeMatches s k n = false := by simp [nodeMatches, hc]
      rw [hm]
      simp
    · simp only [findNode, hc]
      by_cases hk : p.1 = k
      · rw [if_pos hk]
        have hm : nodeMatches s k n = true := by simp [nodeMatches, hc, hk]
        rw [hm]
        simp
      · rw [if_neg hk]
        rw [ih]
        have hm : nodeMatches s k n = false := by simp [nodeMatches, hc, hk]
        rw [hm]
        simp

theorem eraseNode_found_of_findNode (s : Side) (k : Int)
    (l : List CollisionNode) (n : CollisionNode)
    (hf : findNode s k l = some n) : (eraseNode s k l).1 = true := by
  induction l with
  | nil => exact absurd hf (by simp [findNode])
  | cons m rest ih =>
    rcases hc : m.toBANode.cell s with _ | p
    · simp only [findNode, hc] at hf
      simp only [eraseNode, hc]
      by_cases hz : m.bid_value = none ∧ m.ask_value = none
      · rw [if_pos hz]
        exact ih hf
      · rw [if_neg hz]
        exact ih hf
    · by_cases hk : p.1 = k
      · simp only [eraseNode, hc]
        rw [if_pos hk]
        by_cases hz : (m.toBANode.setCell s none).bid_value = none ∧
            (m.toBANode.setCell s none).ask_value = none
        · rw [if_pos hz]
        · rw [if_neg hz]
      · simp only [findNode, hc] at hf
        rw [if_neg hk] at hf
        simp only [eraseNode, hc]
        rw [if_neg hk]
        by_cases hz : m.bid_value = none ∧ m.ask_value = none
        · rw [if_pos hz]
          exact ih hf
        · rw [if_neg hz]
          exact ih hf

theorem eraseNode_removes (s : Side) (k : Int) (l : List CollisionNode)
    (hdup : l.countP (nodeMatches s k) ≤ 1) :
    findNode s k (eraseNode s k l).2 = none := by
  induction l with
  | nil => simp [eraseNode, findNode]
  | cons m rest ih =>
    rw [List.countP_cons] at hdup
    rcases hc : m.toBANode.cell s with _ | p
    · have hm : nodeMatches s k m = false := by simp [nodeMatches, hc]
      rw [hm] at hdup
      simp only [eraseNode, hc]
      by_cases hz : m.bid_value = none ∧ m.ask_value = none
      · rw [if_pos hz]
        exact ih (by omega)
      · rw [if_neg hz]
        show findNode s k (m :: (eraseNode s k rest).2) = none
        rw [findNode_cons_skip s k m _ (by intro q hq; rw [hq] at hc; cases hc)]
        exact ih (by omega)
    · by_cases hk : p.1 = k
      · have hm : nodeMatches s k m = true := by simp [nodeMatches, hc, hk]
        rw [hm] at hdup
        rw [show (if (true = true) then 1 else 0) = 1 from rfl] at hdup
        have hrest0 : rest.countP (nodeMatches s k) = 0 := by omega
        have hrest : findNode s k rest = none :=
          (findNode_none_iff_countP s k rest).mpr hrest0
        simp only [eraseNode, hc]
        rw [if_pos hk]
        by_cases hz : (m.toBANode.setCell s none).bid_value = none ∧
            (m.toBANode.setCell s none).ask_value = none
        · rw [if_pos hz]
          exact hrest
        · rw [if_neg hz]
          show findNode s k
            ({ toBANode := m.toBANode.setCell s none,
               collision_index := m.collision_index } :: rest) = none
          rw [findNode_cons_skip]
          · exact hrest
          · intro q hq
            show ¬ q.1 = k
            have : (m.toBANode.setCell s none).cell s = none :=
              cell_setCell_same _ s none
            rw [this] at hq
            cases hq
      · have hm : nodeMatches s k m = false := by
          simp [nodeMatches, hc]
          exact hk
        rw [hm] at hdup
        simp only [eraseNode, hc]
        rw [if_neg hk]
        by_cases hz : m.bid_value = none ∧ m.ask_value = none
        · rw [if_pos hz]
          exact ih (by omega)
        · rw [if_neg hz]
          show findNode s k (m :: (eraseNode s k rest).2) = none
          rw [findNode_cons_skip s k m _ ?_]
          · exact ih (by omega)
          · intro q hq
            rw [hq] at hc
            cases hc
            exact hk

theorem eraseB_cases (cfg : Config) (book : Book) (s2 : Side) (k2 : Int) :
    ((hashKey cfg book.hashing_mid_price s2 k2).2.1 = 0 ∧
      (book.buckets.getD (hashKey cfg book.hashing_mid_price s2 k2).1
        default).first_node.cell s2 = none ∧
      eraseB cfg book s2 k2 = (none, false, book)) ∨
    (∃ p, (hashKey cfg book.hashing_mid_price s2 k2).2.1 = 0 ∧
      (book.buckets.getD (hashKey cfg book.hashing_mid_price s2 k2).1
        default).first_node.cell s2 = some p ∧ ¬ k2 = p.1 ∧
      eraseB cfg book s2 k2 = (some "key mismatch", false, book)) ∨
    (∃ p, (hashKey cfg book.hashing_mid_price s2 k2).2.1 = 0 ∧
      (book.buckets.getD (hashKey cfg book.hashing_mid_price s2 k2).1
        default).first_node.cell s2 = some p ∧ k2 = p.1 ∧
      eraseB cfg book s2 k2 = (none, true,
        { book with
          buckets := book.buckets.set
            (hashKey cfg book.hashing_mid_price s2 k2).1
            { book.buckets.getD (hashKey cfg book.hashing_mid_price s2 k2).1
                default with
              first_node := (book.buckets.getD
                (hashKey cfg book.hashing_mid_price s2 k2).1
                default).first_node.setCell s2 none }
          sc := { book.sc with size := book.sc.size - 1 } })) ∨
    (¬ (hashKey cfg book.hashing_mid_price s2 k2).2.1 = 0 ∧
      (hashKey cfg book.hashing_mid_price s2 k2).2.1 - 1 < cfg.C ∧
      ((book.buckets.getD (hashKey cfg book.hashing_mid_price s2 k2).1
        default).nodes.getD ((hashKey cfg book.hashing_mid_price s2 k2).2.1 - 1)
        default).cell s2 = none ∧
      eraseB cfg book s2 k2 = (none, false, book)) ∨
    (∃ p, ¬ (hashKey cfg book.hashing_mid_price s2 k2).2.1 = 0 ∧
      (hashKey cfg book.hashing_mid_price s2 k2).2.1 - 1 < cfg.C ∧
      ((book.buckets.getD (hashKey cfg book.hashing_mid_price s2 k2).1
        default).nodes.getD ((hashKey cfg book.hashing_mid_price s2 k2).2.1 - 1)
        default).cell s2 = some p ∧ ¬ k2 = p.1 ∧
      eraseB cfg book s2 k2 = (some "key mismatch", false, book)) ∨
    (∃ p, ¬ (hashKey cfg book.hashing_mid_price s2 k2).2.1 = 0 ∧
      (hashKey cfg book.hashing_mid_price s2 k2).2.1 - 1 < cfg.C ∧
      ((book.buckets.getD (hashKey cfg book.hashing_mid_price s2 k2).1
        default).nodes.getD ((hashKey cfg book.hashing_mid_price s2 k2).2.1 - 1)
        default).cell s2 = some p ∧ k2 = p.1 ∧
      eraseB cfg book s2 k2 = (none, true,
        { book with
          buckets := book.buckets.set
            (hashKey cfg book.hashing_mid_price s2 k2).1
            { book.buckets.getD (hashKey cfg book.hashing_mid_price s2 k2).1
                default with
              nodes := (book.buckets.getD
                (hashKey cfg book.hashing_mid_price s2 k2).1
                default).nodes.set
                ((hashKey cfg book.hashing_mid_price s2 k2).2.1 - 1)
                (((book.buckets.getD
                  (hashKey cfg book.hashing_mid_price s2 k2).1
                  default).nodes.getD
                  ((hashKey cfg book.hashing_mid_price s2 k2).2.1 - 1)
                  default).setCell s2 none) }
          sc := { book.sc with size := book.sc.size - 1 } })) ∨
    (¬ (hashKey cfg book.hashing_mid_price s2 k2).2.1 = 0 ∧
      ¬ (hashKey cfg book.hashing_mid_price s2 k2).2.1 - 1 < cfg.C ∧
      eraseB cfg book s2 k2 = (none,
        (eraseNode s2 k2 (book.buckets.getD
          (hashKey cfg book.hashing_mid_price s2 k2).1
          default).overflow_bucket).1,
        { book with
          buckets := book.buckets.set
            (hashKey cfg book.hashing_mid_price s2 k2).1
            { book.buckets.getD (hashKey cfg book.hashing_mid_price s2 k2).1
                default with
              overflow_bucket := (eraseNode s2 k2 (book.buckets.getD
                (hashKey cfg book.hashing_mid_price s2 k2).1
                default).overflow_bucket).2 }
          sc := { book.sc with
                  size := if (eraseNode s2 k2 (book.buckets.getD
                      (hashKey cfg book.hashing_mid_price s2 k2).1
                      default).overflow_bucket).1
                    then book.sc.size - 1 else book.sc.size } })) := by
  by_cases h0 : (hashKey cfg book.hashing_mid_price s2 k2).2.1 = 0
  · rcases hc : (book.buckets.getD (hashKey cfg book.hashing_mid_price s2 k2).1
        default).first_node.cell s2 with _ | p
    · refine Or.inl ⟨h0, rfl, ?_⟩
      simp only [eraseB, if_pos h0, hc]
    · by_cases hk : k2 = p.1
      · refine Or.inr (Or.inr (Or.inl ⟨p, h0, rfl, hk, ?_⟩))
        simp only [eraseB, if_pos h0, hc]
        rw [if_neg (by simpa using hk)]
      · refine Or.inr (Or.inl ⟨p, h0, rfl, hk, ?_⟩)
        simp only [eraseB, if_pos h0, hc]
        rw [if_pos hk]
  · by_cases hmid : (hashKey cfg book.hashing_mid_price s2 k2).2.1 - 1 < cfg.C
    · rcases hc : ((book.buckets.getD
          (hashKey cfg book.hashing_mid_price s2 k2).1 default).nodes.getD
          ((hashKey cfg book.hashing_mid_price s2 k2).2.1 - 1)
          default).cell s2 with _ | p
      · refine Or.inr (Or.inr (Or.inr (Or.inl ⟨h0, hmid, rfl, ?_⟩)))
        simp only [eraseB, if_neg h0, if_pos hmid, hc]
      · by_cases hk : k2 = p.1
        · refine Or.inr (Or.inr (Or.inr (Or.inr (Or.inr (Or.inl
            ⟨p, h0, hmid, rfl, hk, ?_⟩)))))
          simp only [eraseB, if_neg h0, if_pos hmid, hc]
          rw [if_neg (by simpa using hk)]
        · refine Or.inr (Or.inr (Or.inr (Or.inr (Or.inl
            ⟨p, h0, hmid, rfl, hk, ?_⟩))))
          simp only [eraseB, if_neg h0, if_pos hmid, hc]
          rw [if_pos hk]
    · refine Or.inr (Or.inr (Or.inr (Or.inr (Or.inr (Or.inr
        ⟨h0, hmid, ?_⟩)))))
      simp only [eraseB, if_neg h0, if_neg hmid]

theorem eraseB_found_erases (cfg : Config) (book : Book) (s : Side)
    (k v : Int) (hN : 0 < cfg.N) (hs : goodShape cfg book.buckets)
    (hdup : dupFreeBuckets book.buckets)
    (hfound : findB cfg book s k = (none, some v)) :
    eraseB cfg book s k = (none, true, (eraseB cfg book s k).2.2) ∧
    findB cfg (eraseB cfg book s k).2.2 s k = (none, none) := by
  have hlen : (hashKey cfg book.hashing_mid_price s k).1 < book.buckets.length := by
    rw [hs.1]
    exact hashKey_fst_lt cfg book.hashing_mid_price k s hN
  have hmem : book.buckets.getD (hashKey cfg book.hashing_mid_price s k).1
      default ∈ book.buckets := getD_mem _ _ _ hlen
  rcases eraseB_cases cfg book s k with
    ⟨h0, hc, heq⟩ | ⟨p, h0, hc, hk, heq⟩ | ⟨p, h0, hc, hk, heq⟩ |
    ⟨h0, hmid, hc, heq⟩ | ⟨p, h0, hmid, hc, hk, heq⟩ |
    ⟨p, h0, hmid, hc, hk, heq⟩ | ⟨h0, hmid, heq⟩
  · have := found_first cfg book.hashing_mid_price book.buckets s k v h0 hfound
    rw [hc] at this
    cases this
  · have := found_first cfg book.hashing_mid_price book.buckets s k v h0 hfound
    rw [hc] at this
    cases this
    exact absurd rfl hk
  · rw [heq]
    refine ⟨rfl, ?_⟩
    show findRaw cfg book.hashing_mid_price
      (book.buckets.set (hashKey cfg book.hashing_mid_price s k).1
        { book.buckets.getD (hashKey cfg book.hashing_mid_price s k).1
            default with
          first_node := (book.buckets.getD
            (hashKey cfg book.hashing_mid_price s k).1
            default).first_node.setCell s none }) s k = (none, none)
    rw [findRaw_dispatch0 cfg book.hashing_mid_price _ s k h0,
      getD_set_self _ _ _ _ hlen]
    rw [show ({ book.buckets.getD (hashKey cfg book.hashing_mid_price s k).1
        default with
      first_node := (book.buckets.getD
        (hashKey cfg book.hashing_mid_price s k).1
        default).first_node.setCell s none } : Bucket).first_node.cell s
      = none from cell_setCell_same _ s none]
    simp
  · have := found_mid cfg book.hashing_mid_price book.buckets s k v h0 hmid
      hfound
    rw [hc] at this
    cases this
  · have := found_mid cfg book.hashing_mid_price book.buckets s k v h0 hmid
      hfound
    rw [hc] at this
    cases this
    exact absurd rfl hk
  · rw [heq]
    refine ⟨rfl, ?_⟩
    show findRaw cfg book.hashing_mid_price
      (book.buckets.set (hashKey cfg book.hashing_mid_price s k).1
        { book.buckets.getD (hashKey cfg book.hashing_mid_price s k).1
            default with
          nodes := (book.buckets.getD
            (hashKey cfg book.hashing_mid_price s k).1 default).nodes.set
            ((hashKey cfg book.hashing_mid_price s k).2.1 - 1)
            (((book.buckets.getD (hashKey cfg book.hashing_mid_price s k).1
              default).nodes.getD
              ((hashKey cfg book.hashing_mid_price s k).2.1 - 1)
              default).setCell s none) }) s k = (none, none)
    rw [findRaw_dispatch_mid cfg book.hashing_mid_price _ s k h0 hmid,
      getD_set_self _ _ _ _ hlen]
    have hnlen : (hashKey cfg book.hashing_mid_price s k).2.1 - 1 <
        (book.buckets.getD (hashKey cfg book.hashing_mid_price s k).1
          default).nodes.length := by
      rw [hs.2 _ hmem]
      exact hmid
    show probeNode s k (((book.buckets.getD
      (hashKey cfg book.hashing_mid_price s k).1 default).nodes.set
      ((hashKey cfg book.hashing_mid_price s k).2.1 - 1)
      (((book.buckets.getD (hashKey cfg book.hashing_mid_price s k).1
        default).nodes.getD ((hashKey cfg book.hashing_mid_price s k).2.1 - 1)
        default).setCell s none)).getD
      ((hashKey cfg book.hashing_mid_price s k).2.1 - 1) default) = (none, none)
    rw [getD_set_self _ _ _ _ hnlen]
    exact probeNode_of_none s k _ (cell_setCell_same _ s none)
  · obtain ⟨n, hf, hcell⟩ := found_over cfg book.hashing_mid_price book.buckets
      s k v h0 hmid hfound
    have htrue : (eraseNode s k (book.buckets.getD
        (hashKey cfg book.hashing_mid_price s k).1
        default).overflow_bucket).1 = true :=
      eraseNode_found_of_findNode s k _ n hf
    rw [heq, htrue]
    refine ⟨rfl, ?_⟩
    show findRaw cfg book.hashing_mid_price
      (book.buckets.set (hashKey cfg book.hashing_mid_price s k).1
        { book.buckets.getD (hashKey cfg book.hashing_mid_price s k).1
            default with
          overflow_bucket := (eraseNode s k (book.buckets.getD
            (hashKey cfg book.hashing_mid_price s k).1
            default).overflow_bucket).2 }) s k = (none, none)
    rw [findRaw_dispatch_over cfg book.hashing_mid_price _ s k h0 hmid,
      getD_set_self _ _ _ _ hlen]
    rw [show ({ book.buckets.getD (hashKey cfg book.hashing_mid_price s k).1
        default with
      overflow_bucket := (eraseNode s k (book.buckets.getD
        (hashKey cfg book.hashing_mid_price s k).1
        default).overflow_bucket).2 } : Bucket).overflow_bucket =
      (eraseNode s k (book.buckets.getD
        (hashKey cfg book.hashing_mid_price s k).1
        default).overflow_bucket).2 from rfl]
    rw [eraseNode_removes s k _ (hdup _ hmem s k)]

theorem dupFreeList_nil : dupFreeList [] := by
  intro s k
  simp

theorem dupFree_empty (cfg : Config) : dupFreeBuckets (emptyBuckets cfg) := by
  intro b hb
  unfold emptyBuckets at hb
  rw [List.eq_of_mem_replicate hb]
  exact dupFreeList_nil

theorem dupFreeList_getD (bks : List Bucket) (i : Nat)
    (hdup : dupFreeBuckets bks) :
    dupFreeList (bks.getD i default).overflow_bucket := by
  by_cases hlen : i < bks.length
  · exact hdup _ (getD_mem _ _ _ hlen)
  · rw [List.getD_eq_default _ _ (Nat.le_of_not_lt hlen)]
    exact dupFreeList_nil

theorem insertRaw_dupFree (cfg : Config) (s2 : Side) (k2 v2 : Int)
    (bks : List Bucket) (pA bA : Int) (sc : Scal)
    (hdup : dupFreeBuckets bks) :
    dupFreeBuckets (insertRaw cfg s2 k2 v2 bks pA bA sc).2.2.1 := by
  have hdl := dupFreeList_getD bks (hashKey cfg pA s2 k2).1 hdup
  rcases insertRaw_cases cfg s2 k2 v2 bks pA bA sc with
    ⟨_, _, heq⟩ | ⟨_, _, heq⟩ | ⟨_, _, _, heq⟩ | ⟨_, _, _, heq⟩ |
    ⟨_, _, hf, heq⟩ | ⟨_, _, _, heq⟩ | ⟨_, _, _, heq⟩ <;> rw [heq]
  · exact hdup
  · intro b hb
    rcases List.mem_or_eq_of_mem_set hb with h | h
    · exact hdup b h
    · rw [h]
      exact hdl
  · exact hdup
  · intro b hb
    rcases List.mem_or_eq_of_mem_set hb with h | h
    · exact hdup b h
    · rw [h]
      exact hdl
  · intro b hb
    rcases List.mem_or_eq_of_mem_set hb with h | h
    · exact hdup b h
    · rw [h]
      show dupFreeList (CollisionNode.mk' k2 v2 s2 (hashKey cfg pA s2 k2).2.1 ::
        (bks.getD (hashKey cfg pA s2 k2).1 default).overflow_bucket)
      intro s k
      rw [List.countP_cons]
      by_cases hsk : s = s2 ∧ k = k2
      · have hm : nodeMatches s k
            (CollisionNode.mk' k2 v2 s2 (hashKey cfg pA s2 k2).2.1) = true := by
          rw [hsk.1, hsk.2]
          simp [nodeMatches, cell_mk'_same]
        rw [hm, show (if (true = true) then 1 else 0) = 1 from rfl]
        have h0 : ((bks.getD (hashKey cfg pA s2 k2).1
            default).overflow_bucket).countP (nodeMatches s k) = 0 := by
          rw [hsk.1, hsk.2]
          exact (findNode_none_iff_countP s2 k2 _).mp hf
        omega
      · have hm : nodeMatches s k
            (CollisionNode.mk' k2 v2 s2 (hashKey cfg pA s2 k2).2.1) = false := by
          unfold nodeMatches
          by_cases hss : s = s2
          · rcases (not_and.mp hsk hss) with hkk
            rw [hss, cell_mk'_same]
            simpa using fun hx => hkk hx.symm
          · rw [cell_mk'_other k2 v2 s s2 _ (fun hx => hss hx.symm)]
        rw [hm, show (if (false = true) then 1 else 0) = 0 from rfl]
        have := hdl s k
        omega
  · exact hdup
  · exact hdup

theorem insertAll_dupFree (cfg : Config) (ops : List (Side × Int × Int))
    (B book : Book) (h : insertAll cfg ops B = some book)
    (hdup : dupFreeBuckets B.buckets) : dupFreeBuckets book.buckets := by
  induction ops generalizing B with
  | nil =>
    rw [insertAll_nil_eq] at h
    cases h
    exact hdup
  | cons t rest ih =>
    obtain ⟨hstep, hrest⟩ := insertAll_cons cfg t rest B book h
    refine ih _ hrest ?_
    rw [insertB_eq]
    exact insertRaw_dupFree cfg t.1 t.2.1 t.2.2 B.buckets B.hashing_mid_price
      B.hashing_mid_price B.sc hdup

/-- Claim C1 (confirmed): for every sequence of `insert` calls with pairwise
distinct `(side, key)` pairs, all of which succeed on a fresh book, every
inserted triple is retrievable — `find` returns `true` and copies out the
inserted value — and erasing it succeeds, after which a subsequent `find`
returns `false`.  The sequence may route keys through any of the three tiers
(first slot, secondary slots, overflow list). -/
theorem round_trip (cfg : Config) (anchor : Int)
    (ops : List (Side × Int × Int)) (book : Book) (hN : 0 < cfg.N)
    (hnodup : (ops.map fun t => (t.1, t.2.1)).Nodup)
    (hrun : insertAll cfg ops (emptyBook cfg anchor) = some book) :
    ∀ t ∈ ops, findB cfg book t.1 t.2.1 = (none, some t.2.2) ∧
      eraseB cfg book t.1 t.2.1 =
        (none, true, (eraseB cfg book t.1 t.2.1).2.2) ∧
      findB cfg (eraseB cfg book t.1 t.2.1).2.2 t.1 t.2.1 = (none, none) := by
  have hshape : goodShape cfg book.buckets :=
    insertAll_goodShape cfg ops _ book hN hrun (goodShape_empty cfg)
  have hdup : dupFreeBuckets book.buckets :=
    insertAll_dupFree cfg ops _ book hrun (dupFree_empty cfg)
  intro t ht
  have hfound := insertAll_mem_found cfg ops _ book hN hrun
    (goodShape_empty cfg) hnodup t ht
  refine ⟨hfound, ?_, ?_⟩
  · exact (eraseB_found_erases cfg book t.1 t.2.1 t.2.2 hN hshape hdup
      hfound).1
  · exact (eraseB_found_erases cfg book t.1 t.2.1 t.2.2 hN hshape hdup
      hfound).2

/-- Witness for C1 on a concrete three-insert run covering all three tiers. -/
theorem round_trip_witness :
    (0 < cfgUnit.N ∧ ((rtOps.map fun t => (t.1, t.2.1)).Nodup) ∧
      insertAll cfgUnit rtOps (emptyBook cfgUnit 110) = some rtBook) ∧
    findB cfgUnit rtBook Side.ASK 135 = (none, some 2) := by
  refine ⟨⟨by decide, by decide, by decide⟩, ?_⟩
  exact (round_trip cfgUnit 110 rtOps rtBook (by decide) (by decide)
    (by decide) (Side.ASK, 135, 2) (by decide)).1

theorem insertRaw_present_fails (cfg : Config) (anchor bA : Int)
    (bks : List Bucket) (sc : Scal) (s : Side) (k v v2 : Int)
    (hfound : findRaw cfg anchor bks s k = (none, some v)) :
    insertRaw cfg s k v2 bks anchor bA sc = (none, false, bks, sc) := by
  rcases insertRaw_cases cfg s k v2 bks anchor bA sc with
    ⟨_, _, heq⟩ | ⟨h20, h2occ, heq⟩ | ⟨_, _, _, heq⟩ | ⟨h20, h2mid, h2occ, heq⟩ |
    ⟨h20, h2mid, h2f, heq⟩ | ⟨_, _, _, heq⟩ | ⟨h20, h2mid, hex, heq⟩
  · exact heq
  · have := found_first cfg anchor bks s k v h20 hfound
    rw [this] at h2occ
    cases h2occ
  · exact heq
  · have := found_mid cfg anchor bks s k v h20 h2mid hfound
    rw [this] at h2occ
    cases h2occ
  · obtain ⟨n, hf, _⟩ := found_over cfg anchor bks s k v h20 h2mid hfound
    rw [h2f] at hf
    cases hf
  · exact heq
  · obtain ⟨n, hf, hcell⟩ := found_over cfg anchor bks s k v h20 h2mid hfound
    obtain ⟨n1, hf1, ho1⟩ := hex
    rw [hf] at hf1
    cases hf1
    rw [hcell] at ho1
    cases ho1

theorem eraseNode_keeps (s : Side) (k v : Int) (s2 : Side) (k2 : Int)
    (l : List CollisionNode) (n : CollisionNode)
    (hne : ¬ (s2 = s ∧ k2 = k))
    (hf : findNode s k l = some n) (hc : n.toBANode.cell s = some (k, v)) :
    ∃ m, findNode s k (eraseNode s2 k2 l).2 = some m ∧
      m.toBANode.cell s = some (k, v) := by
  induction l generalizing n with
  | nil => exact absurd hf (by simp [findNode])
  | cons m0 rest ih =>
    rcases hc2 : m0.toBANode.cell s2 with _ | p2
    · -- erase does not match this node's cell
      simp only [eraseNode, hc2]
      by_cases hz : m0.bid_value = none ∧ m0.ask_value = none
      · -- both cells empty: the node is dropped (and cannot be the found one)
        rw [if_pos hz]
        have hcs : m0.toBANode.cell s = none := by
          cases s
          · exact hz.1
          · exact hz.2
        simp only [findNode, hcs] at hf
        exact ih n hf hc
      · rw [if_neg hz]
        rcases hcs : m0.toBANode.cell s with _ | p
        · simp only [findNode, hcs] at hf
          obtain ⟨m, hm, hcm⟩ := ih n hf hc
          refine ⟨m, ?_, hcm⟩
          show findNode s k (m0 :: (eraseNode s2 k2 rest).2) = some m
          rw [findNode_cons_skip s k m0 _
            (by intro q hq; rw [hq] at hcs; cases hcs)]
          exact hm
        · by_cases hk : p.1 = k
          · rw [findNode_cons_hit s k m0 rest p hcs hk] at hf
            cases hf
            refine ⟨m0, ?_, hc⟩
            show findNode s k (m0 :: (eraseNode s2 k2 rest).2) = some m0
            exact findNode_cons_hit s k m0 _ p hcs hk
          · simp only [findNode, hcs] at hf
            rw [if_neg hk] at hf
            obtain ⟨m, hm, hcm⟩ := ih n hf hc
            refine ⟨m, ?_, hcm⟩
            show findNode s k (m0 :: (eraseNode s2 k2 rest).2) = some m
            rw [findNode_cons_skip s k m0 _
              (by intro q hq; rw [hq] at hcs; cases hcs; exact hk)]
            exact hm
    · by_cases hk2 : p2.1 = k2
      · -- erase resets this node's s2-cell and stops
        simp only [eraseNode, hc2]
        rw [if_pos hk2]
        by_cases hss : s2 = s
        · -- the reset cell is on our side: the node cannot hold (k, v)
          subst hss
          rcases hcs : m0.toBANode.cell s2 with _ | p
          · rw [hcs] at hc2
            cases hc2
          · rw [hcs] at hc2
            cases hc2
            by_cases hk : p2.1 = k
            · rw [findNode_cons_hit s2 k m0 rest p2 hcs hk] at hf
              cases hf
              rw [hcs] at hc
              cases hc
              exact absurd ⟨rfl, hk2.symm⟩ hne
            · simp only [findNode, hcs] at hf
              rw [if_neg hk] at hf
              by_cases hz : (m0.toBANode.setCell s2 none).bid_value = none ∧
                  (m0.toBANode.setCell s2 none).ask_value = none
              · rw [if_pos hz]
                exact ⟨n, hf, hc⟩
              · rw [if_neg hz]
                refine ⟨n, ?_, hc⟩
                show findNode s2 k
                  ({ toBANode := m0.toBANode.setCell s2 none,
                     collision_index := m0.collision_index } ::
                    rest) = some n
                rw [findNode_cons_skip]
                · exact hf
                · intro q hq
                  show ¬ q.1 = k
                  rw [show (m0.toBANode.setCell s2 none).cell s2 = none from
                    cell_setCell_same _ s2 none] at hq
                  cases hq
        · -- the reset cell is on the other side; our cell is untouched
          rcases hcs : m0.toBANode.cell s with _ | p
          · simp only [findNode, hcs] at hf
            by_cases hz : (m0.toBANode.setCell s2 none).bid_value = none ∧
                (m0.toBANode.setCell s2 none).ask_value = none
            · rw [if_pos hz]
              exact ⟨n, hf, hc⟩
            · rw [if_neg hz]
              refine ⟨n, ?_, hc⟩
              show findNode s k
                ({ toBANode := m0.toBANode.setCell s2 none,
                   collision_index := m0.collision_index } :: rest) = some n
              rw [findNode_cons_skip]
              · exact hf
              · intro q hq
                rw [show (m0.toBANode.setCell s2 none).cell s =
                  m0.toBANode.cell s from cell_setCell_other _ s s2 _ hss,
                  hcs] at hq
                cases hq
          · by_cases hk : p.1 = k
            · rw [findNode_cons_hit s k m0 rest p hcs hk] at hf
              cases hf
              have hcell' : (m0.toBANode.setCell s2 none).cell s =
                  m0.toBANode.cell s := cell_setCell_other _ s s2 _ hss
              by_cases hz : (m0.toBANode.setCell s2 none).bid_value = none ∧
                  (m0.toBANode.setCell s2 none).ask_value = none
              · exfalso
                have : (m0.toBANode.setCell s2 none).cell s = none := by
                  cases s
                  · exact hz.1
                  · exact hz.2
                rw [hcell', hcs] at this
                cases this
              · rw [if_neg hz]
                refine ⟨{ toBANode := m0.toBANode.setCell s2 none,
                          collision_index := m0.collision_index }, ?_, ?_⟩
                · exact findNode_cons_hit s k _ _ p (by rw [hcell']; exact hcs)
                    hk
                · show (m0.toBANode.setCell s2 none).cell s = some (k, v)
                  rw [hcell']
                  exact hc
            · simp only [findNode, hcs] at hf
              rw [if_neg hk] at hf
              by_cases hz : (m0.toBANode.setCell s2 none).bid_value = none ∧
                  (m0.toBANode.setCell s2 none).ask_value = none
              · rw [if_pos hz]
                exact ⟨n, hf, hc⟩
              · rw [if_neg hz]
                refine ⟨n, ?_, hc⟩
                show findNode s k
                  ({ toBANode := m0.toBANode.setCell s2 none,
                     collision_index := m0.collision_index } :: rest) = some n
                rw [findNode_cons_skip]
                · exact hf
                · intro q hq
                  rw [show (m0.toBANode.setCell s2 none).cell s =
                    m0.toBANode.cell s from cell_setCell_other _ s s2 _ hss,
                    hcs] at hq
                  cases hq
                  exact hk
      · -- key mismatch on the s2-cell: erase walks on
        simp only [eraseNode, hc2]
        rw [if_neg hk2]
        have hz : ¬ (m0.bid_value = none ∧ m0.ask_value = none) := by
          intro hz
          have : m0.toBANode.cell s2 = none := by
            cases s2
            · exact hz.1
            · exact hz.2
          rw [hc2] at this
          cases this
        rw [if_neg hz]
        rcases hcs : m0.toBANode.cell s with _ | p
        · simp only [findNode, hcs] at hf
          obtain ⟨m, hm, hcm⟩ := ih n hf hc
          refine ⟨m, ?_, hcm⟩
          show findNode s k (m0 :: (eraseNode s2 k2 rest).2) = some m
          rw [findNode_cons_skip s k m0 _
            (by intro q hq; rw [hq] at hcs; cases hcs)]
          exact hm
        · by_cases hk : p.1 = k
          · rw [findNode_cons_hit s k m0 rest p hcs hk] at hf
            cases hf
            refine ⟨m0, ?_, hc⟩
            show findNode s k (m0 :: (eraseNode s2 k2 rest).2) = some m0
            exact findNode_cons_hit s k m0 _ p hcs hk
          · simp only [findNode, hcs] at hf
            rw [if_neg hk] at hf
            obtain ⟨m, hm, hcm⟩ := ih n hf hc
            refine ⟨m, ?_, hcm⟩
            show findNode s k (m0 :: (eraseNode s2 k2 rest).2) = some m
            rw [findNode_cons_skip s k m0 _
              (by intro q hq; rw [hq] at hcs; cases hcs; exact hk)]
            exact hm

theorem eraseB_keeps_found (cfg : Config) (book : Book) (s : Side) (k v : Int)
    (s2 : Side) (k2 : Int) (hne : ¬ (s2 = s ∧ k2 = k))
    (hfound : findB cfg book s k = (none, some v)) :
    findB cfg (eraseB cfg book s2 k2).2.2 s k = (none, some v) := by
  rcases eraseB_cases cfg book s2 k2 with
    ⟨_, _, heq⟩ | ⟨p, _, _, _, heq⟩ | ⟨p, h20, hc2, hk2, heq⟩ |
    ⟨_, _, _, heq⟩ | ⟨p, _, _, _, _, heq⟩ | ⟨p, h20, h2mid, hc2, hk2, heq⟩ |
    ⟨h20, h2mid, heq⟩
  · rw [heq]
    exact hfound
  · rw [heq]
    exact hfound
  · -- reset of the first-slot cell (side s2) at bucket h2
    rw [heq]
    show findRaw cfg book.hashing_mid_price
      (book.buckets.set (hashKey cfg book.hashing_mid_price s2 k2).1
        { book.buckets.getD (hashKey cfg book.hashing_mid_price s2 k2).1
            default with
          first_node := (book.buckets.getD
            (hashKey cfg book.hashing_mid_price s2 k2).1
            default).first_node.setCell s2 none }) s k = (none, some v)
    by_cases hlen : (hashKey cfg book.hashing_mid_price s2 k2).1 <
        book.buckets.length
    · by_cases hh : (hashKey cfg book.hashing_mid_price s k).1 =
          (hashKey cfg book.hashing_mid_price s2 k2).1
      · have hB : (book.buckets.set
            (hashKey cfg book.hashing_mid_price s2 k2).1
            { book.buckets.getD (hashKey cfg book.hashing_mid_price s2 k2).1
                default with
              first_node := (book.buckets.getD
                (hashKey cfg book.hashing_mid_price s2 k2).1
                default).first_node.setCell s2 none }).getD
            (hashKey cfg book.hashing_mid_price s k).1 default =
            { book.buckets.getD (hashKey cfg book.hashing_mid_price s2 k2).1
                default with
              first_node := (book.buckets.getD
                (hashKey cfg book.hashing_mid_price s2 k2).1
                default).first_node.setCell s2 none } := by
          rw [hh]
          exact getD_set_self _ _ _ _ hlen
        by_cases h10 : (hashKey cfg book.hashing_mid_price s k).2.1 = 0
        · have hc := found_first cfg book.hashing_mid_price book.buckets s k v
            h10 hfound
          rw [hh] at hc
          by_cases hss : s2 = s
          · subst hss
            rw [hc] at hc2
            cases hc2
            exact absurd ⟨rfl, hk2⟩ hne
          · apply findRaw_of_first cfg book.hashing_mid_price _ s k v h10
            rw [hB]
            show ((book.buckets.getD
              (hashKey cfg book.hashing_mid_price s2 k2).1
              default).first_node.setCell s2 none).cell s = some (k, v)
            rw [cell_setCell_other _ s s2 _ hss]
            exact hc
        · by_cases h1mid : (hashKey cfg book.hashing_mid_price s k).2.1 - 1 <
              cfg.C
          · have hc := found_mid cfg book.hashing_mid_price book.buckets s k v
              h10 h1mid hfound
            rw [hh] at hc
            apply findRaw_of_mid cfg book.hashing_mid_price _ s k v h10 h1mid
            rw [hB]
            exact hc
          · obtain ⟨n, hf, hc⟩ := found_over cfg book.hashing_mid_price
              book.buckets s k v h10 h1mid hfound
            rw [hh] at hf
            apply findRaw_of_over cfg book.hashing_mid_price _ s k v n h10
              h1mid _ hc
            rw [hB]
            exact hf
      · apply Eq.trans _ hfound
        apply findRaw_congr cfg book.hashing_mid_price s k book.buckets
        exact getD_set_ne _ _ _ _ _ (fun hx => hh hx.symm)
    · rw [List.set_eq_of_length_le (Nat.le_of_not_lt hlen)]
      exact hfound
  · rw [heq]
    exact hfound
  · rw [heq]
    exact hfound
  · -- reset of a secondary-slot cell (side s2) at bucket h2
    rw [heq]
    show findRaw cfg book.hashing_mid_price
      (book.buckets.set (hashKey cfg book.hashing_mid_price s2 k2).1
        { book.buckets.getD (hashKey cfg book.hashing_mid_price s2 k2).1
            default with
          nodes := (book.buckets.getD
            (hashKey cfg book.hashing_mid_price s2 k2).1 default).nodes.set
            ((hashKey cfg book.hashing_mid_price s2 k2).2.1 - 1)
            (((book.buckets.getD
              (hashKey cfg book.hashing_mid_price s2 k2).1 default).nodes.getD
              ((hashKey cfg book.hashing_mid_price s2 k2).2.1 - 1)
              default).setCell s2 none) }) s k = (none, some v)
    by_cases hlen : (hashKey cfg book.hashing_mid_price s2 k2).1 <
        book.buckets.length
    · by_cases hh : (hashKey cfg book.hashing_mid_price s k).1 =
          (hashKey cfg book.hashing_mid_price s2 k2).1
      · have hB : (book.buckets.set
            (hashKey cfg book.hashing_mid_price s2 k2).1
            { book.buckets.getD (hashKey cfg book.hashing_mid_price s2 k2).1
                default with
              nodes := (book.buckets.getD
                (hashKey cfg book.hashing_mid_price s2 k2).1 default).nodes.set
                ((hashKey cfg book.hashing_mid_price s2 k2).2.1 - 1)
                (((book.buckets.getD
                  (hashKey cfg book.hashing_mid_price s2 k2).1
                  default).nodes.getD
                  ((hashKey cfg book.hashing_mid_price s2 k2).2.1 - 1)
                  default).setCell s2 none) }).getD
            (hashKey cfg book.hashing_mid_price s k).1 default =
            { book.buckets.getD (hashKey cfg book.hashing_mid_price s2 k2).1
                default with
              nodes := (book.buckets.getD
                (hashKey cfg book.hashing_mid_price s2 k2).1 default).nodes.set
                ((hashKey cfg book.hashing_mid_price s2 k2).2.1 - 1)
                (((book.buckets.getD
                  (hashKey cfg book.hashing_mid_price s2 k2).1
                  default).nodes.getD
                  ((hashKey cfg book.hashing_mid_price s2 k2).2.1 - 1)
                  default).setCell s2 none) } := by
          rw [hh]
          exact getD_set_self _ _ _ _ hlen
        by_cases h10 : (hashKey cfg book.hashing_mid_price s k).2.1 = 0
        · have hc := found_first cfg book.hashing_mid_price book.buckets s k v
            h10 hfound
          rw [hh] at hc
          apply findRaw_of_first cfg book.hashing_mid_price _ s k v h10
          rw [hB]
          exact hc
        · by_cases h1mid : (hashKey cfg book.hashing_mid_price s k).2.1 - 1 <
              cfg.C
          · have hc := found_mid cfg book.hashing_mid_price book.buckets s k v
              h10 h1mid hfound
            rw [hh] at hc
            apply findRaw_of_mid cfg book.hashing_mid_price _ s k v h10 h1mid
            rw [hB]
            show (((book.buckets.getD
              (hashKey cfg book.hashing_mid_price s2 k2).1 default).nodes.set
              ((hashKey cfg book.hashing_mid_price s2 k2).2.1 - 1)
              (((book.buckets.getD
                (hashKey cfg book.hashing_mid_price s2 k2).1
                default).nodes.getD
                ((hashKey cfg book.hashing_mid_price s2 k2).2.1 - 1)
                default).setCell s2 none)).getD
              ((hashKey cfg book.hashing_mid_price s k).2.1 - 1)
              default).cell s = some (k, v)
            by_cases hii : (hashKey cfg book.hashing_mid_price s2 k2).2.1 - 1 =
                (hashKey cfg book.hashing_mid_price s k).2.1 - 1
            · by_cases hnlen : (hashKey cfg book.hashing_mid_price s2 k2).2.1
                  - 1 < (book.buckets.getD
                  (hashKey cfg book.hashing_mid_price s2 k2).1
                  default).nodes.length
              · rw [← hii, getD_set_self _ _ _ _ hnlen]
                by_cases hss : s2 = s
                · subst hss
                  rw [hii, hc] at hc2
                  cases hc2
                  exact absurd ⟨rfl, hk2⟩ hne
                · rw [cell_setCell_other _ s s2 _ hss, hii]
                  exact hc
              · rw [List.set_eq_of_length_le (Nat.le_of_not_lt hnlen)]
                exact hc
            · rw [getD_set_ne _ _ _ _ _ hii]
              exact hc
          · obtain ⟨n, hf, hc⟩ := found_over cfg book.hashing_mid_price
              book.buckets s k v h10 h1mid hfound
            rw [hh] at hf
            apply findRaw_of_over cfg book.hashing_mid_price _ s k v n h10
              h1mid _ hc
            rw [hB]
            exact hf
      · apply Eq.trans _ hfound
        apply findRaw_congr cfg book.hashing_mid_price s k book.buckets
        exact getD_set_ne _ _ _ _ _ (fun hx => hh hx.symm)
    · rw [List.set_eq_of_length_le (Nat.le_of_not_lt hlen)]
      exact hfound
  · -- walk of the overflow list at bucket h2
    rw [heq]
    show findRaw cfg book.hashing_mid_price
      (book.buckets.set (hashKey cfg book.hashing_mid_price s2 k2).1
        { book.buckets.getD (hashKey cfg book.hashing_mid_price s2 k2).1
            default with
          overflow_bucket := (eraseNode s2 k2 (book.buckets.getD
            (hashKey cfg book.hashing_mid_price s2 k2).1
            default).overflow_bucket).2 }) s k = (none, some v)
    by_cases hlen : (hashKey cfg book.hashing_mid_price s2 k2).1 <
        book.buckets.length
    · by_cases hh : (hashKey cfg book.hashing_mid_price s k).1 =
          (hashKey cfg book.hashing_mid_price s2 k2).1
      · have hB : (book.buckets.set
            (hashKey cfg book.hashing_mid_price s2 k2).1
            { book.buckets.getD (hashKey cfg book.hashing_mid_price s2 k2).1
                default with
              overflow_bucket := (eraseNode s2 k2 (book.buckets.getD
                (hashKey cfg book.hashing_mid_price s2 k2).1
                default).overflow_bucket).2 }).getD
            (hashKey cfg book.hashing_mid_price s k).1 default =
            { book.buckets.getD (hashKey cfg book.hashing_mid_price s2 k2).1
                default with
              overflow_bucket := (eraseNode s2 k2 (book.buckets.getD
                (hashKey cfg book.hashing_mid_price s2 k2).1
                default).overflow_bucket).2 } := by
          rw [hh]
          exact getD_set_self _ _ _ _ hlen
        by_cases h10 : (hashKey cfg book.hashing_mid_price s k).2.1 = 0
        · have hc := found_first cfg book.hashing_mid_price book.buckets s k v
            h10 hfound
          rw [hh] at hc
          apply findRaw_of_first cfg book.hashing_mid_price _ s k v h10
          rw [hB]
          exact hc
        · by_cases h1mid : (hashKey cfg book.hashing_mid_price s k).2.1 - 1 <
              cfg.C
          · have hc := found_mid cfg book.hashing_mid_price book.buckets s k v
              h10 h1mid hfound
            rw [hh] at hc
            apply findRaw_of_mid cfg book.hashing_mid_price _ s k v h10 h1mid
            rw [hB]
            exact hc
          · obtain ⟨n, hf, hc⟩ := found_over cfg book.hashing_mid_price
              book.buckets s k v h10 h1mid hfound
            rw [hh] at hf
            obtain ⟨m, hm, hcm⟩ := eraseNode_keeps s k v s2 k2 _ n hne hf hc
            apply findRaw_of_over cfg book.hashing_mid_price _ s k v m h10
              h1mid _ hcm
            rw [hB]
            exact hm
      · apply Eq.trans _ hfound
        apply findRaw_congr cfg book.hashing_mid_price s k book.buckets
        exact getD_set_ne _ _ _ _ _ (fun hx => hh hx.symm)
    · rw [List.set_eq_of_length_le (Nat.le_of_not_lt hlen)]
      exact hfound

theorem insertB_keeps_found (cfg : Config) (book : Book) (s : Side)
    (k v : Int) (s2 : Side) (k2 v2 : Int)
    (hfound : findB cfg book s k = (none, some v)) :
    findB cfg (insertB cfg book s2 k2 v2).2.2 s k = (none, some v) := by
  rw [insertB_eq]
  show findRaw cfg book.hashing_mid_price
    (insertRaw cfg s2 k2 v2 book.buckets book.hashing_mid_price
      book.hashing_mid_price book.sc).2.2.1 s k = (none, some v)
  by_cases hsk : s2 = s ∧ k2 = k
  · obtain ⟨rfl, rfl⟩ := hsk
    rw [insertRaw_present_fails cfg book.hashing_mid_price
      book.hashing_mid_price book.buckets book.sc s2 k2 v v2 hfound]
    exact hfound
  · exact insertRaw_keeps_found cfg book.hashing_mid_price
      book.hashing_mid_price book.buckets book.sc s k v s2 k2 v2 hsk hfound

theorem runOps_cons (cfg : Config) (op : Op) (rest : List Op) (B : Book) :
    runOps cfg (op :: rest) B = runOps cfg rest
      (match op with
       | Op.ins s2 k2 v2 => (insertB cfg B s2 k2 v2).2.2
       | Op.del s2 k2 => (eraseB cfg B s2 k2).2.2
       | Op.clr => clearB B
       | Op.reh a => (rehashB cfg B a).2) := by
  cases op <;> rfl

theorem runOps_keeps_found (cfg : Config) (ops : List Op) (B : Book)
    (s : Side) (k v : Int)
    (hops : ∀ op ∈ ops, insOrOtherDel s k op)
    (hfound : findB cfg B s k = (none, some v)) :
    findB cfg (runOps cfg ops B) s k = (none, some v) := by
  induction ops generalizing B with
  | nil => exact hfound
  | cons op rest ih =>
    rw [runOps_cons]
    cases op with
    | ins s2 k2 v2 =>
      exact ih _ (fun o ho => hops o (List.mem_cons_of_mem _ ho))
        (insertB_keeps_found cfg B s k v s2 k2 v2 hfound)
    | del s2 k2 =>
      exact ih _ (fun o ho => hops o (List.mem_cons_of_mem _ ho))
        (eraseB_keeps_found cfg B s k v s2 k2
          (hops _ (List.mem_cons_self _ _)) hfound)
    | clr => exact absurd (hops _ (List.mem_cons_self _ _)) (by simp [insOrOtherDel])
    | reh a => exact absurd (hops _ (List.mem_cons_self _ _)) (by simp [insOrOtherDel])

/-- Claim C7 (confirmed): if `insert(s, k, v)` succeeded and no
`erase(s, k)` has intervened (any other inserts and erases may), a second
`insert(s, k, v2)` returns `false` and leaves the whole book — in particular
`size` — unchanged. -/
theorem duplicate_insert_rejected (cfg : Config) (book B1 : Book) (s : Side)
    (k v v2 : Int) (ops : List Op) (hN : 0 < cfg.N)
    (hs : goodShape cfg book.buckets)
    (hins : insertB cfg book s k v = (none, true, B1))
    (hops : ∀ op ∈ ops, insOrOtherDel s k op) :
    insertB cfg (runOps cfg ops B1) s k v2 =
      (none, false, runOps cfg ops B1) := by
  have hfound1 : findB cfg B1 s k = (none, some v) := by
    rcases hraw : insertRaw cfg s k v book.buckets book.hashing_mid_price
        book.hashing_mid_price book.sc with ⟨e, ok, bksr, scr⟩
    have hins' := hins
    rw [insertB_eq, hraw] at hins'
    simp only [Prod.mk.injEq] at hins'
    have hB1 : B1 = { book with buckets := bksr, sc := scr } := hins'.2.2.symm
    rw [hB1]
    show findRaw cfg book.hashing_mid_price bksr s k = (none, some v)
    exact insertRaw_success_found cfg book.hashing_mid_price
      book.hashing_mid_price book.buckets book.sc s k v bksr scr hN hs
      (by rw [hraw, hins'.1, hins'.2.1])
  have hfound2 := runOps_keeps_found cfg ops B1 s k v hops hfound1
  rw [insertB_eq]
  rw [insertRaw_present_fails cfg (runOps cfg ops B1).hashing_mid_price
    (runOps cfg ops B1).hashing_mid_price (runOps cfg ops B1).buckets
    (runOps cfg ops B1).sc s k v v2 hfound2]

/-- Witness for C7: insert `Bid@110`, then an unrelated insert and erase, then
the duplicate `insert(BID, 110, 9)` fails and leaves the book unchanged. -/
theorem duplicate_insert_rejected_witness :
    (0 < cfgUnit.N ∧ goodShape cfgUnit (emptyBook cfgUnit 110).buckets ∧
      insertB cfgUnit (emptyBook cfgUnit 110) Side.BID 110 1 =
        (none, true, bookB110) ∧
      (∀ op ∈ [Op.ins Side.ASK 111 7, Op.del Side.ASK 111],
        insOrOtherDel Side.BID 110 op)) ∧
    insertB cfgUnit
      (runOps cfgUnit [Op.ins Side.ASK 111 7, Op.del Side.ASK 111] bookB110)
      Side.BID 110 9 =
      (none, false,
       runOps cfgUnit [Op.ins Side.ASK 111 7, Op.del Side.ASK 111] bookB110) := by
  refine ⟨⟨by decide, by decide, by decide, by decide⟩, ?_⟩
  exact duplicate_insert_rejected cfgUnit (emptyBook cfgUnit 110) bookB110
    Side.BID 110 1 9 [Op.ins Side.ASK 111 7, Op.del Side.ASK 111]
    (by decide) (by decide) (by decide) (by decide)

/-- Claim C4 (corrected): tier routing as the code implements it.  An address
with collision index 0 is served by the primary bucket's first slot;
collision indices `1..C` (inclusive!) are served by secondary slot
`collision_index - 1`; and indices `≥ C + 1` are served by the overflow
list — in particular an address with collision index exactly `C` is served by
secondary slot `C - 1`, never the overflow list.  The theorem characterizes
which storage the three operations touch: a successful insert writes exactly
the dispatched slot of the dispatched bucket (everything else unchanged),
`find` reads exactly the dispatched slot, and `erase` leaves the other slots
of the dispatched bucket and all other buckets unchanged. -/
theorem tier_routing (cfg : Config) (book : Book) (s : Side) (k v : Int)
    (hN : 0 < cfg.N) (hs : goodShape cfg book.buckets) :
    (∀ e b2, insertB cfg book s k v = (e, true, b2) →
      (∀ j, ¬ j = (hashKey cfg book.hashing_mid_price s k).1 →
        b2.buckets.getD j default = book.buckets.getD j default) ∧
      ((hashKey cfg book.hashing_mid_price s k).2.1 = 0 →
        b2.buckets.getD (hashKey cfg book.hashing_mid_price s k).1 default =
          { book.buckets.getD (hashKey cfg book.hashing_mid_price s k).1
              default with
            first_node := (book.buckets.getD
              (hashKey cfg book.hashing_mid_price s k).1
              default).first_node.setCell s (some (k, v)) }) ∧
      (1 ≤ (hashKey cfg book.hashing_mid_price s k).2.1 ∧
          (hashKey cfg book.hashing_mid_price s k).2.1 ≤ cfg.C →
        b2.buckets.getD (hashKey cfg book.hashing_mid_price s k).1 default =
          { book.buckets.getD (hashKey cfg book.hashing_mid_price s k).1
              default with
            nodes := (book.buckets.getD
              (hashKey cfg book.hashing_mid_price s k).1 default).nodes.set
              ((hashKey cfg book.hashing_mid_price s k).2.1 - 1)
              (((book.buckets.getD
                (hashKey cfg book.hashing_mid_price s k).1 default).nodes.getD
                ((hashKey cfg book.hashing_mid_price s k).2.1 - 1)
                default).setCell s (some (k, v))) }) ∧
      (cfg.C + 1 ≤ (hashKey cfg book.hashing_mid_price s k).2.1 →
        b2.buckets.getD (hashKey cfg book.hashing_mid_price s k).1 default =
          { book.buckets.getD (hashKey cfg book.hashing_mid_price s k).1
              default with
            overflow_bucket := CollisionNode.mk' k v s
              (hashKey cfg book.hashing_mid_price s k).2.1 ::
              (book.buckets.getD (hashKey cfg book.hashing_mid_price s k).1
                default).overflow_bucket })) ∧
    (((hashKey cfg book.hashing_mid_price s k).2.1 = 0 →
      findB cfg book s k =
        (if ((book.buckets.getD (hashKey cfg book.hashing_mid_price s k).1
            default).first_node.cell s).isSome = true
         then probeNode s k (book.buckets.getD
           (hashKey cfg book.hashing_mid_price s k).1 default).first_node
         else (none, none))) ∧
     (1 ≤ (hashKey cfg book.hashing_mid_price s k).2.1 ∧
         (hashKey cfg book.hashing_mid_price s k).2.1 ≤ cfg.C →
      findB cfg book s k = probeNode s k ((book.buckets.getD
        (hashKey cfg book.hashing_mid_price s k).1 default).nodes.getD
        ((hashKey cfg book.hashing_mid_price s k).2.1 - 1) default)) ∧
     (cfg.C + 1 ≤ (hashKey cfg book.hashing_mid_price s k).2.1 →
      findB cfg book s k =
        (match findNode s k (book.buckets.getD
            (hashKey cfg book.hashing_mid_price s k).1
            default).overflow_bucket with
         | some n => probeNode s k n.toBANode
         | none => (none, none)))) ∧
    (∀ e ok b2, eraseB cfg book s k = (e, ok, b2) →
      (∀ j, ¬ j = (hashKey cfg book.hashing_mid_price s k).1 →
        b2.buckets.getD j default = book.buckets.getD j default) ∧
      ((hashKey cfg book.hashing_mid_price s k).2.1 = 0 →
        (b2.buckets.getD (hashKey cfg book.hashing_mid_price s k).1
          default).nodes = (book.buckets.getD
          (hashKey cfg book.hashing_mid_price s k).1 default).nodes ∧
        (b2.buckets.getD (hashKey cfg book.hashing_mid_price s k).1
          default).overflow_bucket = (book.buckets.getD
          (hashKey cfg book.hashing_mid_price s k).1 default).overflow_bucket) ∧
      (1 ≤ (hashKey cfg book.hashing_mid_price s k).2.1 ∧
          (hashKey cfg book.hashing_mid_price s k).2.1 ≤ cfg.C →
        (b2.buckets.getD (hashKey cfg book.hashing_mid_price s k).1
          default).first_node = (book.buckets.getD
          (hashKey cfg book.hashing_mid_price s k).1 default).first_node ∧
        (b2.buckets.getD (hashKey cfg book.hashing_mid_price s k).1
          default).overflow_bucket = (book.buckets.getD
          (hashKey cfg book.hashing_mid_price s k).1 default).overflow_bucket) ∧
      (cfg.C + 1 ≤ (hashKey cfg book.hashing_mid_price s k).2.1 →
        (b2.buckets.getD (hashKey cfg book.hashing_mid_price s k).1
          default).first_node = (book.buckets.getD
          (hashKey cfg book.hashing_mid_price s k).1 default).first_node ∧
        (b2.buckets.getD (hashKey cfg book.hashing_mid_price s k).1
          default).nodes = (book.buckets.getD
          (hashKey cfg book.hashing_mid_price s k).1 default).nodes ∧
        (b2.buckets.getD (hashKey cfg book.hashing_mid_price s k).1
          default).overflow_bucket = (eraseNode s k (book.buckets.getD
          (hashKey cfg book.hashing_mid_price s k).1
          default).overflow_bucket).2)) := by
  have hlen : (hashKey cfg book.hashing_mid_price s k).1 <
      book.buckets.length := by
    rw [hs.1]
    exact hashKey_fst_lt cfg book.hashing_mid_price k s hN
  refine ⟨?_, ?_, ?_⟩
  · intro e b2 hins
    rcases hraw : insertRaw cfg s k v book.buckets book.hashing_mid_price
        book.hashing_mid_price book.sc with ⟨e0, ok0, bksr, scr⟩
    rw [insertB_eq, hraw] at hins
    simp only [Prod.mk.injEq] at hins
    obtain ⟨he0, hok0, hb2⟩ := hins
    have hbk2 : b2.buckets = bksr := by rw [← hb2]
    rcases insertRaw_cases cfg s k v book.buckets book.hashing_mid_price
        book.hashing_mid_price book.sc with
      ⟨_, _, heq⟩ | ⟨h20, h2occ, heq⟩ | ⟨_, _, _, heq⟩ |
      ⟨h20, h2mid, h2occ, heq⟩ | ⟨h20, h2mid, h2f, heq⟩ |
      ⟨_, _, _, heq⟩ | ⟨_, _, _, heq⟩ <;> rw [hraw] at heq <;>
      simp only [Prod.mk.injEq] at heq
    · rw [heq.2.1] at hok0
      exact Bool.noConfusion hok0
    · obtain ⟨_, _, hw, _⟩ := heq
      rw [hbk2, hw]
      refine ⟨?_, ?_, ?_, ?_⟩
      · intro j hj
        exact getD_set_ne _ _ _ _ _ (fun hx => hj hx.symm)
      · intro _
        exact getD_set_self _ _ _ _ hlen
      · intro hcb
        omega
      · intro hcb
        omega
    · rw [heq.2.1] at hok0
      exact Bool.noConfusion hok0
    · obtain ⟨_, _, hw, _⟩ := heq
      rw [hbk2, hw]
      refine ⟨?_, ?_, ?_, ?_⟩
      · intro j hj
        exact getD_set_ne _ _ _ _ _ (fun hx => hj hx.symm)
      · intro hcb
        exact absurd hcb h20
      · intro _
        exact getD_set_self _ _ _ _ hlen
      · intro hcb
        omega
    · obtain ⟨_, _, hw, _⟩ := heq
      rw [hbk2, hw]
      refine ⟨?_, ?_, ?_, ?_⟩
      · intro j hj
        exact getD_set_ne _ _ _ _ _ (fun hx => hj hx.symm)
      · intro hcb
        exact absurd hcb h20
      · intro hcb
        omega
      · intro _
        exact getD_set_self _ _ _ _ hlen
    · rw [heq.2.1] at hok0
      exact Bool.noConfusion hok0
    · rw [heq.2.1] at hok0
      exact Bool.noConfusion hok0
  · refine ⟨?_, ?_, ?_⟩
    · intro h0
      exact findRaw_dispatch0 cfg book.hashing_mid_price book.buckets s k h0
    · intro hcb
      exact findRaw_dispatch_mid cfg book.hashing_mid_price book.buckets s k
        (by omega) (by omega)
    · intro hcb
      exact findRaw_dispatch_over cfg book.hashing_mid_price book.buckets s k
        (by omega) (by omega)
  · intro e ok b2 hdel
    rcases eraseB_cases cfg book s k with
      ⟨h0, hc, heq⟩ | ⟨p, h0, hc, hk, heq⟩ | ⟨p, h0, hc, hk, heq⟩ |
      ⟨h0, hmid, hc, heq⟩ | ⟨p, h0, hmid, hc, hk, heq⟩ |
      ⟨p, h0, hmid, hc, hk, heq⟩ | ⟨h0, hmid, heq⟩ <;>
      rw [heq] at hdel <;> simp only [Prod.mk.injEq] at hdel <;>
      obtain ⟨_, _, hb2⟩ := hdel <;> rw [← hb2]
    · exact ⟨fun j hj => rfl, fun _ => ⟨rfl, rfl⟩, fun _ => ⟨rfl, rfl⟩,
        fun _ => ⟨rfl, rfl, by omega⟩⟩
    · exact ⟨fun j hj => rfl, fun _ => ⟨rfl, rfl⟩, fun _ => ⟨rfl, rfl⟩,
        fun hcb => absurd h0 (by omega)⟩
    · refine ⟨?_, ?_, ?_, ?_⟩
      · intro j hj
        exact getD_set_ne _ _ _ _ _ (fun hx => hj hx.symm)
      · intro _
        rw [getD_set_self _ _ _ _ hlen]
        exact ⟨rfl, rfl⟩
      · intro hcb
        omega
      · intro hcb
        omega
    · exact ⟨fun j hj => rfl, fun _ => ⟨rfl, rfl⟩, fun _ => ⟨rfl, rfl⟩,
        fun hcb => absurd hmid (by omega)⟩
    · exact ⟨fun j hj => rfl, fun _ => ⟨rfl, rfl⟩, fun _ => ⟨rfl, rfl⟩,
        fun hcb => absurd hmid (by omega)⟩
    · refine ⟨?_, ?_, ?_, ?_⟩
      · intro j hj
        exact getD_set_ne _ _ _ _ _ (fun hx => hj hx.symm)
      · intro hcb
        exact absurd hcb h0
      · intro _
        rw [getD_set_self _ _ _ _ hlen]
        exact ⟨rfl, rfl⟩
      · intro hcb
        omega
    · refine ⟨?_, ?_, ?_, ?_⟩
      · intro j hj
        exact getD_set_ne _ _ _ _ _ (fun hx => hj hx.symm)
      · intro hcb
        exact absurd hcb h0
      · intro hcb
        omega
      · intro _
        rw [getD_set_self _ _ _ _ hlen]
        exact ⟨rfl, rfl, rfl⟩

theorem sum_map_set {α : Type} (f : α → Nat) (l : List α) (i : Nat) (a d : α)
    (h : i < l.length) :
    ((l.set i a).map f).sum + f (l.getD i d) = (l.map f).sum + f a := by
  induction l generalizing i with
  | nil => simp at h
  | cons x t ih =>
    cases i with
    | zero => simp [List.getD]; omega
    | succ m =>
      simp only [List.set_cons_succ, List.map_cons, List.sum_cons,
        List.getD_cons_succ]
      have := ih m (by simpa using h)
      omega

theorem nodeCells_setCell_some (n : BANode) (s : Side) (p : Int × Int)
    (h : n.cell s = none) :
    nodeCells (n.setCell s (some p)) = nodeCells n + 1 := by
  cases s <;> simp [BANode.cell] at h <;>
    simp [nodeCells, BANode.setCell, h] <;> omega

theorem nodeCells_setCell_none (n : BANode) (s : Side) (p : Int × Int)
    (h : n.cell s = some p) :
    nodeCells n = nodeCells (n.setCell s none) + 1 := by
  cases s <;> simp [BANode.cell] at h <;>
    simp [nodeCells, BANode.setCell, h] <;> omega

theorem nodeCells_mk' (k v : Int) (s : Side) (ci : Nat) :
    nodeCells (CollisionNode.mk' k v s ci).toBANode = 1 := by
  cases s <;> simp [nodeCells, CollisionNode.mk']

theorem eraseNode_cells (s : Side) (k : Int) (l : List CollisionNode) :
    (¬ (eraseNode s k l).1 = true →
      listCells (eraseNode s k l).2 = listCells l) ∧
    ((eraseNode s k l).1 = true →
      listCells l = listCells (eraseNode s k l).2 + 1) := by
  induction l with
  | nil => simp [eraseNode, listCells]
  | cons n rest ih =>
    rcases hc : n.toBANode.cell s with _ | p
    · simp only [eraseNode, hc]
      by_cases hz : n.bid_value = none ∧ n.ask_value = none
      · rw [if_pos hz]
        have hn0 : nodeCells n.toBANode = 0 := by
          simp [nodeCells, hz.1, hz.2]
        constructor
        · intro hf
          rw [show listCells (n :: rest) = nodeCells n.toBANode +
            listCells rest from by simp [listCells], hn0]
          simpa using ih.1 hf
        · intro ht
          rw [show listCells (n :: rest) = nodeCells n.toBANode +
            listCells rest from by simp [listCells], hn0]
          simpa using ih.2 ht
      · rw [if_neg hz]
        constructor
        · intro hf
          rw [show listCells (n :: (eraseNode s k rest).2) =
            nodeCells n.toBANode + listCells (eraseNode s k rest).2 from
            by simp [listCells]]
          rw [show listCells (n :: rest) = nodeCells n.toBANode +
            listCells rest from by simp [listCells]]
          rw [ih.1 hf]
        · intro ht
          rw [show listCells (n :: (eraseNode s k rest).2) =
            nodeCells n.toBANode + listCells (eraseNode s k rest).2 from
            by simp [listCells]]
          rw [show listCells (n :: rest) = nodeCells n.toBANode +
            listCells rest from by simp [listCells]]
          have := ih.2 ht
          omega
    · by_cases hk : p.1 = k
      · simp only [eraseNode, hc]
        rw [if_pos hk]
        have hminus := nodeCells_setCell_none n.toBANode s p hc
        by_cases hz : (n.toBANode.setCell s none).bid_value = none ∧
            (n.toBANode.setCell s none).ask_value = none
        · rw [if_pos hz]
          have hn0 : nodeCells (n.toBANode.setCell s none) = 0 := by
            simp [nodeCells, hz.1, hz.2]
          constructor
          · intro hf
            exact absurd rfl hf
          · intro _
            show listCells (n :: rest) = listCells rest + 1
            rw [show listCells (n :: rest) = nodeCells n.toBANode +
              listCells rest from by simp [listCells]]
            omega
        · rw [if_neg hz]
          constructor
          · intro hf
            exact absurd rfl hf
          · intro _
            rw [show listCells (n :: rest) = nodeCells n.toBANode +
              listCells rest from by simp [listCells]]
            rw [show listCells
              ({ toBANode := n.toBANode.setCell s none,
                 collision_index := n.collision_index } :: rest) =
              nodeCells (n.toBANode.setCell s none) + listCells rest from
              by simp [listCells]]
            omega
      · simp only [eraseNode, hc]
        rw [if_neg hk]
        have hz : ¬ (n.bid_value = none ∧ n.ask_value = none) := by
          intro hz
          have : n.toBANode.cell s = none := by
            cases s
            · exact hz.1
            · exact hz.2
          rw [hc] at this
          cases this
        rw [if_neg hz]
        constructor
        · intro hf
          rw [show listCells (n :: (eraseNode s k rest).2) =
            nodeCells n.toBANode + listCells (eraseNode s k rest).2 from
            by simp [listCells]]
          rw [show listCells (n :: rest) = nodeCells n.toBANode +
            listCells rest from by simp [listCells]]
          rw [ih.1 hf]
        · intro ht
          rw [show listCells (n :: (eraseNode s k rest).2) =
            nodeCells n.toBANode + listCells (eraseNode s k rest).2 from
            by simp [listCells]]
          rw [show listCells (n :: rest) = nodeCells n.toBANode +
            listCells rest from by simp [listCells]]
          have := ih.2 ht
          omega

theorem updateBBO_size (cfg : Config) (bA : Int) (s : Side) (k : Int)
    (sc : Scal) : (updateBBO cfg bA s k sc).2.size = sc.size := by
  simp only [updateBBO]
  repeat' split
  all_goals rfl

theorem updateBBO_offer_none (cfg : Config) (bA : Int) (s : Side) (k : Int)
    (sc : Scal) (h : sc.best_offer = none) :
    (updateBBO cfg bA s k sc).2.best_offer = none ∧
    (updateBBO cfg bA s k sc).1 = none := by
  obtain ⟨sc1, hu, _, hoff, _⟩ := updateBBO_no_offer cfg bA s k sc h
  rw [hu]
  exact ⟨hoff, rfl⟩

theorem isSome_false_none {p : Option (Int × Int)}
    (h : p.isSome = false) : p = none := by
  cases p
  · rfl
  · cases h

theorem bucketCells_split (b : Bucket) :
    bucketCells b = nodeCells b.first_node + (b.nodes.map nodeCells).sum +
      listCells b.overflow_bucket := rfl

theorem insertRaw_counts (cfg : Config) (s2 : Side) (k2 v2 : Int)
    (bks : List Bucket) (pA bA : Int) (sc : Scal) (hN : 0 < cfg.N)
    (hs : goodShape cfg bks) (hoff : sc.best_offer = none) :
    (insertRaw cfg s2 k2 v2 bks pA bA sc).1 = none ∧
    ((insertRaw cfg s2 k2 v2 bks pA bA sc).2.2.2).best_offer = none ∧
    ((insertRaw cfg s2 k2 v2 bks pA bA sc).2.1 = true →
      ((insertRaw cfg s2 k2 v2 bks pA bA sc).2.2.2).size = sc.size + 1 ∧
      cellsOf (insertRaw cfg s2 k2 v2 bks pA bA sc).2.2.1 = cellsOf bks + 1) ∧
    ((insertRaw cfg s2 k2 v2 bks pA bA sc).2.1 = false →
      (insertRaw cfg s2 k2 v2 bks pA bA sc).2.2.1 = bks ∧
      (insertRaw cfg s2 k2 v2 bks pA bA sc).2.2.2 = sc) := by
  have hlen : (hashKey cfg pA s2 k2).1 < bks.length := by
    rw [hs.1]
    exact hashKey_fst_lt cfg pA k2 s2 hN
  have hmem : bks.getD (hashKey cfg pA s2 k2).1 default ∈ bks :=
    getD_mem _ _ _ hlen
  have hub := updateBBO_offer_none cfg bA s2 k2 sc hoff
  have husz := updateBBO_size cfg bA s2 k2 sc
  rcases insertRaw_cases cfg s2 k2 v2 bks pA bA sc with
    ⟨_, h2occ, heq⟩ | ⟨h20, h2occ, heq⟩ | ⟨_, _, h2occ, heq⟩ |
    ⟨h20, h2mid, h2occ, heq⟩ | ⟨h20, h2mid, h2f, heq⟩ |
    ⟨_, _, _, heq⟩ | ⟨_, _, ⟨n, hf, ho⟩, heq⟩ <;> rw [heq]
  · exact ⟨rfl, hoff, fun ht => Bool.noConfusion ht, fun _ => ⟨rfl, rfl⟩⟩
  · refine ⟨hub.2, ?_, ?_, ?_⟩
    · show (scAfterBBO (updateBBO cfg bA s2 k2 sc)).best_offer = none
      unfold scAfterBBO
      rw [hub.2]
      simpa using hub.1
    · intro _
      constructor
      · show (scAfterBBO (updateBBO cfg bA s2 k2 sc)).size = sc.size + 1
        unfold scAfterBBO
        rw [hub.2]
        simpa using husz
      · show cellsOf (bks.set (hashKey cfg pA s2 k2).1
          { bks.getD (hashKey cfg pA s2 k2).1 default with
            first_node := (bks.getD (hashKey cfg pA s2 k2).1
              default).first_node.setCell s2 (some (k2, v2)) }) =
          cellsOf bks + 1
        have hcell := isSome_false_none h2occ
        have hplus := nodeCells_setCell_some _ s2 (k2, v2) hcell
        have hsum := sum_map_set bucketCells bks (hashKey cfg pA s2 k2).1
          { bks.getD (hashKey cfg pA s2 k2).1 default with
            first_node := (bks.getD (hashKey cfg pA s2 k2).1
              default).first_node.setCell s2 (some (k2, v2)) } default hlen
        have hNB : bucketCells { bks.getD (hashKey cfg pA s2 k2).1 default with
            first_node := (bks.getD (hashKey cfg pA s2 k2).1
              default).first_node.setCell s2 (some (k2, v2)) } =
            bucketCells (bks.getD (hashKey cfg pA s2 k2).1 default) + 1 := by
          rw [bucketCells_split, bucketCells_split]
          show nodeCells ((bks.getD (hashKey cfg pA s2 k2).1
            default).first_node.setCell s2 (some (k2, v2))) +
            ((bks.getD (hashKey cfg pA s2 k2).1 default).nodes.map
              nodeCells).sum +
            listCells (bks.getD (hashKey cfg pA s2 k2).1
              default).overflow_bucket = _
          omega
        unfold cellsOf
        omega
    · intro hfalse
      rw [show (updateBBO cfg bA s2 k2 sc).1.isNone = true from
        by rw [hub.2]; rfl] at hfalse
      cases hfalse
  · exact ⟨rfl, hoff, fun ht => Bool.noConfusion ht, fun _ => ⟨rfl, rfl⟩⟩
  · refine ⟨hub.2, ?_, ?_, ?_⟩
    · show (scAfterBBO (updateBBO cfg bA s2 k2 sc)).best_offer = none
      unfold scAfterBBO
      rw [hub.2]
      simpa using hub.1
    · intro _
      constructor
      · show (scAfterBBO (updateBBO cfg bA s2 k2 sc)).size = sc.size + 1
        unfold scAfterBBO
        rw [hub.2]
        simpa using husz
      · show cellsOf (bks.set (hashKey cfg pA s2 k2).1
          { bks.getD (hashKey cfg pA s2 k2).1 default with
            nodes := (bks.getD (hashKey cfg pA s2 k2).1 default).nodes.set
              ((hashKey cfg pA s2 k2).2.1 - 1)
              (((bks.getD (hashKey cfg pA s2 k2).1 default).nodes.getD
                ((hashKey cfg pA s2 k2).2.1 - 1) default).setCell s2
                (some (k2, v2))) }) = cellsOf bks + 1
        have hcell := isSome_false_none h2occ
        have hplus := nodeCells_setCell_some _ s2 (k2, v2) hcell
        have hnlen : (hashKey cfg pA s2 k2).2.1 - 1 <
            (bks.getD (hashKey cfg pA s2 k2).1 default).nodes.length := by
          rw [hs.2 _ hmem]
          exact h2mid
        have hsumN := sum_map_set nodeCells
          (bks.getD (hashKey cfg pA s2 k2).1 default).nodes
          ((hashKey cfg pA s2 k2).2.1 - 1)
          (((bks.getD (hashKey cfg pA s2 k2).1 default).nodes.getD
            ((hashKey cfg pA s2 k2).2.1 - 1) default).setCell s2
            (some (k2, v2))) default hnlen
        have hsum := sum_map_set bucketCells bks (hashKey cfg pA s2 k2).1
          { bks.getD (hashKey cfg pA s2 k2).1 default with
            nodes := (bks.getD (hashKey cfg pA s2 k2).1 default).nodes.set
              ((hashKey cfg pA s2 k2).2.1 - 1)
              (((bks.getD (hashKey cfg pA s2 k2).1 default).nodes.getD
                ((hashKey cfg pA s2 k2).2.1 - 1) default).setCell s2
                (some (k2, v2))) } default hlen
        have hNB : bucketCells { bks.getD (hashKey cfg pA s2 k2).1 default with
            nodes := (bks.getD (hashKey cfg pA s2 k2).1 default).nodes.set
              ((hashKey cfg pA s2 k2).2.1 - 1)
              (((bks.getD (hashKey cfg pA s2 k2).1 default).nodes.getD
                ((hashKey cfg pA s2 k2).2.1 - 1) default).setCell s2
                (some (k2, v2))) } =
            bucketCells (bks.getD (hashKey cfg pA s2 k2).1 default) + 1 := by
          rw [bucketCells_split, bucketCells_split]
          show nodeCells (bks.getD (hashKey cfg pA s2 k2).1
              default).first_node +
            (((bks.getD (hashKey cfg pA s2 k2).1 default).nodes.set
              ((hashKey cfg pA s2 k2).2.1 - 1)
              (((bks.getD (hashKey cfg pA s2 k2).1 default).nodes.getD
                ((hashKey cfg pA s2 k2).2.1 - 1) default).setCell s2
                (some (k2, v2)))).map nodeCells).sum +
            listCells (bks.getD (hashKey cfg pA s2 k2).1
              default).overflow_bucket = _
          omega
        unfold cellsOf
        omega
    · intro hfalse
      rw [show (updateBBO cfg bA s2 k2 sc).1.isNone = true from
        by rw [hub.2]; rfl] at hfalse
      cases hfalse
  · refine ⟨rfl, hoff, ?_, ?_⟩
    · intro _
      refine ⟨rfl, ?_⟩
      show cellsOf (bks.set (hashKey cfg pA s2 k2).1
        { bks.getD (hashKey cfg pA s2 k2).1 default with
          overflow_bucket := CollisionNode.mk' k2 v2 s2
            (hashKey cfg pA s2 k2).2.1 ::
            (bks.getD (hashKey cfg pA s2 k2).1 default).overflow_bucket }) =
        cellsOf bks + 1
      have hsum := sum_map_set bucketCells bks (hashKey cfg pA s2 k2).1
        { bks.getD (hashKey cfg pA s2 k2).1 default with
          overflow_bucket := CollisionNode.mk' k2 v2 s2
            (hashKey cfg pA s2 k2).2.1 ::
            (bks.getD (hashKey cfg pA s2 k2).1 default).overflow_bucket }
        default hlen
      have hcons : listCells (CollisionNode.mk' k2 v2 s2
          (hashKey cfg pA s2 k2).2.1 ::
          (bks.getD (hashKey cfg pA s2 k2).1 default).overflow_bucket) =
          1 + listCells (bks.getD (hashKey cfg pA s2 k2).1
            default).overflow_bucket := by
        show nodeCells (CollisionNode.mk' k2 v2 s2
          (hashKey cfg pA s2 k2).2.1).toBANode + listCells _ = _
        rw [nodeCells_mk']
      have hNB : bucketCells { bks.getD (hashKey cfg pA s2 k2).1 default with
          overflow_bucket := CollisionNode.mk' k2 v2 s2
            (hashKey cfg pA s2 k2).2.1 ::
            (bks.getD (hashKey cfg pA s2 k2).1 default).overflow_bucket } =
          bucketCells (bks.getD (hashKey cfg pA s2 k2).1 default) + 1 := by
        rw [bucketCells_split, bucketCells_split]
        show nodeCells (bks.getD (hashKey cfg pA s2 k2).1
            default).first_node +
          ((bks.getD (hashKey cfg pA s2 k2).1 default).nodes.map
            nodeCells).sum +
          listCells (CollisionNode.mk' k2 v2 s2
            (hashKey cfg pA s2 k2).2.1 ::
            (bks.getD (hashKey cfg pA s2 k2).1 default).overflow_bucket) = _
        omega
      unfold cellsOf
      omega
    · intro hfalse
      cases hfalse
  · exact ⟨rfl, hoff, fun ht => Bool.noConfusion ht, fun _ => ⟨rfl, rfl⟩⟩
  · obtain ⟨v0, hv0⟩ := findNode_some_cell s2 k2 _ n hf
    rw [hv0] at ho
    cases ho

theorem eraseB_counts (cfg : Config) (book : Book) (s2 : Side) (k2 : Int)
    (hN : 0 < cfg.N) (hs : goodShape cfg book.buckets) :
    ((eraseB cfg book s2 k2).2.1 = true →
      cellsOf book.buckets = cellsOf ((eraseB cfg book s2 k2).2.2).buckets + 1 ∧
      ((eraseB cfg book s2 k2).2.2).sc.size = book.sc.size - 1) ∧
    ((eraseB cfg book s2 k2).2.1 = false →
      cellsOf ((eraseB cfg book s2 k2).2.2).buckets = cellsOf book.buckets ∧
      ((eraseB cfg book s2 k2).2.2).sc.size = book.sc.size) ∧
    ((eraseB cfg book s2 k2).2.2).sc.best_offer = book.sc.best_offer ∧
    goodShape cfg ((eraseB cfg book s2 k2).2.2).buckets ∧
    ((eraseB cfg book s2 k2).2.2).hashing_mid_price =
      book.hashing_mid_price := by
  have hlen : (hashKey cfg book.hashing_mid_price s2 k2).1 <
      book.buckets.length := by
    rw [hs.1]
    exact hashKey_fst_lt cfg book.hashing_mid_price k2 s2 hN
  have hmem : book.buckets.getD (hashKey cfg book.hashing_mid_price s2 k2).1
      default ∈ book.buckets := getD_mem _ _ _ hlen
  rcases eraseB_cases cfg book s2 k2 with
    ⟨h0, hc, heq⟩ | ⟨p, h0, hc, hk, heq⟩ | ⟨p, h0, hc, hk, heq⟩ |
    ⟨h0, hmid, hc, heq⟩ | ⟨p, h0, hmid, hc, hk, heq⟩ |
    ⟨p, h0, hmid, hc, hk, heq⟩ | ⟨h0, hmid, heq⟩ <;> rw [heq]
  · exact ⟨fun ht => Bool.noConfusion ht, fun _ => ⟨rfl, rfl⟩, rfl, hs, rfl⟩
  · exact ⟨fun ht => Bool.noConfusion ht, fun _ => ⟨rfl, rfl⟩, rfl, hs, rfl⟩
  · refine ⟨?_, fun hf => Bool.noConfusion hf, rfl, ?_, rfl⟩
    · intro _
      refine ⟨?_, rfl⟩
      have hminus := nodeCells_setCell_none _ s2 p hc
      have hsum := sum_map_set bucketCells book.buckets
        (hashKey cfg book.hashing_mid_price s2 k2).1
        { book.buckets.getD (hashKey cfg book.hashing_mid_price s2 k2).1
            default with
          first_node := (book.buckets.getD
            (hashKey cfg book.hashing_mid_price s2 k2).1
            default).first_node.setCell s2 none } default hlen
      have hNB : bucketCells (book.buckets.getD
          (hashKey cfg book.hashing_mid_price s2 k2).1 default) =
          bucketCells { book.buckets.getD
            (hashKey cfg book.hashing_mid_price s2 k2).1 default with
            first_node := (book.buckets.getD
              (hashKey cfg book.hashing_mid_price s2 k2).1
              default).first_node.setCell s2 none } + 1 := by
        rw [bucketCells_split, bucketCells_split]
        show _ = nodeCells ((book.buckets.getD
          (hashKey cfg book.hashing_mid_price s2 k2).1
          default).first_node.setCell s2 none) +
          ((book.buckets.getD (hashKey cfg book.hashing_mid_price s2 k2).1
            default).nodes.map nodeCells).sum +
          listCells (book.buckets.getD
            (hashKey cfg book.hashing_mid_price s2 k2).1
            default).overflow_bucket + 1
        omega
      show cellsOf book.buckets = cellsOf (book.buckets.set
        (hashKey cfg book.hashing_mid_price s2 k2).1
        { book.buckets.getD (hashKey cfg book.hashing_mid_price s2 k2).1
            default with
          first_node := (book.buckets.getD
            (hashKey cfg book.hashing_mid_price s2 k2).1
            default).first_node.setCell s2 none }) + 1
      unfold cellsOf
      omega
    · refine goodShape_set cfg book.buckets _ _ hs ?_
      show (book.buckets.getD (hashKey cfg book.hashing_mid_price s2 k2).1
        default).nodes.length = cfg.C
      exact hs.2 _ hmem
  · exact ⟨fun ht => Bool.noConfusion ht, fun _ => ⟨rfl, rfl⟩, rfl, hs, rfl⟩
  · exact ⟨fun ht => Bool.noConfusion ht, fun _ => ⟨rfl, rfl⟩, rfl, hs, rfl⟩
  · refine ⟨?_, fun hf => Bool.noConfusion hf, rfl, ?_, rfl⟩
    · intro _
      refine ⟨?_, rfl⟩
      have hminus := nodeCells_setCell_none _ s2 p hc
      have hnlen : (hashKey cfg book.hashing_mid_price s2 k2).2.1 - 1 <
          (book.buckets.getD (hashKey cfg book.hashing_mid_price s2 k2).1
            default).nodes.length := by
        rw [hs.2 _ hmem]
        exact hmid
      have hsumN := sum_map_set nodeCells
        (book.buckets.getD (hashKey cfg book.hashing_mid_price s2 k2).1
          default).nodes
        ((hashKey cfg book.hashing_mid_price s2 k2).2.1 - 1)
        (((book.buckets.getD (hashKey cfg book.hashing_mid_price s2 k2).1
          default).nodes.getD
          ((hashKey cfg book.hashing_mid_price s2 k2).2.1 - 1)
          default).setCell s2 none) default hnlen
      have hsum := sum_map_set bucketCells book.buckets
        (hashKey cfg book.hashing_mid_price s2 k2).1
        { book.buckets.getD (hashKey cfg book.hashing_mid_price s2 k2).1
            default with
          nodes := (book.buckets.getD
            (hashKey cfg book.hashing_mid_price s2 k2).1 default).nodes.set
            ((hashKey cfg book.hashing_mid_price s2 k2).2.1 - 1)
            (((book.buckets.getD
              (hashKey cfg book.hashing_mid_price s2 k2).1 default).nodes.getD
              ((hashKey cfg book.hashing_mid_price s2 k2).2.1 - 1)
              default).setCell s2 none) } default hlen
      have hNB : bucketCells (book.buckets.getD
          (hashKey cfg book.hashing_mid_price s2 k2).1 default) =
          bucketCells { book.buckets.getD
            (hashKey cfg book.hashing_mid_price s2 k2).1 default with
            nodes := (book.buckets.getD
              (hashKey cfg book.hashing_mid_price s2 k2).1 default).nodes.set
              ((hashKey cfg book.hashing_mid_price s2 k2).2.1 - 1)
              (((book.buckets.getD
                (hashKey cfg book.hashing_mid_price s2 k2).1
                default).nodes.getD
                ((hashKey cfg book.hashing_mid_price s2 k2).2.1 - 1)
                default).setCell s2 none) } + 1 := by
        rw [bucketCells_split, bucketCells_split]
        show _ = nodeCells (book.buckets.getD
          (hashKey cfg book.hashing_mid_price s2 k2).1 default).first_node +
          (((book.buckets.getD (hashKey cfg book.hashing_mid_price s2 k2).1
            default).nodes.set
            ((hashKey cfg book.hashing_mid_price s2 k2).2.1 - 1)
            (((book.buckets.getD
              (hashKey cfg book.hashing_mid_price s2 k2).1 default).nodes.getD
              ((hashKey cfg book.hashing_mid_price s2 k2).2.1 - 1)
              default).setCell s2 none)).map nodeCells).sum +
          listCells (book.buckets.getD
            (hashKey cfg book.hashing_mid_price s2 k2).1
            default).overflow_bucket + 1
        omega
      show cellsOf book.buckets = cellsOf (book.buckets.set
        (hashKey cfg book.hashing_mid_price s2 k2).1
        { book.buckets.getD (hashKey cfg book.hashing_mid_price s2 k2).1
            default with
          nodes := (book.buckets.getD
            (hashKey cfg book.hashing_mid_price s2 k2).1 default).nodes.set
            ((hashKey cfg book.hashing_mid_price s2 k2).2.1 - 1)
            (((book.buckets.getD
              (hashKey cfg book.hashing_mid_price s2 k2).1 default).nodes.getD
              ((hashKey cfg book.hashing_mid_price s2 k2).2.1 - 1)
              default).setCell s2 none) }) + 1
      unfold cellsOf
      omega
    · refine goodShape_set cfg book.buckets _ _ hs ?_
      show ((book.buckets.getD (hashKey cfg book.hashing_mid_price s2 k2).1
        default).nodes.set ((hashKey cfg book.hashing_mid_price s2 k2).2.1 - 1)
        (((book.buckets.getD (hashKey cfg book.hashing_mid_price s2 k2).1
          default).nodes.getD
          ((hashKey cfg book.hashing_mid_price s2 k2).2.1 - 1)
          default).setCell s2 none)).length = cfg.C
      rw [List.length_set]
      exact hs.2 _ hmem
  · have hec := eraseNode_cells s2 k2 (book.buckets.getD
      (hashKey cfg book.hashing_mid_price s2 k2).1 default).overflow_bucket
    have hsum := sum_map_set bucketCells book.buckets
      (hashKey cfg book.hashing_mid_price s2 k2).1
      { book.buckets.getD (hashKey cfg book.hashing_mid_price s2 k2).1
          default with
        overflow_bucket := (eraseNode s2 k2 (book.buckets.getD
          (hashKey cfg book.hashing_mid_price s2 k2).1
          default).overflow_bucket).2 } default hlen
    have hshape2 : goodShape cfg (book.buckets.set
        (hashKey cfg book.hashing_mid_price s2 k2).1
        { book.buckets.getD (hashKey cfg book.hashing_mid_price s2 k2).1
            default with
          overflow_bucket := (eraseNode s2 k2 (book.buckets.getD
            (hashKey cfg book.hashing_mid_price s2 k2).1
            default).overflow_bucket).2 }) := by
      refine goodShape_set cfg book.buckets _ _ hs ?_
      show (book.buckets.getD (hashKey cfg book.hashing_mid_price s2 k2).1
        default).nodes.length = cfg.C
      exact hs.2 _ hmem
    have hNBsplit : bucketCells { book.buckets.getD
        (hashKey cfg book.hashing_mid_price s2 k2).1 default with
        overflow_bucket := (eraseNode s2 k2 (book.buckets.getD
          (hashKey cfg book.hashing_mid_price s2 k2).1
          default).overflow_bucket).2 } =
        nodeCells (book.buckets.getD
          (hashKey cfg book.hashing_mid_price s2 k2).1 default).first_node +
        ((book.buckets.getD (hashKey cfg book.hashing_mid_price s2 k2).1
          default).nodes.map nodeCells).sum +
        listCells (eraseNode s2 k2 (book.buckets.getD
          (hashKey cfg book.hashing_mid_price s2 k2).1
          default).overflow_bucket).2 := rfl
    by_cases hok : (eraseNode s2 k2 (book.buckets.getD
        (hashKey cfg book.hashing_mid_price s2 k2).1
        default).overflow_bucket).1 = true
    · rw [hok]
      refine ⟨?_, fun hf => Bool.noConfusion hf, rfl, hshape2, rfl⟩
      intro _
      refine ⟨?_, by simp⟩
      have hminus := hec.2 hok
      rw [show bucketCells (book.buckets.getD
        (hashKey cfg book.hashing_mid_price s2 k2).1 default) =
        nodeCells (book.buckets.getD
          (hashKey cfg book.hashing_mid_price s2 k2).1 default).first_node +
        ((book.buckets.getD (hashKey cfg book.hashing_mid_price s2 k2).1
          default).nodes.map nodeCells).sum +
        listCells (book.buckets.getD
          (hashKey cfg book.hashing_mid_price s2 k2).1
          default).overflow_bucket from rfl] at hsum
      rw [hNBsplit] at hsum
      show cellsOf book.buckets = cellsOf (book.buckets.set
        (hashKey cfg book.hashing_mid_price s2 k2).1
        { book.buckets.getD (hashKey cfg book.hashing_mid_price s2 k2).1
            default with
          overflow_bucket := (eraseNode s2 k2 (book.buckets.getD
            (hashKey cfg book.hashing_mid_price s2 k2).1
            default).overflow_bucket).2 }) + 1
      unfold cellsOf
      omega
    · rw [Bool.not_eq_true] at hok
      rw [hok]
      refine ⟨fun ht => Bool.noConfusion ht, ?_, rfl, hshape2, rfl⟩
      intro _
      refine ⟨?_, by simp⟩
      have heqc := hec.1 (by rw [hok]; exact Bool.noConfusion)
      rw [show bucketCells (book.buckets.getD
        (hashKey cfg book.hashing_mid_price s2 k2).1 default) =
        nodeCells (book.buckets.getD
          (hashKey cfg book.hashing_mid_price s2 k2).1 default).first_node +
        ((book.buckets.getD (hashKey cfg book.hashing_mid_price s2 k2).1
          default).nodes.map nodeCells).sum +
        listCells (book.buckets.getD
          (hashKey cfg book.hashing_mid_price s2 k2).1
          default).overflow_bucket from rfl] at hsum
      rw [hNBsplit] at hsum
      show cellsOf (book.buckets.set
        (hashKey cfg book.hashing_mid_price s2 k2).1
        { book.buckets.getD (hashKey cfg book.hashing_mid_price s2 k2).1
            default with
          overflow_bucket := (eraseNode s2 k2 (book.buckets.getD
            (hashKey cfg book.hashing_mid_price s2 k2).1
            default).overflow_bucket).2 }) = cellsOf book.buckets
      unfold cellsOf
      omega

theorem cellsOf_empty (cfg : Config) : cellsOf (emptyBuckets cfg) = 0 := by
  simp [cellsOf, emptyBuckets, bucketCells, nodeCells, listCells]

theorem clearB_cells (book : Book) : cellsOf (clearB book).buckets = 0 := by
  unfold cellsOf clearB
  apply List.sum_eq_zero
  intro x hx
  rw [List.map_map] at hx
  rcases List.mem_map.mp hx with ⟨b, _, hbx⟩
  rw [← hbx]
  show bucketCells { first_node := ⟨none, none⟩,
                     nodes := (b.nodes.map fun _ => ⟨none, none⟩),
                     overflow_bucket := [] } = 0
  rw [bucketCells_split]
  have h2 : ((b.nodes.map fun _ => (⟨none, none⟩ : BANode)).map
      nodeCells).sum = 0 := by
    apply List.sum_eq_zero
    intro y hy
    rw [List.map_map] at hy
    rcases List.mem_map.mp hy with ⟨z, _, hzy⟩
    rw [← hzy]
    rfl
  rw [h2]
  rfl

theorem clearB_shape (cfg : Config) (book : Book)
    (hs : goodShape cfg book.buckets) : goodShape cfg (clearB book).buckets := by
  constructor
  · have h : (clearB book).buckets.length = book.buckets.length :=
      List.length_map _ _
    rw [h]
    exact hs.1
  · intro b hb
    rcases List.mem_map.mp hb with ⟨b0, hb0, hbb⟩
    rw [← hbb]
    show (b0.nodes.map fun _ => (⟨none, none⟩ : BANode)).length = cfg.C
    rw [List.length_map]
    exact hs.2 b0 hb0

theorem nodeTriples_length (n : BANode) :
    (nodeTriples n).length = nodeCells n := by
  rcases n with ⟨b, a⟩
  cases b <;> cases a <;> rfl

theorem length_flatMap_cells {α : Type} (f : α → List (Side × Int × Int))
    (g : α → Nat) (hfg : ∀ x, (f x).length = g x) (l : List α) :
    (l.flatMap f).length = (l.map g).sum := by
  induction l with
  | nil => rfl
  | cons x rest ih =>
    rw [List.flatMap_cons, List.length_append, hfg, List.map_cons,
      List.sum_cons, ih]

theorem bucketTriples_length (b : Bucket) :
    (bucketTriples b).length = bucketCells b := by
  unfold bucketTriples
  rw [List.length_append, List.length_append, nodeTriples_length,
    length_flatMap_cells nodeTriples nodeCells nodeTriples_length,
    @length_flatMap_cells CollisionNode (fun n => nodeTriples n.toBANode)
      (fun n => nodeCells n.toBANode)
      (fun n => nodeTriples_length n.toBANode) b.overflow_bucket]
  rw [bucketCells_split]
  show _ = nodeCells b.first_node + (b.nodes.map nodeCells).sum +
    ((b.overflow_bucket.map fun n => nodeCells n.toBANode)).sum
  omega

theorem bookTriples_length (book : Book) :
    (bookTriples book).length = cellsOf book.buckets := by
  unfold bookTriples cellsOf
  exact length_flatMap_cells bucketTriples bucketCells bucketTriples_length _

theorem reinsertList_counts (cfg : Config) (pA bA : Int)
    (L : List (Side × Int × Int)) (bks : List Bucket) (sc : Scal)
    (hN : 0 < cfg.N) (hs : goodShape cfg bks) (hoff : sc.best_offer = none)
    (he : (reinsertList cfg pA bA L bks sc).1 = none) :
    ((reinsertList cfg pA bA L bks sc).2.2).size = sc.size + L.length ∧
    cellsOf (reinsertList cfg pA bA L bks sc).2.1 = cellsOf bks + L.length ∧
    goodShape cfg (reinsertList cfg pA bA L bks sc).2.1 ∧
    ((reinsertList cfg pA bA L bks sc).2.2).best_offer = none := by
  induction L generalizing bks sc with
  | nil => exact ⟨rfl, rfl, hs, hoff⟩
  | cons t rest ih =>
    rcases t with ⟨s, k, v⟩
    have hc := insertRaw_counts cfg s k v bks pA bA sc hN hs hoff
    rcases hr : insertRaw cfg s k v bks pA bA sc with ⟨e, ok, bks1, sc1⟩
    rw [hr] at hc
    have he0 : e = none := hc.1
    subst he0
    cases ok with
    | false =>
      have hfail : reinsertList cfg pA bA ((s, k, v) :: rest) bks sc =
          (some "Failed to insert into new buckets", bks1, sc1) := by
        simp only [reinsertList, hr]
      rw [hfail] at he
      exact Option.noConfusion he
    | true =>
      have hstep := hc.2.2.1 rfl
      have hsz1 : sc1.size = sc.size + 1 := hstep.1
      have hcl1 : cellsOf bks1 = cellsOf bks + 1 := hstep.2
      have hs1 : goodShape cfg bks1 := by
        have h := insertRaw_goodShape cfg s k v bks pA bA sc hs hN
        rw [hr] at h
        exact h
      have hoff1 : sc1.best_offer = none := hc.2.1
      have hred : reinsertList cfg pA bA ((s, k, v) :: rest) bks sc =
          reinsertList cfg pA bA rest bks1 sc1 := by
        simp only [reinsertList, hr]
      rw [hred] at he ⊢
      obtain ⟨z1, z2, z3, z4⟩ := ih bks1 sc1 hs1 hoff1 he
      refine ⟨?_, ?_, z3, z4⟩
      · rw [List.length_cons]
        omega
      · rw [List.length_cons]
        omega

theorem rehashB_counts (cfg : Config) (book : Book) (a : Int) (hN : 0 < cfg.N)
    (hoff : book.sc.best_offer = none) (hs : goodShape cfg book.buckets)
    (hsz : book.sc.size = cellsOf book.buckets)
    (hok : (rehashB cfg book a).1 = none) :
    ((rehashB cfg book a).2).sc.best_offer = none ∧
    goodShape cfg ((rehashB cfg book a).2).buckets ∧
    ((rehashB cfg book a).2).sc.size =
      cellsOf ((rehashB cfg book a).2).buckets ∧
    ((rehashB cfg book a).2).sc.size = book.sc.size ∧
    ((rehashB cfg book a).2).hashing_mid_price = a := by
  rcases hr : reinsertList cfg a book.hashing_mid_price (bookTriples book)
      (emptyBuckets cfg) { book.sc with size := 0 } with ⟨e, bks1, sc1⟩
  cases e with
  | some err =>
    have h : (rehashB cfg book a).1 = some err := by
      simp only [rehashB, hr]
    rw [h] at hok
    exact Option.noConfusion hok
  | none =>
    have hred : rehashB cfg book a =
        (none, { buckets := bks1, hashing_mid_price := a, sc := sc1 }) := by
      simp only [rehashB, hr]
    have hoff0 : ({ book.sc with size := 0 } : Scal).best_offer = none := hoff
    have hrc := reinsertList_counts cfg a book.hashing_mid_price
      (bookTriples book) (emptyBuckets cfg) { book.sc with size := 0 }
      hN (goodShape_empty cfg) hoff0 (by rw [hr])
    rw [hr] at hrc
    have h1 : sc1.size = ({ book.sc with size := 0 } : Scal).size +
        (bookTriples book).length := hrc.1
    have h0 : ({ book.sc with size := 0 } : Scal).size = 0 := rfl
    rw [h0] at h1
    have h2 : cellsOf bks1 = cellsOf (emptyBuckets cfg) +
        (bookTriples book).length := hrc.2.1
    have h3 : goodShape cfg bks1 := hrc.2.2.1
    have h4 : sc1.best_offer = none := hrc.2.2.2
    have h5 := cellsOf_empty cfg
    have h6 := bookTriples_length book
    rw [hred]
    refine ⟨h4, h3, ?_, ?_, rfl⟩
    · show sc1.size = cellsOf bks1
      omega
    · show sc1.size = book.sc.size
      omega

theorem runStats_ins_eq (cfg : Config) (s : Side) (k v : Int)
    (rest : List Op) (book : Book) :
    runStats cfg (Op.ins s k v :: rest) book =
      ((runStats cfg rest ((insertB cfg book s k v).2.2)).1 +
         (if (insertB cfg book s k v).2.1 = true then 1 else 0),
       (runStats cfg rest ((insertB cfg book s k v).2.2)).2.1,
       (runStats cfg rest ((insertB cfg book s k v).2.2)).2.2) := rfl

theorem runStats_del_eq (cfg : Config) (s : Side) (k : Int)
    (rest : List Op) (book : Book) :
    runStats cfg (Op.del s k :: rest) book =
      ((runStats cfg rest ((eraseB cfg book s k).2.2)).1,
       (runStats cfg rest ((eraseB cfg book s k).2.2)).2.1 +
         (if (eraseB cfg book s k).2.1 = true then 1 else 0),
       (runStats cfg rest ((eraseB cfg book s k).2.2)).2.2) := rfl

theorem runStats_clr_eq (cfg : Config) (rest : List Op) (book : Book) :
    runStats cfg (Op.clr :: rest) book =
      runStats cfg rest (clearB book) := rfl

theorem runStats_reh_eq (cfg : Config) (a : Int) (rest : List Op)
    (book : Book) :
    runStats cfg (Op.reh a :: rest) book =
      ((runStats cfg rest ((rehashB cfg book a).2)).1,
       (runStats cfg rest ((rehashB cfg book a).2)).2.1,
       ((runStats cfg rest ((rehashB cfg book a).2)).2.2.1 ||
          !(rehashB cfg book a).1.isNone,
        (runStats cfg rest ((rehashB cfg book a).2)).2.2.2)) := rfl

theorem runStats_inv (cfg : Config) (hN : 0 < cfg.N) (ops : List Op)
    (book : Book) (hoff : book.sc.best_offer = none)
    (hs : goodShape cfg book.buckets)
    (hsz : book.sc.size = cellsOf book.buckets)
    (hflag : (runStats cfg ops book).2.2.1 = false) :
    ((runStats cfg ops book).2.2.2).sc.best_offer = none ∧
    goodShape cfg ((runStats cfg ops book).2.2.2).buckets ∧
    ((runStats cfg ops book).2.2.2).sc.size =
      cellsOf ((runStats cfg ops book).2.2.2).buckets ∧
    (Op.clr ∉ ops →
      ((runStats cfg ops book).2.2.2).sc.size + (runStats cfg ops book).2.1 =
        book.sc.size + (runStats cfg ops book).1) := by
  induction ops generalizing book with
  | nil => exact ⟨hoff, hs, hsz, fun _ => rfl⟩
  | cons op rest ih =>
    cases op with
    | ins s k v =>
      have hc := insertRaw_counts cfg s k v book.buckets
        book.hashing_mid_price book.hashing_mid_price book.sc hN hs hoff
      have hoff1 : ((insertB cfg book s k v).2.2).sc.best_offer = none :=
        hc.2.1
      have hs1 : goodShape cfg ((insertB cfg book s k v).2.2).buckets :=
        insertRaw_goodShape cfg s k v book.buckets book.hashing_mid_price
          book.hashing_mid_price book.sc hs hN
      have hA : ((insertB cfg book s k v).2.2).sc.size =
          ((insertRaw cfg s k v book.buckets book.hashing_mid_price
            book.hashing_mid_price book.sc).2.2.2).size := rfl
      have hB : cellsOf ((insertB cfg book s k v).2.2).buckets =
          cellsOf (insertRaw cfg s k v book.buckets book.hashing_mid_price
            book.hashing_mid_price book.sc).2.2.1 := rfl
      have hOK : (insertB cfg book s k v).2.1 =
          (insertRaw cfg s k v book.buckets book.hashing_mid_price
            book.hashing_mid_price book.sc).2.1 := rfl
      have hkey : ((insertB cfg book s k v).2.2).sc.size =
          book.sc.size +
            (if (insertB cfg book s k v).2.1 = true then 1 else 0) ∧
          ((insertB cfg book s k v).2.2).sc.size =
            cellsOf ((insertB cfg book s k v).2.2).buckets := by
        rw [hA, hB, hOK]
        by_cases hok : (insertRaw cfg s k v book.buckets
            book.hashing_mid_price book.hashing_mid_price
            book.sc).2.1 = true
        · have h1 := hc.2.2.1 hok
          rw [if_pos hok]
          refine ⟨h1.1, ?_⟩
          rw [h1.1, h1.2]
          omega
        · have hok' : (insertRaw cfg s k v book.buckets
              book.hashing_mid_price book.hashing_mid_price
              book.sc).2.1 = false := by
            rw [Bool.not_eq_true] at hok
            exact hok
          have h2 := hc.2.2.2 hok'
          rw [if_neg hok, h2.1, h2.2]
          exact ⟨by omega, hsz⟩
      have hflag' :
          (runStats cfg rest ((insertB cfg book s k v).2.2)).2.2.1 = false :=
        hflag
      obtain ⟨o1, g1, z1, f1⟩ :=
        ih ((insertB cfg book s k v).2.2) hoff1 hs1 hkey.2 hflag'
      refine ⟨o1, g1, z1, ?_⟩
      intro hclr
      have hf := f1 (fun hm => hclr (List.mem_cons_of_mem _ hm))
      show (runStats cfg rest ((insertB cfg book s k v).2.2)).2.2.2.sc.size +
          (runStats cfg rest ((insertB cfg book s k v).2.2)).2.1 =
          book.sc.size +
            ((runStats cfg rest ((insertB cfg book s k v).2.2)).1 +
              (if (insertB cfg book s k v).2.1 = true then 1 else 0))
      have hk1 := hkey.1
      omega
    | del s k =>
      have hc := eraseB_counts cfg book s k hN hs
      have hoff1 : ((eraseB cfg book s k).2.2).sc.best_offer = none := by
        rw [hc.2.2.1]
        exact hoff
      have hs1 := hc.2.2.2.1
      have hkey : ((eraseB cfg book s k).2.2).sc.size +
          (if (eraseB cfg book s k).2.1 = true then 1 else 0) =
            book.sc.size ∧
          ((eraseB cfg book s k).2.2).sc.size =
            cellsOf ((eraseB cfg book s k).2.2).buckets := by
        by_cases hok : (eraseB cfg book s k).2.1 = true
        · have h1 := hc.1 hok
          rw [if_pos hok]
          constructor
          · rw [h1.2]
            omega
          · rw [h1.2]
            omega
        · have hok' : (eraseB cfg book s k).2.1 = false := by
            rw [Bool.not_eq_true] at hok
            exact hok
          have h2 := hc.2.1 hok'
          rw [if_neg hok]
          constructor
          · rw [h2.2]
            omega
          · rw [h2.2, h2.1]
            exact hsz
      have hflag' :
          (runStats cfg rest ((eraseB cfg book s k).2.2)).2.2.1 = false :=
        hflag
      obtain ⟨o1, g1, z1, f1⟩ :=
        ih ((eraseB cfg book s k).2.2) hoff1 hs1 hkey.2 hflag'
      refine ⟨o1, g1, z1, ?_⟩
      intro hclr
      have hf := f1 (fun hm => hclr (List.mem_cons_of_mem _ hm))
      show (runStats cfg rest ((eraseB cfg book s k).2.2)).2.2.2.sc.size +
          ((runStats cfg rest ((eraseB cfg book s k).2.2)).2.1 +
            (if (eraseB cfg book s k).2.1 = true then 1 else 0)) =
          book.sc.size + (runStats cfg rest ((eraseB cfg book s k).2.2)).1
      have hk1 := hkey.1
      omega
    | clr =>
      have hflag' : (runStats cfg rest (clearB book)).2.2.1 = false := hflag
      have hz : (clearB book).sc.size = cellsOf (clearB book).buckets := by
        show (0 : Nat) = cellsOf (clearB book).buckets
        rw [clearB_cells]
      obtain ⟨o1, g1, z1, f1⟩ :=
        ih (clearB book) rfl (clearB_shape cfg book hs) hz hflag'
      refine ⟨o1, g1, z1, ?_⟩
      intro hclr
      exact absurd (List.mem_cons_self _ _) hclr
    | reh a =>
      have hflag' :
          ((runStats cfg rest ((rehashB cfg book a).2)).2.2.1 ||
            !(rehashB cfg book a).1.isNone) = false := hflag
      rw [Bool.or_eq_false_iff] at hflag'
      obtain ⟨h1, h2⟩ := hflag'
      have hnone : (rehashB cfg book a).1 = none := by
        cases hrr : (rehashB cfg book a).1 with
        | none => rfl
        | some e =>
          rw [hrr] at h2
          exact Bool.noConfusion h2
      have hrc := rehashB_counts cfg book a hN hoff hs hsz hnone
      obtain ⟨o1, g1, z1, f1⟩ :=
        ih ((rehashB cfg book a).2) hrc.1 hrc.2.1 hrc.2.2.1 h1
      refine ⟨o1, g1, z1, ?_⟩
      intro hclr
      have hf := f1 (fun hm => hclr (List.mem_cons_of_mem _ hm))
      show (runStats cfg rest ((rehashB cfg book a).2)).2.2.2.sc.size +
          (runStats cfg rest ((rehashB cfg book a).2)).2.1 =
          book.sc.size + (runStats cfg rest ((rehashB cfg book a).2)).1
      have hsame := hrc.2.2.2.1
      omega

/-- C6 (amended): starting from a fresh book, after any sequence of `insert`,
`erase`, `clear` and `rehash` calls in which no `rehash` has raised,
`size()` equals the number of occupied `(side, Key)` cells across all three
tiers; and if additionally no `clear` was issued, `size` equals the number
of successful inserts minus the number of successful erases.  (After a
failed `rehash` the first equality is broken — see the counterexample —
because `_size` is left at the partial reinsert count while the old cells
stay in place.) -/
theorem size_accounting (cfg : Config) (hN : 0 < cfg.N) (anchor : Int)
    (ops : List Op)
    (hflag : (runStats cfg ops (emptyBook cfg anchor)).2.2.1 = false) :
    ((runStats cfg ops (emptyBook cfg anchor)).2.2.2).sc.size =
      cellCount ((runStats cfg ops (emptyBook cfg anchor)).2.2.2) ∧
    (Op.clr ∉ ops →
      ((runStats cfg ops (emptyBook cfg anchor)).2.2.2).sc.size +
        (runStats cfg ops (emptyBook cfg anchor)).2.1 =
        (runStats cfg ops (emptyBook cfg anchor)).1) := by
  have h := runStats_inv cfg hN ops (emptyBook cfg anchor) rfl
    (goodShape_empty cfg)
    (by
      show (0 : Nat) = cellsOf (emptyBuckets cfg)
      rw [cellsOf_empty]) hflag
  refine ⟨h.2.2.1, ?_⟩
  intro hclr
  have hf := h.2.2.2 hclr
  have h0 : (emptyBook cfg anchor).sc.size = 0 := rfl
  omega

theorem size_accounting_witness :
    0 < cfgUnit.N ∧
    (runStats cfgUnit [Op.ins Side.BID 105 1, Op.ins Side.ASK 111 2,
        Op.del Side.BID 105, Op.reh 112]
      (emptyBook cfgUnit 110)).2.2.1 = false ∧
    (((runStats cfgUnit [Op.ins Side.BID 105 1, Op.ins Side.ASK 111 2,
         Op.del Side.BID 105, Op.reh 112]
       (emptyBook cfgUnit 110)).2.2.2).sc.size =
       cellCount ((runStats cfgUnit [Op.ins Side.BID 105 1,
         Op.ins Side.ASK 111 2, Op.del Side.BID 105, Op.reh 112]
         (emptyBook cfgUnit 110)).2.2.2) ∧
     (Op.clr ∉ [Op.ins Side.BID 105 1, Op.ins Side.ASK 111 2,
         Op.del Side.BID 105, Op.reh 112] →
       ((runStats cfgUnit [Op.ins Side.BID 105 1, Op.ins Side.ASK 111 2,
          Op.del Side.BID 105, Op.reh 112]
          (emptyBook cfgUnit 110)).2.2.2).sc.size +
         (runStats cfgUnit [Op.ins Side.BID 105 1, Op.ins Side.ASK 111 2,
           Op.del Side.BID 105, Op.reh 112]
           (emptyBook cfgUnit 110)).2.1 =
         (runStats cfgUnit [Op.ins Side.BID 105 1, Op.ins Side.ASK 111 2,
           Op.del Side.BID 105, Op.reh 112]
           (emptyBook cfgUnit 110)).1)) :=
  ⟨by decide, by decide,
   size_accounting cfgUnit (by decide) 110
     [Op.ins Side.BID 105 1, Op.ins Side.ASK 111 2, Op.del Side.BID 105,
      Op.reh 112] (by decide)⟩

theorem conflict_symm (cfg : Config) (pA : Int) (s : Side) (k : Int)
    (s2 : Side) (k2 : Int) (h : conflict cfg pA s k s2 k2) :
    conflict cfg pA s2 k2 s k := by
  obtain ⟨h1, h2, h3⟩ := h
  refine ⟨h1.symm, h2.symm, ?_⟩
  rcases h3 with ⟨hcb, hg⟩ | ⟨g1, g2, hk⟩
  · exact Or.inl ⟨hcb.symm, by rw [← hcb]; exact hg⟩
  · exact Or.inr ⟨g2, g1, hk.symm⟩

theorem getD_replicate_cases {α : Type} (n i : Nat) (a d : α) :
    (List.replicate n a).getD i d = a ∨ (List.replicate n a).getD i d = d := by
  by_cases h : i < n
  · left
    rw [List.getD_eq_getElem?_getD, List.getElem?_replicate, if_pos h]
    rfl
  · right
    rw [List.getD_eq_getElem?_getD, List.getElem?_replicate, if_neg h]
    rfl

theorem targetFree_empty (cfg : Config) (pA : Int) (s : Side) (k : Int) :
    targetFree cfg pA s k (emptyBuckets cfg) = true := by
  have hcell : ∀ i,
      ((emptyBuckets cfg).getD i default).first_node.cell s = none ∧
      (∀ j, (((emptyBuckets cfg).getD i default).nodes.getD j
        default).cell s = none) ∧
      ((emptyBuckets cfg).getD i default).overflow_bucket = [] := by
    intro i
    unfold emptyBuckets
    rcases getD_replicate_cases cfg.N i
        ({ first_node := ⟨none, none⟩,
           nodes := List.replicate cfg.C ⟨none, none⟩,
           overflow_bucket := [] } : Bucket) default with h | h <;> rw [h]
    · refine ⟨by cases s <;> rfl, ?_, rfl⟩
      intro j
      rcases getD_replicate_cases cfg.C j (⟨none, none⟩ : BANode) default
        with h2 | h2
      · show ((List.replicate cfg.C (⟨none, none⟩ : BANode)).getD j
          default).cell s = none
        rw [h2]
        cases s <;> rfl
      · show ((List.replicate cfg.C (⟨none, none⟩ : BANode)).getD j
          default).cell s = none
        rw [h2]
        cases s <;> rfl
    · refine ⟨by cases s <;> rfl, ?_, rfl⟩
      intro j
      show ((([] : List BANode)).getD j default).cell s = none
      cases s <;> rfl
  unfold targetFree
  by_cases c0 : (hashKey cfg pA s k).2.1 = 0
  · rw [if_pos c0, (hcell _).1]
    rfl
  · by_cases cm : (hashKey cfg pA s k).2.1 - 1 < cfg.C
    · rw [if_neg c0, if_pos cm, (hcell _).2.1 _]
      rfl
    · rw [if_neg c0, if_neg cm, (hcell _).2.2]
      rfl

theorem insertRaw_free_true (cfg : Config) (s2 : Side) (k2 v2 : Int)
    (bks : List Bucket) (pA bA : Int) (sc : Scal)
    (hoff : sc.best_offer = none)
    (hfree : targetFree cfg pA s2 k2 bks = true) :
    (insertRaw cfg s2 k2 v2 bks pA bA sc).2.1 = true := by
  have hub := updateBBO_offer_none cfg bA s2 k2 sc hoff
  rcases insertRaw_cases cfg s2 k2 v2 bks pA bA sc with
    ⟨h0, hocc, heq⟩ | ⟨h0, hocc, heq⟩ | ⟨h0, hmid, hocc, heq⟩ |
    ⟨h0, hmid, hocc, heq⟩ | ⟨h0, hmid, hfn, heq⟩ |
    ⟨h0, hmid, ⟨n, hf, ho⟩, heq⟩ | ⟨h0, hmid, ⟨n, hf, ho⟩, heq⟩
  · unfold targetFree at hfree
    rw [if_pos h0, hocc] at hfree
    exact Bool.noConfusion hfree
  · rw [heq]
    show (updateBBO cfg bA s2 k2 sc).1.isNone = true
    rw [hub.2]
    rfl
  · unfold targetFree at hfree
    rw [if_neg h0, if_pos hmid, hocc] at hfree
    exact Bool.noConfusion hfree
  · rw [heq]
    show (updateBBO cfg bA s2 k2 sc).1.isNone = true
    rw [hub.2]
    rfl
  · rw [heq]
  · unfold targetFree at hfree
    rw [if_neg h0, if_neg hmid, hf] at hfree
    exact Bool.noConfusion hfree
  · unfold targetFree at hfree
    rw [if_neg h0, if_neg hmid, hf] at hfree
    exact Bool.noConfusion hfree

theorem insertRaw_keeps_free (cfg : Config) (pA bA : Int) (bks : List Bucket)
    (sc : Scal) (s : Side) (k : Int) (s2 : Side) (k2 v2 : Int)
    (hnc : ¬ conflict cfg pA s k s2 k2)
    (hfree : targetFree cfg pA s k bks = true) :
    targetFree cfg pA s k (insertRaw cfg s2 k2 v2 bks pA bA sc).2.2.1
      = true := by
  rcases insertRaw_cases cfg s2 k2 v2 bks pA bA sc with
    ⟨h0, hocc, heq⟩ | ⟨h0, hocc, heq⟩ | ⟨h0, hmid, hocc, heq⟩ |
    ⟨h0, hmid, hocc, heq⟩ | ⟨h0, hmid, hfn, heq⟩ | ⟨h0, hmid, hex, heq⟩ |
    ⟨h0, hmid, hex, heq⟩
  · rw [show (insertRaw cfg s2 k2 v2 bks pA bA sc).2.2.1 = bks from
      by rw [heq]]
    exact hfree
  · -- write into the first slot
    rw [show (insertRaw cfg s2 k2 v2 bks pA bA sc).2.2.1 =
        bks.set (hashKey cfg pA s2 k2).1
          { bks.getD (hashKey cfg pA s2 k2).1 default with
            first_node := (bks.getD (hashKey cfg pA s2 k2).1
              default).first_node.setCell s2 (some (k2, v2)) } from
      by rw [heq]]
    by_cases hb : (hashKey cfg pA s k).1 = (hashKey cfg pA s2 k2).1
    · by_cases hlen : (hashKey cfg pA s2 k2).1 < bks.length
      · have hgd : (bks.set (hashKey cfg pA s2 k2).1
            { bks.getD (hashKey cfg pA s2 k2).1 default with
              first_node := (bks.getD (hashKey cfg pA s2 k2).1
                default).first_node.setCell s2 (some (k2, v2)) }).getD
            (hashKey cfg pA s k).1 default =
            { bks.getD (hashKey cfg pA s2 k2).1 default with
              first_node := (bks.getD (hashKey cfg pA s2 k2).1
                default).first_node.setCell s2 (some (k2, v2)) } := by
          rw [hb]
          exact getD_set_self bks _ _ default hlen
        unfold targetFree at hfree ⊢
        rw [hgd]
        by_cases c0 : (hashKey cfg pA s k).2.1 = 0
        · rw [if_pos c0] at hfree ⊢
          by_cases hss : s = s2
          · exact absurd ⟨hss, hb, Or.inl ⟨by rw [c0, h0], Or.inl c0⟩⟩ hnc
          · show (!((((bks.getD (hashKey cfg pA s2 k2).1
              default).first_node.setCell s2 (some (k2, v2))).cell s).isSome))
              = true
            rw [cell_setCell_other _ s s2 _ (fun h => hss h.symm)]
            rw [hb] at hfree
            exact hfree
        · by_cases cm : (hashKey cfg pA s k).2.1 - 1 < cfg.C
          · rw [if_neg c0, if_pos cm] at hfree ⊢
            show (!((((bks.getD (hashKey cfg pA s2 k2).1 default).nodes.getD
              ((hashKey cfg pA s k).2.1 - 1) default).cell s).isSome)) = true
            rw [hb] at hfree
            exact hfree
          · rw [if_neg c0, if_neg cm] at hfree ⊢
            show (findNode s k (bks.getD (hashKey cfg pA s2 k2).1
              default).overflow_bucket).isNone = true
            rw [hb] at hfree
            exact hfree
      · rw [List.set_eq_of_length_le (Nat.le_of_not_lt hlen)]
        exact hfree
    · have hgd : (bks.set (hashKey cfg pA s2 k2).1
          { bks.getD (hashKey cfg pA s2 k2).1 default with
            first_node := (bks.getD (hashKey cfg pA s2 k2).1
              default).first_node.setCell s2 (some (k2, v2)) }).getD
          (hashKey cfg pA s k).1 default =
          bks.getD (hashKey cfg pA s k).1 default :=
        getD_set_ne bks _ _ _ default (fun h => hb h.symm)
      unfold targetFree at hfree ⊢
      rw [hgd]
      exact hfree
  · rw [show (insertRaw cfg s2 k2 v2 bks pA bA sc).2.2.1 = bks from
      by rw [heq]]
    exact hfree
  · -- write into a secondary slot
    rw [show (insertRaw cfg s2 k2 v2 bks pA bA sc).2.2.1 =
        bks.set (hashKey cfg pA s2 k2).1
          { bks.getD (hashKey cfg pA s2 k2).1 default with
            nodes := (bks.getD (hashKey cfg pA s2 k2).1 default).nodes.set
              ((hashKey cfg pA s2 k2).2.1 - 1)
              (((bks.getD (hashKey cfg pA s2 k2).1 default).nodes.getD
                ((hashKey cfg pA s2 k2).2.1 - 1) default).setCell s2
                (some (k2, v2))) } from by rw [heq]]
    by_cases hb : (hashKey cfg pA s k).1 = (hashKey cfg pA s2 k2).1
    · by_cases hlen : (hashKey cfg pA s2 k2).1 < bks.length
      · have hgd : (bks.set (hashKey cfg pA s2 k2).1
            { bks.getD (hashKey cfg pA s2 k2).1 default with
              nodes := (bks.getD (hashKey cfg pA s2 k2).1 default).nodes.set
                ((hashKey cfg pA s2 k2).2.1 - 1)
                (((bks.getD (hashKey cfg pA s2 k2).1 default).nodes.getD
                  ((hashKey cfg pA s2 k2).2.1 - 1) default).setCell s2
                  (some (k2, v2))) }).getD (hashKey cfg pA s k).1 default =
            { bks.getD (hashKey cfg pA s2 k2).1 default with
              nodes := (bks.getD (hashKey cfg pA s2 k2).1 default).nodes.set
                ((hashKey cfg pA s2 k2).2.1 - 1)
                (((bks.getD (hashKey cfg pA s2 k2).1 default).nodes.getD
                  ((hashKey cfg pA s2 k2).2.1 - 1) default).setCell s2
                  (some (k2, v2))) } := by
          rw [hb]
          exact getD_set_self bks _ _ default hlen
        unfold targetFree at hfree ⊢
        rw [hgd]
        by_cases c0 : (hashKey cfg pA s k).2.1 = 0
        · rw [if_pos c0] at hfree ⊢
          show (!(((bks.getD (hashKey cfg pA s2 k2).1
            default).first_node.cell s).isSome)) = true
          rw [hb] at hfree
          exact hfree
        · by_cases cm : (hashKey cfg pA s k).2.1 - 1 < cfg.C
          · rw [if_neg c0, if_pos cm] at hfree ⊢
            show (!(((((bks.getD (hashKey cfg pA s2 k2).1
              default).nodes.set ((hashKey cfg pA s2 k2).2.1 - 1)
              (((bks.getD (hashKey cfg pA s2 k2).1 default).nodes.getD
                ((hashKey cfg pA s2 k2).2.1 - 1) default).setCell s2
                (some (k2, v2)))).getD ((hashKey cfg pA s k).2.1 - 1)
              default).cell s).isSome)) = true
            by_cases hslot : (hashKey cfg pA s2 k2).2.1 - 1 =
                (hashKey cfg pA s k).2.1 - 1
            · by_cases hss : s = s2
              · exact absurd ⟨hss, hb, Or.inl ⟨by omega, Or.inr cm⟩⟩ hnc
              · rw [show (hashKey cfg pA s k).2.1 - 1 =
                  (hashKey cfg pA s2 k2).2.1 - 1 from hslot.symm]
                by_cases hnlen : (hashKey cfg pA s2 k2).2.1 - 1 <
                    (bks.getD (hashKey cfg pA s2 k2).1 default).nodes.length
                · rw [getD_set_self _ _ _ default hnlen]
                  rw [cell_setCell_other _ s s2 _ (fun h => hss h.symm)]
                  rw [hb, show (hashKey cfg pA s k).2.1 - 1 =
                    (hashKey cfg pA s2 k2).2.1 - 1 from hslot.symm] at hfree
                  exact hfree
                · rw [List.set_eq_of_length_le (Nat.le_of_not_lt hnlen)]
                  rw [hb, show (hashKey cfg pA s k).2.1 - 1 =
                    (hashKey cfg pA s2 k2).2.1 - 1 from hslot.symm] at hfree
                  exact hfree
            · rw [getD_set_ne _ _ _ _ default hslot]
              rw [hb] at hfree
              exact hfree
          · rw [if_neg c0, if_neg cm] at hfree ⊢
            show (findNode s k (bks.getD (hashKey cfg pA s2 k2).1
              default).overflow_bucket).isNone = true
            rw [hb] at hfree
            exact hfree
      · rw [List.set_eq_of_length_le (Nat.le_of_not_lt hlen)]
        exact hfree
    · have hgd : (bks.set (hashKey cfg pA s2 k2).1
          { bks.getD (hashKey cfg pA s2 k2).1 default with
            nodes := (bks.getD (hashKey cfg pA s2 k2).1 default).nodes.set
              ((hashKey cfg pA s2 k2).2.1 - 1)
              (((bks.getD (hashKey cfg pA s2 k2).1 default).nodes.getD
                ((hashKey cfg pA s2 k2).2.1 - 1) default).setCell s2
                (some (k2, v2))) }).getD (hashKey cfg pA s k).1 default =
          bks.getD (hashKey cfg pA s k).1 default :=
        getD_set_ne bks _ _ _ default (fun h => hb h.symm)
      unfold targetFree at hfree ⊢
      rw [hgd]
      exact hfree
  · -- prepend to the overflow list
    rw [show (insertRaw cfg s2 k2 v2 bks pA bA sc).2.2.1 =
        bks.set (hashKey cfg pA s2 k2).1
          { bks.getD (hashKey cfg pA s2 k2).1 default with
            overflow_bucket := CollisionNode.mk' k2 v2 s2
              (hashKey cfg pA s2 k2).2.1 ::
              (bks.getD (hashKey cfg pA s2 k2).1
                default).overflow_bucket } from by rw [heq]]
    by_cases hb : (hashKey cfg pA s k).1 = (hashKey cfg pA s2 k2).1
    · by_cases hlen : (hashKey cfg pA s2 k2).1 < bks.length
      · have hgd : (bks.set (hashKey cfg pA s2 k2).1
            { bks.getD (hashKey cfg pA s2 k2).1 default with
              overflow_bucket := CollisionNode.mk' k2 v2 s2
                (hashKey cfg pA s2 k2).2.1 ::
                (bks.getD (hashKey cfg pA s2 k2).1
                  default).overflow_bucket }).getD
            (hashKey cfg pA s k).1 default =
            { bks.getD (hashKey cfg pA s2 k2).1 default with
              overflow_bucket := CollisionNode.mk' k2 v2 s2
                (hashKey cfg pA s2 k2).2.1 ::
                (bks.getD (hashKey cfg pA s2 k2).1
                  default).overflow_bucket } := by
          rw [hb]
          exact getD_set_self bks _ _ default hlen
        unfold targetFree at hfree ⊢
        rw [hgd]
        by_cases c0 : (hashKey cfg pA s k).2.1 = 0
        · rw [if_pos c0] at hfree ⊢
          show (!(((bks.getD (hashKey cfg pA s2 k2).1
            default).first_node.cell s).isSome)) = true
          rw [hb] at hfree
          exact hfree
        · by_cases cm : (hashKey cfg pA s k).2.1 - 1 < cfg.C
          · rw [if_neg c0, if_pos cm] at hfree ⊢
            show (!((((bks.getD (hashKey cfg pA s2 k2).1 default).nodes.getD
              ((hashKey cfg pA s k).2.1 - 1) default).cell s).isSome)) = true
            rw [hb] at hfree
            exact hfree
          · rw [if_neg c0, if_neg cm] at hfree ⊢
            show (findNode s k (CollisionNode.mk' k2 v2 s2
              (hashKey cfg pA s2 k2).2.1 ::
              (bks.getD (hashKey cfg pA s2 k2).1
                default).overflow_bucket)).isNone = true
            rw [findNode_cons_skip]
            · rw [hb] at hfree
              exact hfree
            · intro p hp hpk
              by_cases hss : s = s2
              · rw [hss, cell_mk'_same] at hp
                have hpp : (k2, v2) = p := Option.some.inj hp
                have hk2 : p.1 = k2 := by rw [← hpp]
                rw [hpk] at hk2
                exact hnc ⟨hss, hb, Or.inr ⟨fun h => h.elim c0 cm,
                  fun h => h.elim h0 hmid, hk2⟩⟩
              · rw [cell_mk'_other k2 v2 s s2 _
                  (fun h => hss h.symm)] at hp
                exact Option.noConfusion hp
      · rw [List.set_eq_of_length_le (Nat.le_of_not_lt hlen)]
        exact hfree
    · have hgd : (bks.set (hashKey cfg pA s2 k2).1
          { bks.getD (hashKey cfg pA s2 k2).1 default with
            overflow_bucket := CollisionNode.mk' k2 v2 s2
              (hashKey cfg pA s2 k2).2.1 ::
              (bks.getD (hashKey cfg pA s2 k2).1
                default).overflow_bucket }).getD
          (hashKey cfg pA s k).1 default =
          bks.getD (hashKey cfg pA s k).1 default :=
        getD_set_ne bks _ _ _ default (fun h => hb h.symm)
      unfold targetFree at hfree ⊢
      rw [hgd]
      exact hfree
  · rw [show (insertRaw cfg s2 k2 v2 bks pA bA sc).2.2.1 = bks from
      by rw [heq]]
    exact hfree
  · rw [show (insertRaw cfg s2 k2 v2 bks pA bA sc).2.2.1 = bks from
      by rw [heq]]
    exact hfree

theorem reinsertList_keeps_found (cfg : Config) (pA bA : Int)
    (L : List (Side × Int × Int)) (bks : List Bucket) (sc : Scal)
    (s : Side) (k v : Int)
    (hne : ∀ t ∈ L, ¬ (t.1 = s ∧ t.2.1 = k))
    (hfound : findRaw cfg pA bks s k = (none, some v)) :
    findRaw cfg pA (reinsertList cfg pA bA L bks sc).2.1 s k
      = (none, some v) := by
  induction L generalizing bks sc with
  | nil => exact hfound
  | cons t rest ih =>
    rcases t with ⟨s2, k2, v2⟩
    have hne2 : ¬ (s2 = s ∧ k2 = k) :=
      hne (s2, k2, v2) (List.mem_cons_self _ _)
    have hkeep := insertRaw_keeps_found cfg pA bA bks sc s k v s2 k2 v2
      hne2 hfound
    rcases hr : insertRaw cfg s2 k2 v2 bks pA bA sc with ⟨e, ok, bks1, sc1⟩
    rw [hr] at hkeep
    cases e with
    | some err =>
      have hred : reinsertList cfg pA bA ((s2, k2, v2) :: rest) bks sc =
          (some err, bks1, sc1) := by
        simp only [reinsertList, hr]
      rw [hred]
      exact hkeep
    | none =>
      cases ok with
      | false =>
        have hred : reinsertList cfg pA bA ((s2, k2, v2) :: rest) bks sc =
            (some "Failed to insert into new buckets", bks1, sc1) := by
          simp only [reinsertList, hr]
        rw [hred]
        exact hkeep
      | true =>
        have hred : reinsertList cfg pA bA ((s2, k2, v2) :: rest) bks sc =
            reinsertList cfg pA bA rest bks1 sc1 := by
          simp only [reinsertList, hr]
        rw [hred]
        exact ih bks1 sc1 (fun t ht => hne t (List.mem_cons_of_mem _ ht))
          hkeep

theorem reinsertList_spec (cfg : Config) (pA bA : Int)
    (L : List (Side × Int × Int)) (bks : List Bucket) (sc : Scal)
    (hN : 0 < cfg.N) (hs : goodShape cfg bks) (hoff : sc.best_offer = none)
    (hfree : ∀ t ∈ L, targetFree cfg pA t.1 t.2.1 bks = true)
    (hpw : List.Pairwise (fun t t' : Side × Int × Int =>
      ¬ conflict cfg pA t.1 t.2.1 t'.1 t'.2.1 ∧
      ¬ (t'.1 = t.1 ∧ t'.2.1 = t.2.1)) L) :
    (reinsertList cfg pA bA L bks sc).1 = none ∧
    ∀ t ∈ L, findRaw cfg pA (reinsertList cfg pA bA L bks sc).2.1 t.1 t.2.1 =
      (none, some t.2.2) := by
  induction L generalizing bks sc with
  | nil => exact ⟨rfl, fun t ht => absurd ht (List.not_mem_nil t)⟩
  | cons t rest ih =>
    rcases t with ⟨s, k, v⟩
    have hfreet : targetFree cfg pA s k bks = true :=
      hfree (s, k, v) (List.mem_cons_self _ _)
    have hok := insertRaw_free_true cfg s k v bks pA bA sc hoff hfreet
    have hc := insertRaw_counts cfg s k v bks pA bA sc hN hs hoff
    rcases List.pairwise_cons.mp hpw with ⟨hhead, hrest⟩
    rcases hr : insertRaw cfg s k v bks pA bA sc with ⟨e, ok, bks1, sc1⟩
    rw [hr] at hok hc
    have he0 : e = none := hc.1
    have hok0 : ok = true := hok
    subst he0
    subst hok0
    have hred : reinsertList cfg pA bA ((s, k, v) :: rest) bks sc =
        reinsertList cfg pA bA rest bks1 sc1 := by
      simp only [reinsertList, hr]
    have hs1 : goodShape cfg bks1 := by
      have h := insertRaw_goodShape cfg s k v bks pA bA sc hs hN
      rw [hr] at h
      exact h
    have hoff1 : sc1.best_offer = none := hc.2.1
    have hfound1 : findRaw cfg pA bks1 s k = (none, some v) :=
      insertRaw_success_found cfg pA bA bks sc s k v bks1 sc1 hN hs hr
    have hfree1 : ∀ t ∈ rest, targetFree cfg pA t.1 t.2.1 bks1 = true := by
      intro t2 ht2
      have hnc : ¬ conflict cfg pA t2.1 t2.2.1 s k :=
        fun hcf => (hhead t2 ht2).1 (conflict_symm cfg pA t2.1 t2.2.1 s k hcf)
      have h := insertRaw_keeps_free cfg pA bA bks sc t2.1 t2.2.1 s k v hnc
        (hfree t2 (List.mem_cons_of_mem _ ht2))
      rw [hr] at h
      exact h
    obtain ⟨zerr, zfound⟩ := ih bks1 sc1 hs1 hoff1 hfree1 hrest
    rw [hred]
    refine ⟨zerr, ?_⟩
    intro t2 ht2
    rcases List.mem_cons.mp ht2 with hh | hh
    · subst hh
      exact reinsertList_keeps_found cfg pA bA rest bks1 sc1 s k v
        (fun t3 ht3 => (hhead t3 ht3).2) hfound1
    · exact zfound t2 hh

/-- C5 (amended): `rehash(new_anchor)` preserves the book exactly when no two
stored `(side, key)` pairs contend for the same cell under the new anchor
(same side and same primary bucket with the same non-overflow slot, or both
overflow-routed with equal keys) and the stored pairs are distinct: then it
raises nothing, keeps every stored triple findable with its value, leaves
`size` unchanged and installs the new anchor.  A fatal wrap is never the
failure mode — a wrapped key is simply overflow-routed (collision index
`C+1`) — and, as the counterexample shows, `rehash` can throw even when no
key wraps, whenever two keys land on the same non-overflow cell. -/
theorem rehash_preservation (cfg : Config) (book : Book) (a : Int)
    (hN : 0 < cfg.N) (hoff : book.sc.best_offer = none)
    (hs : goodShape cfg book.buckets)
    (hsz : book.sc.size = cellsOf book.buckets)
    (hpw : List.Pairwise (fun t t' : Side × Int × Int =>
      ¬ conflict cfg a t.1 t.2.1 t'.1 t'.2.1 ∧
      ¬ (t'.1 = t.1 ∧ t'.2.1 = t.2.1)) (bookTriples book)) :
    (rehashB cfg book a).1 = none ∧
    (rehashB cfg book a).2.hashing_mid_price = a ∧
    ((rehashB cfg book a).2).sc.size = book.sc.size ∧
    ∀ t ∈ bookTriples book,
      findB cfg (rehashB cfg book a).2 t.1 t.2.1 = (none, some t.2.2) := by
  have hoff0 : ({ book.sc with size := 0 } : Scal).best_offer = none := hoff
  have hfree : ∀ t ∈ bookTriples book,
      targetFree cfg a t.1 t.2.1 (emptyBuckets cfg) = true :=
    fun t _ => targetFree_empty cfg a t.1 t.2.1
  have hspec := reinsertList_spec cfg a book.hashing_mid_price
    (bookTriples book) (emptyBuckets cfg) { book.sc with size := 0 }
    hN (goodShape_empty cfg) hoff0 hfree hpw
  have hcnt := reinsertList_counts cfg a book.hashing_mid_price
    (bookTriples book) (emptyBuckets cfg) { book.sc with size := 0 }
    hN (goodShape_empty cfg) hoff0 hspec.1
  rcases hr : reinsertList cfg a book.hashing_mid_price (bookTriples book)
      (emptyBuckets cfg) { book.sc with size := 0 } with ⟨e, bks1, sc1⟩
  rw [hr] at hspec hcnt
  have he0 : e = none := hspec.1
  subst he0
  have hred : rehashB cfg book a =
      (none, { buckets := bks1, hashing_mid_price := a, sc := sc1 }) := by
    simp only [rehashB, hr]
  rw [hred]
  refine ⟨rfl, rfl, ?_, ?_⟩
  · show sc1.size = book.sc.size
    have h1 : sc1.size = ({ book.sc with size := 0 } : Scal).size +
        (bookTriples book).length := hcnt.1
    have h0 : ({ book.sc with size := 0 } : Scal).size = 0 := rfl
    have h5 := cellsOf_empty cfg
    have h6 := bookTriples_length book
    omega
  · intro t ht
    exact hspec.2 t ht

theorem rehash_preservation_witness :
    0 < cfgUnit.N ∧
    ((insertB cfgUnit (emptyBook cfgUnit 110) Side.ASK 111 2).2.2).sc.best_offer
      = none ∧
    goodShape cfgUnit
      ((insertB cfgUnit (emptyBook cfgUnit 110) Side.ASK 111 2).2.2).buckets ∧
    ((insertB cfgUnit (emptyBook cfgUnit 110) Side.ASK 111 2).2.2).sc.size =
      cellsOf
        ((insertB cfgUnit (emptyBook cfgUnit 110) Side.ASK 111 2).2.2).buckets ∧
    List.Pairwise (fun t t' : Side × Int × Int =>
      ¬ conflict cfgUnit 112 t.1 t.2.1 t'.1 t'.2.1 ∧
      ¬ (t'.1 = t.1 ∧ t'.2.1 = t.2.1))
      (bookTriples ((insertB cfgUnit (emptyBook cfgUnit 110)
        Side.ASK 111 2).2.2)) ∧
    ((rehashB cfgUnit ((insertB cfgUnit (emptyBook cfgUnit 110)
        Side.ASK 111 2).2.2) 112).1 = none ∧
     (rehashB cfgUnit ((insertB cfgUnit (emptyBook cfgUnit 110)
        Side.ASK 111 2).2.2) 112).2.hashing_mid_price = 112 ∧
     ((rehashB cfgUnit ((insertB cfgUnit (emptyBook cfgUnit 110)
        Side.ASK 111 2).2.2) 112).2).sc.size =
       ((insertB cfgUnit (emptyBook cfgUnit 110) Side.ASK 111 2).2.2).sc.size ∧
     ∀ t ∈ bookTriples ((insertB cfgUnit (emptyBook cfgUnit 110)
        Side.ASK 111 2).2.2),
       findB cfgUnit (rehashB cfgUnit ((insertB cfgUnit
         (emptyBook cfgUnit 110) Side.ASK 111 2).2.2) 112).2 t.1 t.2.1 =
         (none, some t.2.2)) :=
  ⟨by decide, by decide, by decide, by decide,
   by
     show List.Pairwise _ [(Side.ASK, (111 : Int), (2 : Int))]
     exact List.Pairwise.cons (fun y hy => absurd hy (List.not_mem_nil y))
       List.Pairwise.nil,
   rehash_preservation cfgUnit
     ((insertB cfgUnit (emptyBook cfgUnit 110) Side.ASK 111 2).2.2) 112
     (by decide) (by decide) (by decide) (by decide)
     (by
       show List.Pairwise _ [(Side.ASK, (111 : Int), (2 : Int))]
       exact List.Pairwise.cons (fun y hy => absurd hy (List.not_mem_nil y))
         List.Pairwise.nil)⟩

theorem tier_routing_witness :
    0 < cfgUnit.N ∧
    goodShape cfgUnit (emptyBook cfgUnit 110).buckets ∧
    cfgUnit.C + 1 ≤ (hashKey cfgUnit
      (emptyBook cfgUnit 110).hashing_mid_price Side.ASK 146).2.1 ∧
    findB cfgUnit (emptyBook cfgUnit 110) Side.ASK 146 = (none, none) :=
  ⟨by decide, by decide, by decide,
   (tier_routing cfgUnit (emptyBook cfgUnit 110) Side.ASK 146 0
     (by decide) (by decide)).2.1.2.2 (by decide)⟩
